import Mathlib

/-!
# Family tree CGI application: embedding and verified properties

A shallow embedding of the C sources `database.c`, `main.c` and
`web_interface.c`.

Conventions of the embedding.

* A C string (`char*`) is a `String`: its characters are the bytes before the
  terminating NUL.  A pointer that may be `NULL` is an `Option String`.
* The SQLite database behind `sqlite3 *db` is a `Store`: the rows of the two
  content tables in scan order, and the AUTOINCREMENT counters of
  `sqlite_sequence`.  Columns follow the DDL of `create_tables`: a `NOT NULL`
  column has no `Option`, a column restricted by `CHECK (... IN ...)` ranges
  over an enumeration of the admitted values.
* SQL leaves the row order of a join open.  The three join statements are
  evaluated the way SQLite plans them: a scan of `relationships` with a rowid
  lookup in `people` for each matching row.
* Row ids and timestamps are mathematical integers.  Exhaustion of storage,
  of the rowid space or of memory and failure to prepare a statement (the
  tables exist once `create_tables` has run) are not modelled.  A number that
  comes out of a request is read by `atoi` and is a C `int`: the `long` of
  `strtol`, cut to its low 32 bits.
* `time(NULL)` is an explicit argument `now` of every function that reads the
  clock.
* Text written with `printf` is returned as a `String`.
* A function that recurses takes a first argument `fuel`, the number of nested
  activations it may use; `none` means the fuel ran out.
* A run that reads an array entry never written, or hands a null pointer to
  `strcmp`, has no result: the function returns `none`.  Where a claim is about
  the bounds of a buffer, the loop is given a second time with the buffer and
  its indices explicit (`url_decode_in_buffer`, `html_escape_fill_in`), and a
  read or write outside the buffer has no result either.
* The content of an uninitialised variable is an explicit argument (`junk`):
  what the `int hex` of the decoding loop holds before the first `sscanf` of a
  parse.  From then on the variable holds the last number that was converted.
* What `main` reads from its host (`QUERY_STRING`, the request body, the clock,
  the calendar year) is collected in a `Host`.
-/

namespace FamilyTree

/-! ## Data structures (`family_tree.h`) -/

/-- One character of a C string given by its code. -/
def chr (n : Nat) : Char := Char.ofNat n

/-- The apostrophe, `'\''` in the source. -/
def apostrophe : Char := chr 39

/-- The NUL character, `'\0'` in the source. -/
def nul : Char := chr 0

/-- In-memory record `Person`. -/
structure Person where
  id : Int
  first_name : Option String
  last_name : Option String
  gender : Char
  birth_date : Option String
  death_date : Option String
  bio : Option String
  photo_url : Option String
  created_at : Int
  updated_at : Int
deriving DecidableEq, Repr

/-- In-memory record `Relationship`. -/
structure Relationship where
  id : Int
  person1_id : Int
  person2_id : Int
  relationship_type : Option String
  marriage_date : Option String
  divorce_date : Option String
  created_at : Int
  updated_at : Int
deriving DecidableEq, Repr

/-- The state left by `memset(&person, 0, sizeof(Person))`. -/
def Person.zero : Person :=
  ⟨0, none, none, nul, none, none, none, none, 0, 0⟩

/-- The state left by `memset(&rel, 0, sizeof(Relationship))`. -/
def Relationship.zero : Relationship :=
  ⟨0, 0, 0, none, none, none, 0, 0⟩

/-! ## The store (`create_tables` in `database.c`) -/

/-- Values of the column `people.gender`, declared
`TEXT CHECK(gender IN ('M', 'F'))`.  Both writers (`add_person`,
`update_person`) bind a one-byte text, so the column always holds one of the
two texts. -/
inductive Gender where
  | M
  | F
deriving DecidableEq, Repr

/-- Values of the column `relationships.relationship_type`, declared
`TEXT NOT NULL CHECK(relationship_type IN ('parent-child', 'spouse'))`. -/
inductive RelType where
  | parent_child
  | spouse
deriving DecidableEq, Repr

/-- The `CHECK` on `people.gender` applied to a bound text. -/
def Gender.check (text : String) : Option Gender :=
  if text = "M" then some Gender.M
  else if text = "F" then some Gender.F
  else none

/-- First byte of the stored gender text, as read by
`*((const char*)sqlite3_column_text(stmt, 3))`. -/
def Gender.toChar : Gender → Char
  | Gender.M => 'M'
  | Gender.F => 'F'

/-- The `NOT NULL` and `CHECK` constraints on `relationships.relationship_type`
applied to a bound value (`none` is SQL NULL). -/
def RelType.check (text : Option String) : Option RelType :=
  if text = some "parent-child" then some RelType.parent_child
  else if text = some "spouse" then some RelType.spouse
  else none

/-- A row of table `people`. -/
structure PeopleRow where
  id : Int
  first_name : String
  last_name : String
  gender : Gender
  birth_date : Option String
  death_date : Option String
  bio : Option String
  photo_url : Option String
  created_at : Int
  updated_at : Int
deriving DecidableEq, Repr

/-- A row of table `relationships`.  The `FOREIGN KEY` clauses are not enforced:
the program never issues `PRAGMA foreign_keys = ON`. -/
structure RelationshipRow where
  id : Int
  person1_id : Int
  person2_id : Int
  relationship_type : RelType
  marriage_date : Option String
  divorce_date : Option String
  created_at : Int
  updated_at : Int
deriving DecidableEq, Repr

/-- The database: both content tables in scan order and, for each, the
AUTOINCREMENT counter kept in `sqlite_sequence` (the largest rowid ever
used). -/
structure Store where
  people : List PeopleRow
  relationships : List RelationshipRow
  people_seq : Int
  relationships_seq : Int
deriving DecidableEq, Repr

/-- The database right after `create_tables` on a new file. -/
def Store.empty : Store := ⟨[], [], 0, 0⟩

/-- Rowid chosen by an `INTEGER PRIMARY KEY AUTOINCREMENT` insert: one more than
the largest rowid ever used, that is one more than the larger of the rowids in
the table and the `sqlite_sequence` counter. -/
def new_rowid (ids : List Int) (seq : Int) : Int :=
  ids.foldl max seq + 1

/-! ## Record access (`database.c`, `main.c`) -/

/-- The function `add_person` of `database.c`.  The result is the return value,
the `Person` as left in `*person`, and the database afterwards.  The insert
fails (`SQLITE_CONSTRAINT`) when a name is `NULL` or the one-byte gender text
is rejected by the `CHECK`. -/
def add_person (db : Store) (now : Int) (person : Person) : Int × Person × Store :=
  let person := { person with created_at := now, updated_at := now }
  match person.first_name, person.last_name,
      Gender.check (String.singleton person.gender) with
  | some first_name, some last_name, some gender =>
    let rowid := new_rowid (db.people.map (fun r => r.id)) db.people_seq
    let row : PeopleRow :=
      ⟨rowid, first_name, last_name, gender, person.birth_date, person.death_date,
        person.bio, person.photo_url, person.created_at, person.updated_at⟩
    (0, { person with id := rowid },
      { db with people := db.people ++ [row], people_seq := rowid })
  | _, _, _ => (1, person, db)

/-- The columns of a `people` row copied into a `Person`, as done after
`SELECT * FROM people` / `SELECT p.*`. -/
def PeopleRow.toPerson (r : PeopleRow) : Person :=
  ⟨r.id, some r.first_name, some r.last_name, r.gender.toChar, r.birth_date,
    r.death_date, r.bio, r.photo_url, r.created_at, r.updated_at⟩

/-- The statement `SELECT * FROM people WHERE id = ?`: a lookup by rowid. -/
def select_person (db : Store) (id : Int) : Option PeopleRow :=
  db.people.find? (fun r => r.id = id)

/-- The function `get_person_by_id` of `main.c`: `some p` is return value 0 with
`*person = p`, `none` is return value 1 (person not found, `*person`
untouched). -/
def get_person_by_id (db : Store) (id : Int) : Option Person :=
  (select_person db id).map PeopleRow.toPerson

/-- The function `update_person` of `main.c`: the return value, the `Person` as
left in `*person`, and the database afterwards.  The statement
`UPDATE people SET ... WHERE id = ?` rewrites every row with that id; when no
row has it the statement still completes with `SQLITE_DONE`, and the function
looks at nothing else.  A `NULL` name or a gender text rejected by the `CHECK`
fails the statement (`SQLITE_CONSTRAINT`) when there is a row to rewrite. -/
def update_person (db : Store) (now : Int) (person : Person) : Int × Person × Store :=
  let person := { person with updated_at := now }
  if db.people.all (fun r => r.id ≠ person.id) then (0, person, db)
  else
    match person.first_name, person.last_name,
        Gender.check (String.singleton person.gender) with
    | some first_name, some last_name, some gender =>
      (0, person,
        { db with
          people := db.people.map (fun r =>
            if r.id = person.id then
              { r with
                first_name := first_name, last_name := last_name, gender := gender
                birth_date := person.birth_date, death_date := person.death_date
                bio := person.bio, photo_url := person.photo_url
                updated_at := person.updated_at }
            else r) })
    | _, _, _ => (1, person, db)

/-- The function `add_relationship` of `database.c`.  The insert fails when
`relationship_type` is `NULL` or not admitted by the `CHECK`; no check is made
that `person1_id` or `person2_id` name a `people` row. -/
def add_relationship (db : Store) (now : Int) (rel : Relationship) :
    Int × Relationship × Store :=
  let rel := { rel with created_at := now, updated_at := now }
  match RelType.check rel.relationship_type with
  | some relationship_type =>
    let rowid := new_rowid (db.relationships.map (fun r => r.id)) db.relationships_seq
    let row : RelationshipRow :=
      ⟨rowid, rel.person1_id, rel.person2_id, relationship_type, rel.marriage_date,
        rel.divorce_date, rel.created_at, rel.updated_at⟩
    (0, { rel with id := rowid },
      { db with relationships := db.relationships ++ [row], relationships_seq := rowid })
  | none => (1, rel, db)

/-- Rows of
`SELECT p.* FROM people p JOIN relationships r ON p.id = r.person2_id
 WHERE r.person1_id = ? AND r.relationship_type = 'parent-child'`:
one row per matching relationship whose `person2_id` is the rowid of a person,
in the scan order of `relationships`. -/
def select_children (db : Store) (parent_id : Int) : List PeopleRow :=
  db.relationships.filterMap (fun r =>
    if r.person1_id = parent_id ∧ r.relationship_type = RelType.parent_child
    then select_person db r.person2_id else none)

/-- The function `get_children` of `database.c`: the return value, the array
`*children` and `*count`.  The first loop counts the rows, the second fills the
array, which is allocated only when the count is positive. -/
def get_children (db : Store) (parent_id : Int) : Int × List Person × Int :=
  let rows := select_children db parent_id
  let count : Int := rows.length
  if count > 0 then (0, rows.map PeopleRow.toPerson, count) else (0, [], count)

/-- Rows of
`SELECT p.* FROM people p JOIN relationships r ON p.id = r.person1_id
 WHERE r.person2_id = ? AND r.relationship_type = 'parent-child'`. -/
def select_parents (db : Store) (child_id : Int) : List PeopleRow :=
  db.relationships.filterMap (fun r =>
    if r.person2_id = child_id ∧ r.relationship_type = RelType.parent_child
    then select_person db r.person1_id else none)

/-- One iteration of the `while` loop of `get_parents`: the row is copied into
`father` when its gender byte is `M`, into `mother` when it is `F`. -/
def get_parents_step (fm : Person × Person) (row : PeopleRow) : Person × Person :=
  let gender := row.gender.toChar
  if gender = 'M' then (row.toPerson, fm.2)
  else if gender = 'F' then (fm.1, row.toPerson)
  else fm

/-- The function `get_parents` of `main.c`: the return value, `*father` and
`*mother`.  Both start zeroed by `memset`; a later row of the same gender
overwrites an earlier one. -/
def get_parents (db : Store) (child_id : Int) : Int × Person × Person :=
  let fm := (select_parents db child_id).foldl get_parents_step (Person.zero, Person.zero)
  (0, fm.1, fm.2)

/-- Rows of
`SELECT p.* FROM people p JOIN relationships r
   ON p.id = (CASE WHEN r.person1_id = ? THEN r.person2_id ELSE r.person1_id END)
 WHERE (r.person1_id = ? OR r.person2_id = ?) AND r.relationship_type = 'spouse'
   AND (r.divorce_date IS NULL OR r.divorce_date = '')`. -/
def select_spouse (db : Store) (person_id : Int) : List PeopleRow :=
  db.relationships.filterMap (fun r =>
    if (r.person1_id = person_id ∨ r.person2_id = person_id)
        ∧ r.relationship_type = RelType.spouse
        ∧ (r.divorce_date = none ∨ r.divorce_date = some "")
    then select_person db (if r.person1_id = person_id then r.person2_id else r.person1_id)
    else none)

/-- The function `get_spouse` of `main.c`: the return value and `*spouse`.  Only
the first row is read; without a row the result is 1 (spouse not found) and
`*spouse` stays zeroed. -/
def get_spouse (db : Store) (person_id : Int) : Int × Person :=
  match select_spouse db person_id with
  | row :: _ => (0, row.toPerson)
  | [] => (1, Person.zero)

/-- What the loop of `get_parents` leaves in the slot of gender `g`: the last row
of that gender, or the zeroed record. -/
def last_of_gender (rows : List PeopleRow) (g : Gender) : Person :=
  match (rows.filter (fun row => row.gender = g)).getLast? with
  | some row => row.toPerson
  | none => Person.zero

/-! ## CGI parameters (`main.c`) -/

/-- One `CGIParam`: a name and its decoded value. -/
structure CGIParam where
  name : String
  value : String
deriving DecidableEq, Repr

/-- The array `params.params` of `params.count` entries.  An entry is `none`
when it was allocated but never written. -/
abbrev CGIParams := List (Option CGIParam)

/-- The function `get_cgi_param`: `some (some v)` is the value of the first
entry with that name, `some none` is `NULL` (no entry has the name), and `none`
means the scan reached an entry that was never written, whose name pointer
`strcmp` cannot read. -/
def get_cgi_param : CGIParams → String → Option (Option String)
  | [], _ => some none
  | none :: _, _ => none
  | some p :: params, name =>
    if p.name = name then some (some p.value) else get_cgi_param params name

/-- The function `free_cgi_params`: the loop frees the name and the value of
each of the `count` entries.  The result is `none` when an entry was never
written, whose pointers `free` cannot take. -/
def free_cgi_params (params : CGIParams) : Option Unit :=
  if params.all (fun entry => entry.isSome) then some () else none

/-- The C predicate `isspace` in the "C" locale. -/
def isspace (c : Char) : Bool :=
  c = ' ' || (9 ≤ c.toNat && c.toNat ≤ 13)

/-- Digit loop of `strtol` in base 10: the decimal value of the leading digits. -/
def atoi_digits : List Char → Int → Int
  | [], acc => acc
  | c :: cs, acc =>
    if c.isDigit then atoi_digits cs (acc * 10 + ((c.toNat - 48 : Nat) : Int)) else acc

/-- The value that `strtol` reports: the number itself, or `LONG_MAX` or
`LONG_MIN` when it lies outside `long` (64 bits). -/
def strtol_clamp (v : Int) : Int :=
  if v > 9223372036854775807 then 9223372036854775807
  else if v < -9223372036854775808 then -9223372036854775808
  else v

/-- The conversion of a `long` to `int`: the low 32 bits, read as a signed
number. -/
def int_of_long (v : Int) : Int :=
  (v + 2147483648) % 4294967296 - 2147483648

/-- The C library function `atoi`, which is `(int) strtol(s, NULL, 10)`: leading
white space, an optional sign, then decimal digits; 0 when there is no digit.
The result is the `int` that the program receives: a number outside `int` keeps
its low 32 bits, so `4294967298` reads as 2. -/
def atoi (s : String) : Int :=
  int_of_long (strtol_clamp
    (match s.toList.dropWhile isspace with
     | '-' :: cs => - atoi_digits cs 0
     | '+' :: cs => atoi_digits cs 0
     | cs => atoi_digits cs 0))

/-- The idiom `p && *p ? strdup(p) : NULL`: a non-empty value or `NULL`. -/
def non_empty (p : Option String) : Option String :=
  match p with
  | some v => if v = "" then none else some v
  | none => none

/-- Value of a hexadecimal digit: `0`-`9` (codes 48-57), `a`-`f` (97-102),
`A`-`F` (65-70). -/
def hex_digit (c : Char) : Option Nat :=
  if 48 ≤ c.toNat ∧ c.toNat ≤ 57 then some (c.toNat - 48)
  else if 97 ≤ c.toNat ∧ c.toNat ≤ 102 then some (c.toNat - 87)
  else if 65 ≤ c.toNat ∧ c.toNat ≤ 70 then some (c.toNat - 55)
  else none

/-- The call `sscanf(s, "%2x", &hex)`: `some v` when an item is converted and
stored, `none` when nothing is stored.  White space is skipped first; then at
most two characters are read: an optional sign and hexadecimal digits (with
two characters `0x` the item read is the `0`, as in glibc). -/
def sscanf_2x (s : List Char) : Option Int :=
  match s.dropWhile isspace with
  | [] => none
  | c1 :: rest =>
    if c1 = '-' ∨ c1 = '+' then
      match rest with
      | c2 :: _ =>
        (hex_digit c2).map (fun d => if c1 = '-' then - (d : Int) else (d : Int))
      | [] => none
    else
      match hex_digit c1 with
      | none => none
      | some d1 =>
        match rest with
        | c2 :: _ =>
          match hex_digit c2 with
          | some d2 => some ((16 * d1 + d2 : Nat) : Int)
          | none => some (d1 : Int)
        | [] => some (d1 : Int)

/-- The assignment `*dst = hex`: an `int` stored into a `char`. -/
def char_of_int (hex : Int) : Char :=
  chr (hex % 256).toNat

/-- The decoding loop of `parse_query_string` over the characters of a value:
the bytes written through `dst`.  The first argument is what the `int hex`
holds when the loop starts.  The variable is declared without initialiser
inside the loop and occupies the same place in every iteration: `sscanf`
overwrites it when it converts a number and leaves it alone otherwise, and
`*dst = hex` stores what it holds either way.  A `%` is decoded only when two
more characters follow (`src[1] && src[2]`); the two characters are then skipped
whatever they are. -/
def url_decode : Int → List Char → List Char
  | _, [] => []
  | _, [c] => [if c = '+' then ' ' else c]
  | hex, [c, c1] => (if c = '+' then ' ' else c) :: url_decode hex [c1]
  | hex, c :: c1 :: c2 :: rest =>
    if c = '+' then ' ' :: url_decode hex (c1 :: c2 :: rest)
    else if c = '%' then
      char_of_int ((sscanf_2x (c1 :: c2 :: rest)).getD hex)
        :: url_decode ((sscanf_2x (c1 :: c2 :: rest)).getD hex) rest
    else c :: url_decode hex (c1 :: c2 :: rest)

/-- What `hex` holds when the decoding loop has run over a value: the last
number that `sscanf` converted, or the content at the start when it converted
none. -/
def hex_after : Int → List Char → Int
  | hex, [] => hex
  | hex, [_] => hex
  | hex, [_, c1] => hex_after hex [c1]
  | hex, c :: c1 :: c2 :: rest =>
    if c = '+' then hex_after hex (c1 :: c2 :: rest)
    else if c = '%' then hex_after ((sscanf_2x (c1 :: c2 :: rest)).getD hex) rest
    else hex_after hex (c1 :: c2 :: rest)

/-- The C string held by a buffer: the bytes before the first NUL. -/
def c_string (bytes : List Char) : List Char :=
  bytes.takeWhile (fun c => c ≠ nul)

/-- One iteration of the token loop of `parse_query_string`: the token is split
at its first `=` (`strchr`) and the value decoded in place; a token without `=`
gets the empty value.  `hex` is what the variable of that name holds when the
iteration starts. -/
def parse_token (hex : Int) (token : List Char) : CGIParam :=
  if '=' ∈ token then
    ⟨String.mk (token.takeWhile (fun c => c ≠ '=')),
      String.mk (c_string (url_decode hex ((token.dropWhile (fun c => c ≠ '=')).drop 1)))⟩
  else ⟨String.mk token, ""⟩

/-- What `hex` holds after the iteration of the token loop for one token. -/
def token_hex (hex : Int) (token : List Char) : Int :=
  if '=' ∈ token then hex_after hex ((token.dropWhile (fun c => c ≠ '=')).drop 1)
  else hex

/-- The token loop of `parse_query_string`: one entry per token, each iteration
starting with the `hex` that the one before left. -/
def parse_tokens : Int → List (List Char) → List CGIParam
  | _, [] => []
  | hex, token :: tokens =>
    parse_token hex token :: parse_tokens (token_hex hex token) tokens

/-- The tokens that `strtok(qs, "&")` and `strtok(NULL, "&")` return: the
non-empty runs of characters other than `&`. -/
def strtok_tokens (qs : List Char) : List (List Char) :=
  (qs.splitOn '&').filter (fun t => t ≠ [])

/-- The function `parse_query_string` of `main.c`.  `count` is one more than the
number of `&`; the array has `count` entries, of which the loop writes one per
token and leaves the others unwritten.  `junk` is the indeterminate content of
the uninitialised `hex` at the first `sscanf`. -/
def parse_query_string (junk : Int) (query_string : Option String) : CGIParams :=
  match query_string with
  | none => []
  | some qs =>
    if qs = "" then []
    else
      let count := 1 + qs.data.count '&'
      let tokens := (strtok_tokens qs.data).take count
      (parse_tokens junk tokens).map some
        ++ List.replicate (count - tokens.length) none

/-- A write `buf[i] = c`; `none` when index `i` lies outside the buffer. -/
def poke (buf : List Char) (i : Nat) (c : Char) : Option (List Char) :=
  if i < buf.length then some (buf.set i c) else none

/-- The C string at `buf + i` as a library function reads it: the bytes from
index `i` up to the terminator; `none` when no terminator stands between index
`i` and the end of the buffer. -/
def string_at (buf : List Char) (i : Nat) : Option (List Char) :=
  if nul ∈ buf.drop i then some (c_string (buf.drop i)) else none

/-- The test `src[1] && src[2]`: `src[2]` is read only when `src[1]` is not NUL;
`none` when a byte that is read lies outside the buffer. -/
def escape_follows (buf : List Char) (src : Nat) : Option Bool :=
  match buf[src + 1]? with
  | none => none
  | some c1 =>
    if c1 = nul then some false
    else
      match buf[src + 2]? with
      | none => none
      | some c2 => some (decide (c2 ≠ nul))

/-- The decoding loop of `parse_query_string` on the buffer that holds the
value, with `src` and `dst` as indices, followed by `*dst = 0`: the buffer
afterwards and the final `dst`.  The first argument is what `hex` holds, the
second bounds the number of iterations; the result is `none` when the bound
runs out or when a read or a write falls outside the buffer. -/
def url_decode_in_buffer : Int → Nat → List Char → Nat → Nat → Option (List Char × Nat)
  | _, 0, _, _, _ => none
  | hex, fuel + 1, buf, src, dst =>
    match buf[src]? with
    | none => none
    | some c =>
      if c = nul then (poke buf dst nul).map (fun buf => (buf, dst))
      else if c = '+' then
        (poke buf dst ' ').bind (fun buf =>
          url_decode_in_buffer hex fuel buf (src + 1) (dst + 1))
      else
        match (if c = '%' then escape_follows buf src else some false) with
        | none => none
        | some true =>
          match string_at buf (src + 1) with
          | none => none
          | some text =>
            (poke buf dst (char_of_int ((sscanf_2x text).getD hex))).bind (fun buf =>
              url_decode_in_buffer ((sscanf_2x text).getD hex) fuel buf (src + 3) (dst + 1))
        | some false =>
          (poke buf dst c).bind (fun buf =>
            url_decode_in_buffer hex fuel buf (src + 1) (dst + 1))

/-- Every `%` that the decoding loop meets in `w` has its two following
characters inside `w`: the loop started at the head of `w` arrives exactly at
the end of `w`. -/
def decode_boundary : List Char → Bool
  | [] => true
  | [c] => decide (c ≠ '%')
  | [c, c1] => decide (c ≠ '%') && decode_boundary [c1]
  | c :: c1 :: c2 :: rest =>
    if c = '%' then decode_boundary rest else decode_boundary (c1 :: c2 :: rest)

/-- URL-decoding as the specification words it: `+` becomes a space, `%`
followed by two hexadecimal digits XY becomes the byte 16*X+Y, every other
character is copied. -/
def url_decode_spec : List Char → List Char
  | [] => []
  | [c] => [if c = '+' then ' ' else c]
  | [c, c1] => (if c = '+' then ' ' else c) :: url_decode_spec [c1]
  | c :: c1 :: c2 :: rest =>
    if c = '+' then ' ' :: url_decode_spec (c1 :: c2 :: rest)
    else
      match (if c = '%' then hex_digit c1 else none), hex_digit c2 with
      | some x, some y => chr (16 * x + y) :: url_decode_spec rest
      | _, _ => c :: url_decode_spec (c1 :: c2 :: rest)

/-- A value whose escapes are well formed: every `%` that has two characters
after it is followed by two hexadecimal digits other than `00`. -/
def escapes_well_formed : List Char → Bool
  | [] => true
  | [_] => true
  | [_, _] => true
  | c :: c1 :: c2 :: rest =>
    if c = '%' then
      match hex_digit c1, hex_digit c2 with
      | some x, some y => decide (16 * x + y ≠ 0) && escapes_well_formed rest
      | _, _ => false
    else escapes_well_formed (c1 :: c2 :: rest)

/-- The text of one token of a query string: a name with its raw value, or a
bare name. -/
def token_text (t : String × Option String) : List Char :=
  match t.2 with
  | some v => t.1.data ++ '=' :: v.data
  | none => t.1.data

/-- The query string `n1=v1&...&nk=vk` made of the given tokens. -/
def query_of (tokens : List (String × Option String)) : String :=
  String.mk (['&'].intercalate (tokens.map token_text))

/-- The pair the specification expects for one token: the name as written and
the URL-decoding of the value, empty for a bare name. -/
def decoded_pair (t : String × Option String) : CGIParam :=
  match t.2 with
  | some v => ⟨t.1, String.mk (url_decode_spec v.data)⟩
  | none => ⟨t.1, ""⟩

/-- The request parameters that `process_add_person` extracts in its first
block, each the result of one `get_cgi_param`. -/
structure AddPersonParams where
  first_name : Option String
  last_name : Option String
  gender_str : Option String
  birth_date : Option String
  death_date : Option String
  bio : Option String
  photo_url : Option String
  parent_id_str : Option String
  relationship_type : Option String
  marriage_date : Option String
deriving DecidableEq, Repr

/-- First block of `process_add_person`: the ten lookups. -/
def extract_add_person_params (params : CGIParams) : Option AddPersonParams :=
  match get_cgi_param params "first_name", get_cgi_param params "last_name",
      get_cgi_param params "gender", get_cgi_param params "birth_date",
      get_cgi_param params "death_date", get_cgi_param params "bio",
      get_cgi_param params "photo_url", get_cgi_param params "parent_id",
      get_cgi_param params "relationship_type",
      get_cgi_param params "marriage_date" with
  | some first_name, some last_name, some gender_str, some birth_date,
      some death_date, some bio, some photo_url, some parent_id_str,
      some relationship_type, some marriage_date =>
    some ⟨first_name, last_name, gender_str, birth_date, death_date, bio, photo_url,
      parent_id_str, relationship_type, marriage_date⟩
  | _, _, _, _, _, _, _, _, _, _ => none

/-- The `Person` that `process_add_person` builds from the parameters. -/
def new_person_of (f : AddPersonParams) : Person :=
  { Person.zero with
    first_name := some (f.first_name.getD "")
    last_name := some (f.last_name.getD "")
    gender := match f.gender_str with
      | some g => g.toList.headD nul
      | none => 'M'
    birth_date := non_empty f.birth_date
    death_date := non_empty f.death_date
    bio := non_empty f.bio
    photo_url := non_empty f.photo_url }

/-- The `Relationship` that `process_add_person` builds: zeroed by `memset`,
then filled by the branch of the `strcmp` chain that matches; no branch matches
any other type, which leaves the record zeroed. -/
def new_relationship_of (relationship_type : String) (marriage_date : Option String)
    (parent_id new_person_id : Int) : Relationship :=
  if relationship_type = "parent-child" then
    { Relationship.zero with
      person1_id := parent_id, person2_id := new_person_id
      relationship_type := some "parent-child"
      marriage_date := none, divorce_date := none }
  else if relationship_type = "spouse" then
    { Relationship.zero with
      person1_id := parent_id, person2_id := new_person_id
      relationship_type := some "spouse"
      marriage_date := non_empty marriage_date, divorce_date := none }
  else if relationship_type = "child" then
    { Relationship.zero with
      person1_id := new_person_id, person2_id := parent_id
      relationship_type := some "parent-child"
      marriage_date := none, divorce_date := none }
  else Relationship.zero

/-- The conversion `parent_id_str ? atoi(parent_id_str) : 0`. -/
def parent_id_of (f : AddPersonParams) : Int :=
  match f.parent_id_str with
  | some v => atoi v
  | none => 0

/-- Body of `process_add_person` after the lookups: the database afterwards and
the text printed.  `now1` and `now2` are the clock readings of `add_person` and
of `add_relationship`. -/
def process_add_person_body (db : Store) (f : AddPersonParams) (now1 now2 : Int) :
    Store × String :=
  let parent_id := parent_id_of f
  let added := add_person db now1 (new_person_of f)
  if added.1 = 0 then
    let new_person_id := added.2.1.id
    let db1 := added.2.2
    let db2 := match f.relationship_type with
      | some relationship_type =>
        if parent_id > 0 then
          (add_relationship db1 now2
            (new_relationship_of relationship_type f.marriage_date parent_id
              new_person_id)).2.2
        else db1
      | none => db1
    (db2, "<p>Person added successfully.</p>\n"
      ++ "<a href=\"?action=view_profile&id=" ++ toString new_person_id
      ++ "\" class=\"btn-primary\">View Profile</a>\n")
  else (added.2.2, "<p>Error adding person.</p>\n")

/-- The function `process_add_person` of `main.c`; `none` when a lookup reads an
entry of `params` that was never written. -/
def process_add_person (db : Store) (params : CGIParams) (now1 now2 : Int) :
    Option (Store × String) :=
  (extract_add_person_params params).map (fun f => process_add_person_body db f now1 now2)

/-! ## HTML escaping (`web_interface.c`) -/

/-- Counting pass of `html_escape`: the extra bytes one character needs
(the `switch` of the first loop). -/
def html_escape_extra (c : Char) : Nat :=
  if c = '&' then 4
  else if c = '<' then 3
  else if c = '>' then 3
  else if c = '"' then 5
  else if c = apostrophe then 5
  else 0

/-- First loop of `html_escape`: `escaped_len` starts at `len` and grows by the
extra bytes of every character. -/
def html_escape_len (str : List Char) : Nat :=
  str.foldl (fun escaped_len c => escaped_len + html_escape_extra c) str.length

/-- Second loop of `html_escape`.  `escaped` holds the bytes written below the
index `j`; a `strcpy` of an entity writes its characters at `j` (its terminator
is overwritten by the next write) and `j` advances by the entity length. -/
def html_escape_fill : List Char → List Char → Nat → List Char × Nat
  | [], escaped, j => (escaped, j)
  | c :: str, escaped, j =>
    if c = '&' then html_escape_fill str (escaped ++ "&amp;".toList) (j + 5)
    else if c = '<' then html_escape_fill str (escaped ++ "&lt;".toList) (j + 4)
    else if c = '>' then html_escape_fill str (escaped ++ "&gt;".toList) (j + 4)
    else if c = '"' then html_escape_fill str (escaped ++ "&quot;".toList) (j + 6)
    else if c = apostrophe then html_escape_fill str (escaped ++ "&#039;".toList) (j + 6)
    else html_escape_fill str (escaped ++ [c]) (j + 1)

/-- The function `html_escape`: `strdup("")` for a `NULL` argument, otherwise the
buffer filled by the second loop and terminated at `j`. -/
def html_escape (str : Option String) : String :=
  match str with
  | none => ""
  | some s => String.mk (html_escape_fill s.toList [] 0).1

/-- Entity table as the specification words it: the text that stands for one
character in escaped output. -/
def escape_entity (c : Char) : String :=
  if c = '&' then "&amp;"
  else if c = '<' then "&lt;"
  else if c = '>' then "&gt;"
  else if c = '"' then "&quot;"
  else if c = apostrophe then "&#039;"
  else String.singleton c

/-- Character-by-character concatenation of the entity table over a string, the
specification of `html_escape` on a non-null argument. -/
def escape_concat (s : String) : String :=
  String.join (s.toList.map escape_entity)

/-- The five entities that `html_escape` writes. -/
def html_entities : List String :=
  ["&amp;", "&lt;", "&gt;", "&quot;", "&#039;"]

/-- Second loop of `html_escape` run on a buffer of `size` bytes.  A `strcpy` of
an entity writes its characters and its terminator, one byte more than `j`
advances; `escaped[j++] = str[i]` writes one byte.  The result is `none` when a
write falls outside the buffer. -/
def html_escape_fill_in (size : Nat) : List Char → List Char → Nat → Option (List Char × Nat)
  | [], escaped, j => some (escaped, j)
  | c :: str, escaped, j =>
    if c = '&' then
      if j + 6 ≤ size then html_escape_fill_in size str (escaped ++ "&amp;".toList) (j + 5)
      else none
    else if c = '<' then
      if j + 5 ≤ size then html_escape_fill_in size str (escaped ++ "&lt;".toList) (j + 4)
      else none
    else if c = '>' then
      if j + 5 ≤ size then html_escape_fill_in size str (escaped ++ "&gt;".toList) (j + 4)
      else none
    else if c = '"' then
      if j + 7 ≤ size then html_escape_fill_in size str (escaped ++ "&quot;".toList) (j + 6)
      else none
    else if c = apostrophe then
      if j + 7 ≤ size then html_escape_fill_in size str (escaped ++ "&#039;".toList) (j + 6)
      else none
    else
      if j + 1 ≤ size then html_escape_fill_in size str (escaped ++ [c]) (j + 1)
      else none

/-- The function `html_escape` on a non-null string with its buffer explicit:
`malloc(escaped_len + 1)`, the second loop, and the final `escaped[j] = 0`,
which has to fall inside the buffer as well. -/
def html_escape_in_buffer (str : String) : Option String :=
  let size := html_escape_len str.toList + 1
  match html_escape_fill_in size str.toList [] 0 with
  | some (escaped, j) => if j + 1 ≤ size then some (String.mk escaped) else none
  | none => none

/-! ## Rendering (`main.c`, `web_interface.c`) -/

/-- The function `render_person_card` of `main.c`: nothing for a record whose
`id` is 0, otherwise one `person-card` block. -/
def render_person_card (person : Person) : String :=
  if person.id = 0 then ""
  else
    let escaped_first_name := html_escape person.first_name
    let escaped_last_name := html_escape person.last_name
    let gender_class := if person.gender = 'M' then "male" else "female"
    "<div class=\"person-card " ++ gender_class ++ "\">\n"
    ++ (match person.photo_url with
        | some photo_url =>
          "  <img src=\"" ++ html_escape (some photo_url) ++ "\" alt=\""
            ++ escaped_first_name ++ " " ++ escaped_last_name
            ++ "\" class=\"person-photo\">\n"
        | none => "  <div class=\"person-photo-placeholder\"></div>\n")
    ++ "  <h3>" ++ escaped_first_name ++ " " ++ escaped_last_name ++ "</h3>\n"
    ++ (match person.birth_date with
        | some birth_date => "  <p>Born: " ++ html_escape (some birth_date) ++ "</p>\n"
        | none => "")
    ++ (match person.death_date with
        | some death_date => "  <p>Died: " ++ html_escape (some death_date) ++ "</p>\n"
        | none => "")
    ++ "  <a href=\"?action=view_profile&id=" ++ toString person.id
    ++ "\" class=\"btn-primary\">View Profile</a>\n"
    ++ "</div>\n"

/-- The children block of `render_family_tree`: one card per row of the children
query (the loop copies the row into `child`, whose timestamps it leaves unset
and `render_person_card` never reads). -/
def render_children_block (db : Store) (root_id : Int) : String :=
  "<div class=\"tree-children\">\n"
  ++ String.join ((select_children db root_id).map
      (fun row => render_person_card row.toPerson))
  ++ "</div>\n"

/-- The function `render_family_tree` of `web_interface.c`, returning the text
it prints.  The first argument bounds the nesting of activations. -/
def render_family_tree : Nat → Store → Int → Int → Option String
  | 0, _, _, _ => none
  | fuel + 1, db, root_id, levels =>
    if levels ≤ 0 then some ""
    else
      match get_person_by_id db root_id with
      | none => some "<p>Person not found.</p>"
      | some person =>
        let spouse := get_spouse db root_id
        let head := "<div class=\"tree-level\">\n" ++ render_person_card person
          ++ (if spouse.1 = 0 then render_person_card spouse.2 else "")
        let parents : Option String :=
          if levels > 1 then
            let found := get_parents db root_id
            if found.1 = 0 then
              let father := found.2.1
              let mother := found.2.2
              match
                (if father.id ≠ 0 then render_family_tree fuel db father.id (levels - 1)
                 else some ""),
                (if mother.id ≠ 0 then render_family_tree fuel db mother.id (levels - 1)
                 else some "") with
              | some father_tree, some mother_tree =>
                some ("<div class=\"tree-parents\">\n" ++ father_tree ++ mother_tree
                  ++ "</div>\n")
              | _, _ => none
            else some ""
          else some ""
        parents.map (fun parents_block =>
          head ++ parents_block ++ render_children_block db root_id ++ "</div>\n")

/-- The part of `generate_tree_json` printed before the children: id, name,
birth date, optional death date and optional spouse. -/
def tree_json_head (db : Store) (person_id : Int) (person : Person) : String :=
  let spouse := get_spouse db person_id
  "\x7b\n"
  ++ "  \"id\": " ++ toString person.id ++ ",\n"
  ++ "  \"name\": \"" ++ html_escape person.first_name ++ " "
  ++ html_escape person.last_name ++ "\",\n"
  ++ (match person.birth_date with
      | some birth_date => "  \"birthDate\": \"" ++ html_escape (some birth_date) ++ "\",\n"
      | none => "  \"birthDate\": \"Unknown\",\n")
  ++ (match person.death_date with
      | some death_date => "  \"deathDate\": \"" ++ html_escape (some death_date) ++ "\",\n"
      | none => "")
  ++ (if spouse.1 = 0 ∧ spouse.2.id > 0 then
        "  \"spouse\": \x7b\n"
        ++ "    \"id\": " ++ toString spouse.2.id ++ ",\n"
        ++ "    \"name\": \"" ++ html_escape spouse.2.first_name ++ " "
        ++ html_escape spouse.2.last_name ++ "\"\n"
        ++ "  \x7d,\n"
      else "")

/-- The function `generate_tree_json` of `web_interface.c`, returning the text
it prints.  The first argument bounds the nesting of activations. -/
def generate_tree_json : Nat → Store → Int → Int → Option String
  | 0, _, _, _ => none
  | fuel + 1, db, person_id, levels =>
    if levels ≤ 0 then some "null"
    else
      match get_person_by_id db person_id with
      | none => some "null"
      | some person =>
        let found := get_children db person_id
        let children : Option String :=
          if found.1 = 0 ∧ found.2.2 > 0 then
            (found.2.1.mapM (fun child =>
                generate_tree_json fuel db child.id (levels - 1))).map
              (fun items => "  \"children\": [\n" ++ String.intercalate ",\n" items
                ++ "\n  ]")
          else some "  \"children\": []"
        children.map (fun children_block =>
          tree_json_head db person_id person ++ children_block ++ "\n\x7d")

/-- One activation of `render_family_tree` with its recursive calls made through
`call`. -/
def render_family_tree_step (call : Int → Int → Option String) (db : Store)
    (root_id levels : Int) : Option String :=
  if levels ≤ 0 then some ""
  else
    match get_person_by_id db root_id with
    | none => some "<p>Person not found.</p>"
    | some person =>
      let spouse := get_spouse db root_id
      let head := "<div class=\"tree-level\">\n" ++ render_person_card person
        ++ (if spouse.1 = 0 then render_person_card spouse.2 else "")
      let parents : Option String :=
        if levels > 1 then
          let found := get_parents db root_id
          if found.1 = 0 then
            let father := found.2.1
            let mother := found.2.2
            match
              (if father.id ≠ 0 then call father.id (levels - 1) else some ""),
              (if mother.id ≠ 0 then call mother.id (levels - 1) else some "") with
            | some father_tree, some mother_tree =>
              some ("<div class=\"tree-parents\">\n" ++ father_tree ++ mother_tree
                ++ "</div>\n")
            | _, _ => none
          else some ""
        else some ""
      parents.map (fun parents_block =>
        head ++ parents_block ++ render_children_block db root_id ++ "</div>\n")

/-- One activation of `generate_tree_json` with its recursive calls made through
`call`. -/
def generate_tree_json_step (call : Int → Int → Option String) (db : Store)
    (person_id levels : Int) : Option String :=
  if levels ≤ 0 then some "null"
  else
    match get_person_by_id db person_id with
    | none => some "null"
    | some person =>
      let found := get_children db person_id
      let children : Option String :=
        if found.1 = 0 ∧ found.2.2 > 0 then
          (found.2.1.mapM (fun child => call child.id (levels - 1))).map
            (fun items => "  \"children\": [\n" ++ String.intercalate ",\n" items
              ++ "\n  ]")
        else some "  \"children\": []"
      children.map (fun children_block =>
        tree_json_head db person_id person ++ children_block ++ "\n\x7d")

/-- The `parent-child` rows with `person1_id = parent_id`, in scan order. -/
def child_rows (db : Store) (parent_id : Int) : List RelationshipRow :=
  db.relationships.filter (fun r =>
    r.person1_id = parent_id ∧ r.relationship_type = RelType.parent_child)

/-- The cards of a children block as the specification words them: one card for
each `parent-child` row with `person1_id = parent_id` whose `person2_id` names a
person. -/
def child_cards (db : Store) (parent_id : Int) : List String :=
  ((child_rows db parent_id).filterMap (fun r => get_person_by_id db r.person2_id)).map
    render_person_card

/-- The text `part` occurs in the text `whole`. -/
def occurs_in (part whole : String) : Bool :=
  whole.data.tails.any (fun rest => part.data.isPrefixOf rest)

/-- Texts that `generate_tree_json` prints, by the depth to which person objects
nest in them: `null` holds no object, and an object whose `children` array
holds texts of depth at most `n` has depth at most `n + 1`. -/
inductive JsonDepth (db : Store) : Nat → String → Prop
  | null (n : Nat) : JsonDepth db n "null"
  | leaf (n : Nat) (person_id : Int) (person : Person) :
    JsonDepth db (n + 1)
      (tree_json_head db person_id person ++ "  \"children\": []" ++ "\n\x7d")
  | node (n : Nat) (person_id : Int) (person : Person) (items : List String) :
    (∀ item ∈ items, JsonDepth db n item) →
    JsonDepth db (n + 1)
      (tree_json_head db person_id person
        ++ ("  \"children\": [\n" ++ String.intercalate ",\n" items ++ "\n  ]")
        ++ "\n\x7d")

/-! ## Pages (`web_interface.c`, `main.c`) -/

/-- The function `print_html_header` of `web_interface.c`. -/
def print_html_header (title : String) : String :=
  "Content-Type: text/html\n\n"
    ++ "<!DOCTYPE html>\n"
    ++ "<html lang=\"en\">\n"
    ++ "<head>\n"
    ++ "  <meta charset=\"UTF-8\">\n"
    ++ "  <meta name=\"viewport\" content=\"width=device-width, initial-scale=1.0\">\n"
    ++ "  <title>" ++ title ++ "</title>\n"
    ++ "  <link rel=\"stylesheet\" href=\"/styles.css\">\n"
    ++ "  <script src=\"https://cdnjs.cloudflare.com/ajax/libs/d3/7.8.5/d3.min.js\"></script>\n"
    ++ "  <script src=\"/family-tree.js\"></script>\n"
    ++ "</head>\n"
    ++ "<body>\n"
    ++ "  <header>\n"
    ++ "    <h1>" ++ title ++ "</h1>\n"
    ++ "    <nav>\n"
    ++ "      <ul>\n"
    ++ "        <li><a href=\"/\">Home</a></li>\n"
    ++ "        <li><a href=\"/tree\">Family Tree</a></li>\n"
    ++ "        <li><a href=\"/login\">Login</a></li>\n"
    ++ "      </ul>\n"
    ++ "    </nav>\n"
    ++ "  </header>\n"
    ++ "  <main>\n"

/-- The function `print_html_footer` of `web_interface.c`; `year` is
`tm_year + 1900` of the local time. -/
def print_html_footer (year : Int) : String :=
  "  </main>\n"
    ++ "  <footer>\n"
    ++ "    <p>&copy; " ++ toString year ++ " Family Tree Project</p>\n"
    ++ "  </footer>\n"
    ++ "</body>\n"
    ++ "</html>\n"

/-- One list item of `render_person_profile`: a link to a relative. -/
def profile_link (person : Person) : String :=
  "      <li><a href=\"/person?id=" ++ toString person.id ++ "\">" ++ html_escape person.first_name ++ " " ++ html_escape person.last_name ++ "</a></li>\n"

/-- The function `render_person_profile` of `web_interface.c`. -/
def render_person_profile (db : Store) (person_id : Int) : String :=
  match get_person_by_id db person_id with
  | none => "<p>Person not found.</p>"
  | some person =>
    let found := get_parents db person_id
    let father := found.2.1
    let mother := found.2.2
    let has_father : Bool := found.1 = 0 ∧ father.id > 0
    let has_mother : Bool := mother.id > 0
    let spouse := get_spouse db person_id
    let has_spouse : Bool := spouse.1 = 0 ∧ spouse.2.id > 0
    let kids := get_children db person_id
    "<div class=\"person-profile\">\n"
    ++ "  <h2>" ++ html_escape person.first_name ++ " " ++ html_escape person.last_name ++ "</h2>\n"
    ++ (match person.photo_url with
        | some photo_url => "  <img src=\"" ++ html_escape (some photo_url) ++ "\" alt=\"" ++ html_escape person.first_name ++ " " ++ html_escape person.last_name ++ "\" class=\"profile-photo\">\n"
        | none => "")
    ++ "  <div class=\"person-details\">\n"
    ++ "    <p><strong>Birth:</strong> " ++ (match person.birth_date with
        | some birth_date => html_escape (some birth_date)
        | none => "Unknown") ++ "</p>\n"
    ++ (match person.death_date with
        | some death_date => "    <p><strong>Death:</strong> " ++ html_escape (some death_date) ++ "</p>\n"
        | none => "")
    ++ (match person.bio with
        | some bio =>
          "    <div class=\"bio\">\n"
    ++ "      <h3>Biography</h3>\n"
          ++ "      <p>" ++ html_escape (some bio) ++ "</p>\n"
          ++ "    </div>\n"
        | none => "")
    ++ "  </div>\n"
    ++ (if has_father ∨ has_mother then
          "  <div class=\"family-section parents\">\n"
    ++ "    <h3>Parents</h3>\n"
    ++ "    <ul>\n"
          ++ (if has_father then profile_link father else "")
          ++ (if has_mother then profile_link mother else "")
          ++ "    </ul>\n"
    ++ "  </div>\n"
        else "")
    ++ (if has_spouse then
          "  <div class=\"family-section spouse\">\n"
    ++ "    <h3>Spouse</h3>\n"
    ++ "    <ul>\n"
          ++ profile_link spouse.2
          ++ "    </ul>\n"
    ++ "  </div>\n"
        else "")
    ++ (if kids.1 = 0 ∧ kids.2.2 > 0 then
          "  <div class=\"family-section children\">\n"
    ++ "    <h3>Children</h3>\n"
    ++ "    <ul>\n"
          ++ String.join (kids.2.1.map profile_link)
          ++ "    </ul>\n"
    ++ "  </div>\n"
        else "")
    ++ "  <div class=\"edit-section\">\n"
    ++ "    <form action=\"/edit_person\" method=\"get\">\n"
    ++ "      <input type=\"hidden\" name=\"id\" value=\"" ++ toString person_id ++ "\">\n"
    ++ "      <button type=\"submit\" class=\"edit-button\">Edit Information</button>\n"
    ++ "    </form>\n"
    ++ "  </div>\n"
    ++ "</div>\n"

/-- The function `show_add_person_form` of `main.c`.  The heading and the hidden
inputs test `relationship_type` for `NULL`; the `strcmp` that decides on the
marriage-date field does not, and the result is `none` when it is handed the
null pointer. -/
def show_add_person_form (parent_id : Int) (relationship_type : Option String) :
    Option String :=
  let top :=
    "<h2>Add " ++ relationship_type.getD "Person" ++ "</h2>\n"
    ++ "<form action=\"?action=process_add_person\" method=\"post\">\n"
    ++ (match relationship_type with
        | some relationship_type =>
          if parent_id > 0 then
            "<input type=\"hidden\" name=\"parent_id\" value=\"" ++ toString parent_id ++ "\">\n"
            ++ "<input type=\"hidden\" name=\"relationship_type\" value=\"" ++ relationship_type ++ "\">\n"
          else ""
        | none => "")
    ++ "<div class=\"form-group\">\n"
    ++ "<label for=\"first_name\">First Name:</label>\n"
    ++ "<input type=\"text\" id=\"first_name\" name=\"first_name\" class=\"form-control\" required>\n"
    ++ "</div>\n"
    ++ "<div class=\"form-group\">\n"
    ++ "<label for=\"last_name\">Last Name:</label>\n"
    ++ "<input type=\"text\" id=\"last_name\" name=\"last_name\" class=\"form-control\" required>\n"
    ++ "</div>\n"
    ++ "<div class=\"form-group\">\n"
    ++ "<label for=\"gender\">Gender:</label>\n"
    ++ "<select id=\"gender\" name=\"gender\" class=\"form-control\">\n"
    ++ "<option value=\"M\">Male</option>\n"
    ++ "<option value=\"F\">Female</option>\n"
    ++ "</select>\n"
    ++ "</div>\n"
    ++ "<div class=\"form-group\">\n"
    ++ "<label for=\"birth_date\">Birth Date:</label>\n"
    ++ "<input type=\"date\" id=\"birth_date\" name=\"birth_date\" class=\"form-control\">\n"
    ++ "</div>\n"
    ++ "<div class=\"form-group\">\n"
    ++ "<label for=\"death_date\">Death Date (if applicable):</label>\n"
    ++ "<input type=\"date\" id=\"death_date\" name=\"death_date\" class=\"form-control\">\n"
    ++ "</div>\n"
    ++ "<div class=\"form-group\">\n"
    ++ "<label for=\"bio\">Biography:</label>\n"
    ++ "<textarea id=\"bio\" name=\"bio\" class=\"form-control\" rows=\"5\"></textarea>\n"
    ++ "</div>\n"
    ++ "<div class=\"form-group\">\n"
    ++ "<label for=\"photo_url\">Photo URL:</label>\n"
    ++ "<input type=\"url\" id=\"photo_url\" name=\"photo_url\" class=\"form-control\">\n"
    ++ "</div>\n"
  match relationship_type with
  | none => none
  | some relationship_type =>
    some (top
      ++ (if relationship_type = "spouse" then
            "<div class=\"form-group\">\n"
    ++ "<label for=\"marriage_date\">Marriage Date:</label>\n"
    ++ "<input type=\"date\" id=\"marriage_date\" name=\"marriage_date\" class=\"form-control\">\n"
    ++ "</div>\n"
          else "")
      ++ "<button type=\"submit\" class=\"btn-primary\">Add Person</button>\n"
      ++ "<a href=\"?action=view_profile&id=" ++ toString parent_id ++ "\" class=\"btn-secondary\">Cancel</a>\n"
      ++ "</form>\n")

/-- The function `show_login_form` of `main.c`. -/
def show_login_form : String :=
  "<h2>Login</h2>\n"
    ++ "<div id=\"login-error\" class=\"error-message\"></div>\n"
    ++ "<form onsubmit=\"return handleLogin()\">\n"
    ++ "<div class=\"form-group\">\n"
    ++ "<label for=\"username\">Username:</label>\n"
    ++ "<input type=\"text\" id=\"username\" name=\"username\" class=\"form-control\" required>\n"
    ++ "</div>\n"
    ++ "<div class=\"form-group\">\n"
    ++ "<label for=\"password\">Password:</label>\n"
    ++ "<input type=\"password\" id=\"password\" name=\"password\" class=\"form-control\" required>\n"
    ++ "</div>\n"
    ++ "<button type=\"submit\" class=\"btn-primary\">Login</button>\n"
    ++ "</form>\n"
    ++ "<p>Note: This is a demo application. Login functionality is not fully implemented.</p>\n"

/-- Rows of `SELECT * FROM people ORDER BY created_at DESC LIMIT 5`; rows with
equal `created_at` keep their scan order. -/
def select_recent (db : Store) : List PeopleRow :=
  (db.people.insertionSort (fun a b => b.created_at ≤ a.created_at)).take 5

/-- The function `show_home_page` of `main.c`. -/
def show_home_page (db : Store) : String :=
  "<h2>Welcome to Family Tree Application</h2>\n"
    ++ "<div class=\"home-actions\">\n"
    ++ "<a href=\"?action=add_person\" class=\"btn-primary\">Add New Person</a>\n"
    ++ "<a href=\"?action=view_tree\" class=\"btn-primary\">View Family Tree</a>\n"
    ++ "</div>\n"
    ++ "<h3>Recently Added People</h3>\n"
    ++ "<div class=\"recent-people\">\n"
    ++ String.join ((select_recent db).map (fun row => render_person_card row.toPerson))
    ++ "</div>\n"

/-! ## The entry point (`main` in `main.c`) -/

/-- What the process reads from its host besides the database: the environment
variable `QUERY_STRING`, the request body on standard input, the indeterminate
content of the uninitialised `hex` of `parse_query_string`, the clock readings
of the first and the second write, and the calendar year of the footer. -/
structure Host where
  query_string : Option String
  body : String
  junk : Int
  now1 : Int
  now2 : Int
  year : Int
deriving DecidableEq, Repr

/-- An id parameter: `id_str ? atoi(id_str) : dflt`. -/
def id_of (id_str : Option String) (dflt : Int) : Int :=
  match id_str with
  | some v => atoi v
  | none => dflt

/-- Branch `view_profile` of `main`. -/
def action_view_profile (db : Store) (params : CGIParams) : Option String :=
  (get_cgi_param params "id").map (fun id_str =>
    let id := id_of id_str 0
    if id > 0 then render_person_profile db id
    else "<p>Invalid person ID.</p>")

/-- Branch `view_tree` of `main`.  The tree is rendered with `levels + 1`
activations, which is enough for every store. -/
def action_view_tree (db : Store) (params : CGIParams) : Option String :=
  match get_cgi_param params "root_id", get_cgi_param params "levels" with
  | some root_id_str, some levels_str =>
    let root_id := id_of root_id_str 1
    let levels := id_of levels_str 3
    (render_family_tree (levels.toNat + 1) db root_id levels).map (fun tree =>
      "<div class=\"tree-controls\">\n"
    ++ "<h2>Family Tree</h2>\n"
    ++ "<form action=\"?action=view_tree\" method=\"get\">\n"
    ++ "<input type=\"hidden\" name=\"action\" value=\"view_tree\">\n"
    ++ "<div class=\"form-group\">\n"
    ++ "<label for=\"root_id\">Root Person ID:</label>\n"
      ++ "<input type=\"number\" id=\"root_id\" name=\"root_id\" value=\"" ++ toString root_id ++ "\" class=\"form-control\">\n"
      ++ "</div>\n"
    ++ "<div class=\"form-group\">\n"
    ++ "<label for=\"levels\">Number of Generations:</label>\n"
      ++ "<input type=\"number\" id=\"levels\" name=\"levels\" value=\"" ++ toString levels ++ "\" min=\"1\" max=\"5\" class=\"form-control\">\n"
      ++ "</div>\n"
    ++ "<button type=\"submit\" class=\"btn-primary\">Update Tree</button>\n"
    ++ "</form>\n"
    ++ "</div>\n"
    ++ "<div class=\"tree-container\">\n"
      ++ tree
      ++ "</div>\n")
  | _, _ => none

/-- Branch `add_person` of `main`. -/
def action_add_person (params : CGIParams) : Option String :=
  match get_cgi_param params "person_id", get_cgi_param params "relationship_type" with
  | some parent_id_str, some relationship_type =>
    show_add_person_form (id_of parent_id_str 0) relationship_type
  | _, _ => none

/-- The edit form printed by branch `edit_person` of `main` for a person. -/
def edit_person_form (person : Person) : String :=
  "<h2>Edit Person</h2>\n"
  ++ "<form action=\"?action=process_edit_person\" method=\"post\">\n"
  ++ "<input type=\"hidden\" name=\"id\" value=\"" ++ toString person.id ++ "\">\n"
  ++ "<div class=\"form-group\">\n"
    ++ "<label for=\"first_name\">First Name:</label>\n"
  ++ "<input type=\"text\" id=\"first_name\" name=\"first_name\" value=\"" ++ html_escape person.first_name ++ "\" class=\"form-control\" required>\n"
  ++ "</div>\n"
  ++ "<div class=\"form-group\">\n"
    ++ "<label for=\"last_name\">Last Name:</label>\n"
  ++ "<input type=\"text\" id=\"last_name\" name=\"last_name\" value=\"" ++ html_escape person.last_name ++ "\" class=\"form-control\" required>\n"
  ++ "</div>\n"
  ++ "<div class=\"form-group\">\n"
    ++ "<label for=\"gender\">Gender:</label>\n"
    ++ "<select id=\"gender\" name=\"gender\" class=\"form-control\">\n"
  ++ "<option value=\"M\"" ++ (if person.gender = 'M' then " selected" else "") ++ ">Male</option>\n"
  ++ "<option value=\"F\"" ++ (if person.gender = 'F' then " selected" else "") ++ ">Female</option>\n"
  ++ "</select>\n"
    ++ "</div>\n"
  ++ "<div class=\"form-group\">\n"
    ++ "<label for=\"birth_date\">Birth Date:</label>\n"
  ++ (match person.birth_date with
      | some birth_date => "<input type=\"date\" id=\"birth_date\" name=\"birth_date\" value=\"" ++ html_escape (some birth_date) ++ "\" class=\"form-control\">\n"
      | none => "<input type=\"date\" id=\"birth_date\" name=\"birth_date\" class=\"form-control\">\n")
  ++ "</div>\n"
  ++ "<div class=\"form-group\">\n"
    ++ "<label for=\"death_date\">Death Date (if applicable):</label>\n"
  ++ (match person.death_date with
      | some death_date => "<input type=\"date\" id=\"death_date\" name=\"death_date\" value=\"" ++ html_escape (some death_date) ++ "\" class=\"form-control\">\n"
      | none => "<input type=\"date\" id=\"death_date\" name=\"death_date\" class=\"form-control\">\n")
  ++ "</div>\n"
  ++ "<div class=\"form-group\">\n"
    ++ "<label for=\"bio\">Biography:</label>\n"
  ++ (match person.bio with
      | some bio => "<textarea id=\"bio\" name=\"bio\" class=\"form-control\" rows=\"5\">" ++ html_escape (some bio) ++ "</textarea>\n"
      | none => "<textarea id=\"bio\" name=\"bio\" class=\"form-control\" rows=\"5\"></textarea>\n")
  ++ "</div>\n"
  ++ "<div class=\"form-group\">\n"
    ++ "<label for=\"photo_url\">Photo URL:</label>\n"
  ++ (match person.photo_url with
      | some photo_url => "<input type=\"url\" id=\"photo_url\" name=\"photo_url\" value=\"" ++ html_escape (some photo_url) ++ "\" class=\"form-control\">\n"
      | none => "<input type=\"url\" id=\"photo_url\" name=\"photo_url\" class=\"form-control\">\n")
  ++ "</div>\n"
  ++ "<button type=\"submit\" class=\"btn-primary\">Update Person</button>\n"
  ++ "<a href=\"?action=view_profile&id=" ++ toString person.id ++ "\" class=\"btn-secondary\">Cancel</a>\n"
  ++ "</form>\n"

/-- Branch `edit_person` of `main`. -/
def action_edit_person (db : Store) (params : CGIParams) : Option String :=
  (get_cgi_param params "id").map (fun id_str =>
    let id := id_of id_str 0
    if id > 0 then
      match get_person_by_id db id with
      | some person => edit_person_form person
      | none => "<p>Person not found.</p>"
    else "<p>Invalid person ID.</p>")

/-- The seven form values that branch `process_edit_person` of `main` looks up
once the person is found. -/
structure EditPersonParams where
  first_name : Option String
  last_name : Option String
  gender_str : Option String
  birth_date : Option String
  death_date : Option String
  bio : Option String
  photo_url : Option String
deriving DecidableEq, Repr

/-- The seven lookups of branch `process_edit_person`. -/
def extract_edit_person_params (params : CGIParams) : Option EditPersonParams :=
  match get_cgi_param params "first_name", get_cgi_param params "last_name",
      get_cgi_param params "gender", get_cgi_param params "birth_date",
      get_cgi_param params "death_date", get_cgi_param params "bio",
      get_cgi_param params "photo_url" with
  | some first_name, some last_name, some gender_str, some birth_date,
      some death_date, some bio, some photo_url =>
    some ⟨first_name, last_name, gender_str, birth_date, death_date, bio, photo_url⟩
  | _, _, _, _, _, _, _ => none

/-- The record that branch `process_edit_person` hands to `update_person`: the
person read from the store with the form values written over its fields. -/
def edited_person (person : Person) (f : EditPersonParams) : Person :=
  { person with
    first_name := some (f.first_name.getD "")
    last_name := some (f.last_name.getD "")
    gender := match f.gender_str with
      | some g => g.toList.headD nul
      | none => 'M'
    birth_date := non_empty f.birth_date
    death_date := non_empty f.death_date
    bio := non_empty f.bio
    photo_url := non_empty f.photo_url }

/-- Branch `process_edit_person` of `main`: the database afterwards and the text
printed. -/
def action_process_edit_person (db : Store) (params : CGIParams) (now : Int) :
    Option (Store × String) :=
  match get_cgi_param params "id" with
  | none => none
  | some id_str =>
    let id := id_of id_str 0
    if id > 0 then
      match get_person_by_id db id with
      | some person =>
        (extract_edit_person_params params).map (fun f =>
          let updated := update_person db now (edited_person person f)
          if updated.1 = 0 then
            (updated.2.2,
              "<p>Person updated successfully.</p>\n"
              ++ "<a href=\"?action=view_profile&id=" ++ toString updated.2.1.id ++ "\" class=\"btn-primary\">View Profile</a>\n")
          else (updated.2.2, "<p>Error updating person.</p>\n"))
      | none => some (db, "<p>Person not found.</p>")
    else some (db, "<p>Invalid person ID.</p>")

/-- Branch `add_family_member` of `main`. -/
def action_add_family_member (db : Store) (params : CGIParams) : Option String :=
  (get_cgi_param params "person_id").map (fun person_id_str =>
    let person_id := id_of person_id_str 0
    if person_id > 0 then
      match get_person_by_id db person_id with
      | some person =>
        "<h2>Add Family Member for " ++ html_escape person.first_name ++ " " ++ html_escape person.last_name ++ "</h2>\n"
        ++ "<div class=\"relationship-options\">\n"
        ++ "<a href=\"?action=add_person&person_id=" ++ toString person_id ++ "&relationship_type=parent-child\" class=\"btn-primary\">Add Parent</a>\n"
        ++ "<a href=\"?action=add_person&person_id=" ++ toString person_id ++ "&relationship_type=spouse\" class=\"btn-primary\">Add Spouse</a>\n"
        ++ "<a href=\"?action=add_person&person_id=" ++ toString person_id ++ "&relationship_type=child\" class=\"btn-primary\">Add Child</a>\n"
        ++ "<a href=\"?action=view_profile&id=" ++ toString person_id ++ "\" class=\"btn-secondary\">Cancel</a>\n"
        ++ "</div>\n"
      | none => "<p>Person not found.</p>"
    else "<p>Invalid person ID.</p>")

/-- Branch `delete_person` of `main`: a confirmation form, no write. -/
def action_delete_person (params : CGIParams) : Option String :=
  (get_cgi_param params "id").map (fun id_str =>
    let id := id_of id_str 0
    if id > 0 then
      "<h2>Delete Person</h2>\n"
    ++ "<p>Are you sure you want to delete this person and all related relationships?</p>\n"
      ++ "<form action=\"?action=process_delete_person\" method=\"post\">\n"
      ++ "<input type=\"hidden\" name=\"id\" value=\"" ++ toString id ++ "\">\n"
      ++ "<button type=\"submit\" class=\"btn-primary\">Yes, Delete Person</button>\n"
      ++ "<a href=\"?action=view_profile&id=" ++ toString id ++ "\" class=\"btn-secondary\">Cancel</a>\n"
      ++ "</form>\n"
    else "<p>Invalid person ID.</p>")

/-- Branch `process_delete_person` of `main`: an acknowledgement, no write. -/
def action_process_delete_person (params : CGIParams) : Option String :=
  (get_cgi_param params "id").map (fun id_str =>
    let id := id_of id_str 0
    if id > 0 then
      "<p>Person deletion functionality is not implemented in this demo.</p>\n"
    ++ "<a href=\"?action=home\" class=\"btn-primary\">Return to Home</a>\n"
    else "<p>Invalid person ID.</p>")

/-- ASCII lower case, the folding that `LIKE` applies. -/
def ascii_lower (c : Char) : Char :=
  if 65 ≤ c.toNat ∧ c.toNat ≤ 90 then chr (c.toNat + 32) else c

/-- The SQLite operator `text LIKE pattern`: `%` matches any run of characters,
`_` any one character, any other character itself without regard to ASCII
case. -/
def like_match : List Char → List Char → Bool
  | [], text => text.isEmpty
  | p :: pattern, text =>
    if p = '%' then text.tails.any (fun rest => like_match pattern rest)
    else
      match text with
      | [] => false
      | c :: rest =>
        (p = '_' || ascii_lower p = ascii_lower c) && like_match pattern rest

/-- The pattern built by `snprintf(search_pattern, 256, "%%%s%%", search_term)`:
the term between two `%`, cut to 255 bytes. -/
def search_pattern (search_term : String) : List Char :=
  (['%'] ++ search_term.data ++ ['%']).take 255

/-- Rows of `SELECT * FROM people WHERE first_name LIKE ? OR last_name LIKE ?`
with both parameters bound to the pattern. -/
def select_search (db : Store) (pattern : List Char) : List PeopleRow :=
  db.people.filter (fun r =>
    like_match pattern r.first_name.data || like_match pattern r.last_name.data)

/-- The search form printed at the end of branch `search`. -/
def search_form : String :=
  "<form action=\"?action=search\" method=\"get\">\n"
    ++ "<input type=\"hidden\" name=\"action\" value=\"search\">\n"
    ++ "<div class=\"form-group\">\n"
    ++ "<label for=\"search_term\">Search:</label>\n"
    ++ "<input type=\"text\" id=\"search_term\" name=\"search_term\" class=\"form-control\" required>\n"
    ++ "</div>\n"
    ++ "<button type=\"submit\" class=\"btn-primary\">Search</button>\n"
    ++ "</form>\n"

/-- Branch `search` of `main`.  The message for an empty result prints
`search_term` through `%s` as it was received. -/
def action_search (db : Store) (params : CGIParams) : Option String :=
  (get_cgi_param params "search_term").map (fun search_term =>
    "<h2>Search Results</h2>\n"
    ++ (match non_empty search_term with
        | some term =>
          let rows := select_search db (search_pattern term)
          "<div class=\"search-results\">\n"
          ++ String.join (rows.map (fun row => render_person_card row.toPerson))
          ++ "</div>\n"
          ++ (if rows.isEmpty then
                "<p>No results found for \"" ++ term ++ "\".</p>\n"
              else "")
        | none => "<p>Please enter a search term.</p>\n")
    ++ search_form)

/-- The dispatch of `main` on the action name: the database afterwards and the
text printed between header and footer. -/
def dispatch (db : Store) (host : Host) (params : CGIParams) (action : String) :
    Option (Store × String) :=
  if action = "view_profile" then (action_view_profile db params).map (fun out => (db, out))
  else if action = "view_tree" then (action_view_tree db params).map (fun out => (db, out))
  else if action = "add_person" then (action_add_person params).map (fun out => (db, out))
  else if action = "process_add_person" then
    process_add_person db params host.now1 host.now2
  else if action = "edit_person" then
    (action_edit_person db params).map (fun out => (db, out))
  else if action = "process_edit_person" then
    action_process_edit_person db params host.now1
  else if action = "add_family_member" then
    (action_add_family_member db params).map (fun out => (db, out))
  else if action = "login" then some (db, show_login_form)
  else if action = "delete_person" then
    (action_delete_person params).map (fun out => (db, out))
  else if action = "process_delete_person" then
    (action_process_delete_person params).map (fun out => (db, out))
  else if action = "search" then (action_search db params).map (fun out => (db, out))
  else some (db, show_home_page db)

/-- The function `main` of `main.c`: the database afterwards and the whole
response, or `none` when the run reads an unwritten parameter entry, hands a
null pointer to `strcmp`, or hands the pointers of an unwritten entry to `free`
in the closing `free_cgi_params`.  Only `QUERY_STRING` is parsed; standard input
is never read. -/
def main (db : Store) (host : Host) : Option (Store × String) :=
  let params := parse_query_string host.junk host.query_string
  match get_cgi_param params "action" with
  | none => none
  | some action =>
    (dispatch db host params (action.getD "home")).bind (fun r =>
      (free_cgi_params params).map (fun _ =>
        (r.1, print_html_header "Family Tree" ++ r.2 ++ print_html_footer host.year)))

/-- The action names that the `strcmp` chain of `main` compares with. -/
def recognised_actions : List String :=
  ["view_profile", "view_tree", "add_person", "process_add_person", "edit_person",
    "process_edit_person", "add_family_member", "login", "delete_person",
    "process_delete_person", "search"]

/-- The rows of `db` are kept by `db2`: every person id of `db` is an id of
`db2`, and the relationship rows of `db` are the first relationship rows of
`db2`, unchanged and in the same order. -/
def rows_kept (db db2 : Store) : Prop :=
  (∀ r ∈ db.people, ∃ r2 ∈ db2.people, r2.id = r.id)
  ∧ db.relationships <+: db2.relationships

/-- The rowids of `people` are positive and the AUTOINCREMENT counter is not
negative, as in every store that requests build from the empty one. -/
def ids_positive (db : Store) : Prop :=
  (∀ row ∈ db.people, 0 < row.id) ∧ 0 ≤ db.people_seq

/-! ## Concrete stores used in examples -/

/-- Request parameters as `parse_query_string` leaves them when every entry is
written. -/
def params_of (pairs : List (String × String)) : CGIParams :=
  pairs.map (fun x => some ⟨x.1, x.2⟩)

/-- A small family: Jane and John are married, Kid is the child of both and Sis
the child of John. -/
def family_store : Store :=
  { people :=
      [⟨1, "Jane", "Doe", Gender.F, some "1970-01-01", none, none, none, 100, 100⟩,
       ⟨2, "John", "Doe", Gender.M, none, none, none, none, 110, 110⟩,
       ⟨3, "Kid", "Doe", Gender.M, none, none, none, none, 120, 120⟩,
       ⟨4, "Sis", "Doe", Gender.F, none, none, none, none, 130, 130⟩]
    relationships :=
      [⟨1, 1, 2, RelType.spouse, some "1995-05-05", none, 111, 111⟩,
       ⟨2, 2, 3, RelType.parent_child, none, none, 121, 121⟩,
       ⟨3, 1, 3, RelType.parent_child, none, none, 122, 122⟩,
       ⟨4, 2, 4, RelType.parent_child, none, none, 131, 131⟩]
    people_seq := 4
    relationships_seq := 4 }

/-- The family after a divorce date was recorded on the spouse row. -/
def divorced_store : Store :=
  { family_store with
    relationships :=
      [⟨1, 1, 2, RelType.spouse, some "1995-05-05", some "2001-02-03", 111, 111⟩,
       ⟨2, 2, 3, RelType.parent_child, none, none, 121, 121⟩,
       ⟨3, 1, 3, RelType.parent_child, none, none, 122, 122⟩,
       ⟨4, 2, 4, RelType.parent_child, none, none, 131, 131⟩] }

/-- The store after one `process_add_person` request on the empty store: Eve,
submitted with `parent_id=3` and `relationship_type=child`.  No person 3 exists
yet; the row records Eve as parent of whoever receives id 3. -/
def eve_store : Store :=
  { people := [⟨1, "Eve", "Doe", Gender.F, none, none, none, none, 10, 10⟩]
    relationships := [⟨1, 1, 3, RelType.parent_child, none, none, 20, 20⟩]
    people_seq := 1
    relationships_seq := 1 }

/-- The person P of the end-to-end scenario of `get_parents`. -/
def adam : Person := ⟨0, some "Adam", some "Doe", 'M', none, none, none, none, 0, 0⟩

/-- The request that adds C as a child of person 2. -/
def cain_params : CGIParams :=
  params_of [("first_name", "Cain"), ("last_name", "Doe"), ("gender", "M"),
    ("parent_id", "2"), ("relationship_type", "parent-child")]

/-- The store after Adam is inserted into `eve_store` and Cain is added with
`cain_params`. -/
def cain_store : Store :=
  { people :=
      [⟨1, "Eve", "Doe", Gender.F, none, none, none, none, 10, 10⟩,
       ⟨2, "Adam", "Doe", Gender.M, none, none, none, none, 30, 30⟩,
       ⟨3, "Cain", "Doe", Gender.M, none, none, none, none, 40, 40⟩]
    relationships :=
      [⟨1, 1, 3, RelType.parent_child, none, none, 20, 20⟩,
       ⟨2, 2, 3, RelType.parent_child, none, none, 50, 50⟩]
    people_seq := 3
    relationships_seq := 2 }

/-- The store after two requests on the empty store: Zed, submitted with
`parent_id=3` and `relationship_type=spouse`, then Jane without a link.  Jane
(id 2) has no spouse row; the one spouse row names the id 3 that the next
person will receive. -/
def zed_store : Store :=
  { people :=
      [⟨1, "Zed", "Roe", Gender.M, none, none, none, none, 10, 10⟩,
       ⟨2, "Jane", "Doe", Gender.F, none, none, none, none, 30, 30⟩]
    relationships := [⟨1, 3, 1, RelType.spouse, none, none, 20, 20⟩]
    people_seq := 2
    relationships_seq := 1 }

/-- The request that adds John as spouse of person 2. -/
def john_params : CGIParams :=
  params_of [("first_name", "John"), ("last_name", "Doe"), ("gender", "M"),
    ("parent_id", "2"), ("relationship_type", "spouse")]

/-- The store after John is added to `zed_store` with `john_params`. -/
def john_store : Store :=
  { people :=
      [⟨1, "Zed", "Roe", Gender.M, none, none, none, none, 10, 10⟩,
       ⟨2, "Jane", "Doe", Gender.F, none, none, none, none, 30, 30⟩,
       ⟨3, "John", "Doe", Gender.M, none, none, none, none, 40, 40⟩]
    relationships :=
      [⟨1, 3, 1, RelType.spouse, none, none, 20, 20⟩,
       ⟨2, 2, 3, RelType.spouse, none, none, 50, 50⟩]
    people_seq := 3
    relationships_seq := 2 }

/-- A store with a cycle: person 1 is recorded as their own parent, and persons
2 and 3 as parent of each other. -/
def cyclic_store : Store :=
  { people :=
      [⟨1, "Ouro", "Boros", Gender.M, none, none, none, none, 10, 10⟩,
       ⟨2, "Chicken", "Egg", Gender.F, none, none, none, none, 20, 20⟩,
       ⟨3, "Egg", "Chicken", Gender.F, none, none, none, none, 30, 30⟩]
    relationships :=
      [⟨1, 1, 1, RelType.parent_child, none, none, 11, 11⟩,
       ⟨2, 2, 3, RelType.parent_child, none, none, 31, 31⟩,
       ⟨3, 3, 2, RelType.parent_child, none, none, 32, 32⟩]
    people_seq := 3
    relationships_seq := 3 }

/-- The request that adds Abel as a child of person 1. -/
def abel_params : CGIParams :=
  params_of [("first_name", "Abel"), ("last_name", "Doe"), ("gender", "M"),
    ("parent_id", "1"), ("relationship_type", "parent-child")]

/-- The fields that `extract_add_person_params` reads from `abel_params`. -/
def abel_fields : AddPersonParams :=
  ⟨some "Abel", some "Doe", some "M", none, none, none, none, some "1",
    some "parent-child", none⟩

/-- The fields that `extract_add_person_params` reads from `john_params`. -/
def john_fields : AddPersonParams :=
  ⟨some "John", some "Doe", some "M", none, none, none, none, some "2",
    some "spouse", none⟩

/-- A request as the add-person form submits it: the query string carries only
the action, the fields travel in the body. -/
def posted_add_person : Host :=
  { query_string := some "action=process_add_person"
    body := "first_name=Ada&last_name=Byron&gender=F"
    junk := 0, now1 := 100, now2 := 200, year := 2026 }

/-- The request behind the link `Add New Person` of the home page. -/
def add_new_person_link : Host :=
  { query_string := some "action=add_person"
    body := ""
    junk := 0, now1 := 100, now2 := 200, year := 2026 }

/-- A search request whose term is the text `<script>`, sent URL-encoded. -/
def search_script : Host :=
  { query_string := some "action=search&search_term=%3Cscript%3E"
    body := ""
    junk := 0, now1 := 100, now2 := 200, year := 2026 }

/-- A request whose query string ends in `&` and names no action. -/
def trailing_amp : Host :=
  { query_string := some "x=1&"
    body := ""
    junk := 0, now1 := 100, now2 := 200, year := 2026 }

/-- The request that the form behind the link `Add Child` of person 2 stands
for: `parent_id=2` and `relationship_type=child`. -/
def add_child_request : Host :=
  { query_string := some
      "action=process_add_person&first_name=Max&last_name=Doe&gender=M&parent_id=2&relationship_type=child"
    body := ""
    junk := 0, now1 := 40, now2 := 50, year := 2026 }

/-- The request that the form behind the link `Add Parent` of person 2 stands
for: `parent_id=2` and `relationship_type=parent-child`. -/
def add_parent_request : Host :=
  { query_string := some
      "action=process_add_person&first_name=Max&last_name=Doe&gender=M&parent_id=2&relationship_type=parent-child"
    body := ""
    junk := 0, now1 := 40, now2 := 50, year := 2026 }

/-- The family store after `add_child_request`: Max is person 5 and the new
relationship row has Max as person1 and person 2 as person2. -/
def add_child_store : Store :=
  { family_store with
    people := family_store.people
      ++ [⟨5, "Max", "Doe", Gender.M, none, none, none, none, 40, 40⟩]
    relationships := family_store.relationships
      ++ [⟨5, 5, 2, RelType.parent_child, none, none, 50, 50⟩]
    people_seq := 5
    relationships_seq := 5 }

/-- The family store after `add_parent_request`: Max is person 5 and the new
relationship row has person 2 as person1 and Max as person2. -/
def add_parent_store : Store :=
  { family_store with
    people := family_store.people
      ++ [⟨5, "Max", "Doe", Gender.M, none, none, none, none, 40, 40⟩]
    relationships := family_store.relationships
      ++ [⟨5, 2, 5, RelType.parent_child, none, none, 50, 50⟩]
    people_seq := 5
    relationships_seq := 5 }

/-- A store in which Kid has two fathers on record: Al, married to Bea, and
Carl, added later. -/
def two_fathers_store : Store :=
  { people :=
      [⟨1, "Al", "Roe", Gender.M, none, none, none, none, 10, 10⟩,
       ⟨2, "Bea", "Roe", Gender.F, none, none, none, none, 20, 20⟩,
       ⟨3, "Kid", "Roe", Gender.M, none, none, none, none, 30, 30⟩,
       ⟨4, "Carl", "Poe", Gender.M, none, none, none, none, 40, 40⟩]
    relationships :=
      [⟨1, 1, 2, RelType.spouse, none, none, 21, 21⟩,
       ⟨2, 1, 3, RelType.parent_child, none, none, 31, 31⟩,
       ⟨3, 4, 3, RelType.parent_child, none, none, 41, 41⟩]
    people_seq := 4
    relationships_seq := 3 }

/-- The text that `render_family_tree` prints for Kid (person 3) of
`two_fathers_store` with two levels: Kid, the subtree of Carl with Kid as his
child, and an empty children block. -/
def two_fathers_tree : String :=
  "<div class=\"tree-level\">\n"
  ++ render_person_card ⟨3, some "Kid", some "Roe", 'M', none, none, none, none, 30, 30⟩
  ++ "<div class=\"tree-parents\">\n"
  ++ ("<div class=\"tree-level\">\n"
    ++ render_person_card ⟨4, some "Carl", some "Poe", 'M', none, none, none, none, 40, 40⟩
    ++ "<div class=\"tree-children\">\n"
    ++ render_person_card ⟨3, some "Kid", some "Roe", 'M', none, none, none, none, 30, 30⟩
    ++ "</div>\n" ++ "</div>\n")
  ++ "</div>\n"
  ++ "<div class=\"tree-children\">\n" ++ "</div>\n"
  ++ "</div>\n"

/-- The request that adds Joan as spouse of person 2 with a marriage date; the
`parent_id` is written as `4294967298`, which `atoi` reads as 2. -/
def joan_params : CGIParams :=
  params_of [("first_name", "Joan"), ("last_name", "Doe"), ("gender", "F"),
    ("parent_id", "4294967298"), ("relationship_type", "spouse"),
    ("marriage_date", "1999-09-09")]

/-- The fields that `extract_add_person_params` reads from `joan_params`. -/
def joan_fields : AddPersonParams :=
  ⟨some "Joan", some "Doe", some "F", none, none, none, none, some "4294967298",
    some "spouse", some "1999-09-09"⟩

/-- The request of the add-spouse form left without a marriage date: the field
arrives empty. -/
def jill_params : CGIParams :=
  params_of [("first_name", "Jill"), ("last_name", "Doe"), ("gender", "F"),
    ("parent_id", "2"), ("relationship_type", "spouse"), ("marriage_date", "")]

/-- The fields that `extract_add_person_params` reads from `jill_params`. -/
def jill_fields : AddPersonParams :=
  ⟨some "Jill", some "Doe", some "F", none, none, none, none, some "2",
    some "spouse", some ""⟩

/-! ## Theorems -/

theorem html_escape_fill_fst (str escaped : List Char) (j : Nat) :
    (html_escape_fill str escaped j).1
      = escaped ++ (String.join (str.map escape_entity)).data := by
  induction str generalizing escaped j with
  | nil => simp [html_escape_fill]
  | cons c str ih =>
    simp only [html_escape_fill, escape_entity, List.map_cons, String.data_join,
      List.flatten_cons]
    split_ifs <;> simp [ih, String.singleton]

theorem html_escape_fill_snd (str escaped : List Char) (j : Nat) :
    (html_escape_fill str escaped j).2
      = j + (String.join (str.map escape_entity)).length := by
  induction str generalizing escaped j with
  | nil => simp [html_escape_fill, String.length]
  | cons c str ih =>
    simp only [html_escape_fill, escape_entity, List.map_cons, String.length,
      String.data_join, List.flatten_cons, List.length_append]
    split_ifs <;> simp [ih, String.singleton, String.length] <;> omega

theorem le_foldl_max (ids : List Int) (seq : Int) : seq ≤ ids.foldl max seq := by
  induction ids generalizing seq with
  | nil => simp
  | cons a ids ih => exact le_trans (le_max_left seq a) (ih (max seq a))

theorem mem_le_foldl_max (ids : List Int) (seq x : Int) (hx : x ∈ ids) :
    x ≤ ids.foldl max seq := by
  induction ids generalizing seq with
  | nil => simp at hx
  | cons a ids ih =>
    rcases List.mem_cons.mp hx with h | h
    · subst h
      exact le_trans (le_max_right seq x) (le_foldl_max ids (max seq x))
    · exact ih (max seq a) h

theorem lt_new_rowid (ids : List Int) (seq x : Int) (hx : x ∈ ids) :
    x < new_rowid ids seq := by
  have := mem_le_foldl_max ids seq x hx
  unfold new_rowid
  omega

theorem select_person_fresh (db : Store) (row : PeopleRow)
    (h : row.id = new_rowid (db.people.map (fun r => r.id)) db.people_seq)
    (seq : Int) :
    select_person { db with people := db.people ++ [row], people_seq := seq } row.id
      = some row := by
  have hnone : db.people.find? (fun r => decide (r.id = row.id)) = none := by
    rw [List.find?_eq_none]
    intro r hr
    have := lt_new_rowid (db.people.map (fun r => r.id)) db.people_seq r.id
      (List.mem_map_of_mem _ hr)
    simp only [decide_eq_true_eq]
    omega
  simp [select_person, List.find?_append, hnone]

/-- The row that a successful `add_person` stores. -/
theorem add_person_ok (db : Store) (now : Int) (P : Person) (fn ln : String)
    (g : Gender) (hfn : P.first_name = some fn) (hln : P.last_name = some ln)
    (hg : Gender.check (String.singleton P.gender) = some g) :
    add_person db now P =
      (0,
        { P with created_at := now, updated_at := now,
                 id := new_rowid (db.people.map (fun r => r.id)) db.people_seq },
        { db with
          people := db.people ++
            [⟨new_rowid (db.people.map (fun r => r.id)) db.people_seq, fn, ln, g,
              P.birth_date, P.death_date, P.bio, P.photo_url, now, now⟩],
          people_seq := new_rowid (db.people.map (fun r => r.id)) db.people_seq }) := by
  simp [add_person, hfn, hln, hg]

theorem gender_check_M : Gender.check (String.singleton 'M') = some Gender.M := by
  decide

theorem gender_check_F : Gender.check (String.singleton 'F') = some Gender.F := by
  decide

theorem gender_check_toChar (c : Char) (g : Gender)
    (h : Gender.check (String.singleton c) = some g) : g.toChar = c := by
  unfold Gender.check at h
  split_ifs at h with h1 h2
  · cases h
    have := congrArg String.data h1
    simpa [String.singleton, Gender.toChar] using this.symm
  · cases h
    have := congrArg String.data h2
    simpa [String.singleton, Gender.toChar] using this.symm

/-- C1: a person with non-null names and gender M or F that `add_person`
inserts with id `i` is read back by `get_person_by_id i` with the same names,
gender, dates, bio and photo URL (absent fields stay absent); both timestamps
are set to the clock reading of the insert, so `created_at <= updated_at`. -/
theorem add_person_roundtrip (db : Store) (now : Int) (P : Person) (i : Int)
    (hfirst : P.first_name ≠ none) (hlast : P.last_name ≠ none)
    (hgender : P.gender = 'M' ∨ P.gender = 'F')
    (hadd : (add_person db now P).1 = 0)
    (hid : (add_person db now P).2.1.id = i) :
    ∃ q, get_person_by_id (add_person db now P).2.2 i = some q
      ∧ q.id = i
      ∧ q.first_name = P.first_name ∧ q.last_name = P.last_name
      ∧ q.gender = P.gender
      ∧ q.birth_date = P.birth_date ∧ q.death_date = P.death_date
      ∧ q.bio = P.bio ∧ q.photo_url = P.photo_url
      ∧ q.created_at = now ∧ q.updated_at = now
      ∧ q.created_at ≤ q.updated_at := by
  have _ := hadd
  obtain ⟨fn, hfn⟩ := Option.ne_none_iff_exists'.mp hfirst
  obtain ⟨ln, hln⟩ := Option.ne_none_iff_exists'.mp hlast
  have hg : ∃ g, Gender.check (String.singleton P.gender) = some g := by
    rcases hgender with h | h
    · exact ⟨Gender.M, by rw [h]; exact gender_check_M⟩
    · exact ⟨Gender.F, by rw [h]; exact gender_check_F⟩
  obtain ⟨g, hg⟩ := hg
  have hchar := gender_check_toChar P.gender g hg
  rw [add_person_ok db now P fn ln g hfn hln hg] at hid ⊢
  simp only at hid
  subst hid
  have hsel := select_person_fresh db
    ⟨new_rowid (db.people.map (fun r => r.id)) db.people_seq, fn, ln, g,
      P.birth_date, P.death_date, P.bio, P.photo_url, now, now⟩ rfl
    (new_rowid (db.people.map (fun r => r.id)) db.people_seq)
  refine ⟨PeopleRow.toPerson ⟨new_rowid (db.people.map (fun r => r.id)) db.people_seq,
    fn, ln, g, P.birth_date, P.death_date, P.bio, P.photo_url, now, now⟩, ?_, ?_⟩
  · simp only [get_person_by_id]
    rw [hsel]
    rfl
  · simp [PeopleRow.toPerson, hfn, hln, hchar]

/-- A run of C1: Ada Byron is added to the empty store and read back. -/
theorem add_person_roundtrip_witness :
    ∃ q, get_person_by_id
        (add_person Store.empty 1700000000
          ⟨0, some "Ada", some "Byron", 'F', some "1815-12-10", none, none, none, 0, 0⟩).2.2
        1 = some q
      ∧ q.id = 1
      ∧ q.first_name = some "Ada" ∧ q.last_name = some "Byron"
      ∧ q.gender = 'F'
      ∧ q.birth_date = some "1815-12-10" ∧ q.death_date = none
      ∧ q.bio = none ∧ q.photo_url = none
      ∧ q.created_at = 1700000000 ∧ q.updated_at = 1700000000
      ∧ q.created_at ≤ q.updated_at :=
  add_person_roundtrip Store.empty 1700000000
    ⟨0, some "Ada", some "Byron", 'F', some "1815-12-10", none, none, none, 0, 0⟩ 1
    (by decide) (by decide) (by decide) (by decide) (by decide)

/-! ### Lookup by rowid -/

theorem select_person_id (db : Store) (id : Int) (row : PeopleRow)
    (h : select_person db id = some row) : row.id = id := by
  have := List.find?_some h
  simpa using this

theorem select_person_mem (db : Store) (id : Int) (row : PeopleRow)
    (h : select_person db id = some row) : row ∈ db.people :=
  List.mem_of_find?_eq_some h

theorem find_of_mem_nodup (l : List PeopleRow) (row : PeopleRow)
    (hkey : (l.map (fun r => r.id)).Nodup) (hmem : row ∈ l) :
    l.find? (fun r => r.id = row.id) = some row := by
  induction l with
  | nil => simp at hmem
  | cons a l ih =>
    rw [List.map_cons, List.nodup_cons] at hkey
    rcases List.mem_cons.mp hmem with h | h
    · subst h
      simp
    · have hne : a.id ≠ row.id := by
        intro heq
        exact hkey.1 (heq ▸ List.mem_map_of_mem (fun r => r.id) h)
      simp [List.find?_cons, hne, ih hkey.2 h]

theorem select_person_of_mem (db : Store) (row : PeopleRow)
    (hkey : (db.people.map (fun r => r.id)).Nodup) (hmem : row ∈ db.people) :
    select_person db row.id = some row :=
  find_of_mem_nodup db.people row hkey hmem

theorem toPerson_injective (a b : PeopleRow) (h : a.toPerson = b.toPerson) :
    a.id = b.id := by
  have := congrArg Person.id h
  simpa [PeopleRow.toPerson] using this

/-! ### `get_children` -/

theorem mem_select_children (db : Store) (parent_id : Int) (row : PeopleRow) :
    row ∈ select_children db parent_id ↔
      ∃ r ∈ db.relationships, r.person1_id = parent_id
        ∧ r.relationship_type = RelType.parent_child
        ∧ select_person db r.person2_id = some row := by
  unfold select_children
  rw [List.mem_filterMap]
  constructor
  · rintro ⟨r, hr, h⟩
    split_ifs at h with hc
    exact ⟨r, hr, hc.1, hc.2, h⟩
  · rintro ⟨r, hr, h1, h2, h3⟩
    exact ⟨r, hr, by simp [h1, h2, h3]⟩

theorem mem_select_parents (db : Store) (child_id : Int) (row : PeopleRow) :
    row ∈ select_parents db child_id ↔
      ∃ r ∈ db.relationships, r.person2_id = child_id
        ∧ r.relationship_type = RelType.parent_child
        ∧ select_person db r.person1_id = some row := by
  unfold select_parents
  rw [List.mem_filterMap]
  constructor
  · rintro ⟨r, hr, h⟩
    split_ifs at h with hc
    exact ⟨r, hr, hc.1, hc.2, h⟩
  · rintro ⟨r, hr, h1, h2, h3⟩
    exact ⟨r, hr, by simp [h1, h2, h3]⟩

theorem get_parents_step_eq (fm : Person × Person) (row : PeopleRow) :
    get_parents_step fm row
      = if row.gender = Gender.M then (row.toPerson, fm.2) else (fm.1, row.toPerson) := by
  unfold get_parents_step
  cases hg : row.gender <;> simp [Gender.toChar]

/-- The father slot after the loop: the last male row read, or the initial
value when no row is male. -/
theorem get_parents_fold_father (rows : List PeopleRow) (fm : Person × Person) :
    (rows.foldl get_parents_step fm).1
      = match (rows.filter (fun row => row.gender = Gender.M)).getLast? with
        | some row => row.toPerson
        | none => fm.1 := by
  induction rows using List.reverseRecOn with
  | nil => simp
  | append_singleton rows row _ =>
    rw [List.foldl_append, List.filter_append]
    simp only [List.foldl_cons, List.foldl_nil, get_parents_step_eq]
    rename_i ih
    by_cases hg : row.gender = Gender.M
    · simp [hg, List.filter_cons]
    · simpa [hg, List.filter_cons] using ih

/-- The mother slot after the loop: the last female row read, or the initial
value when no row is female. -/
theorem get_parents_fold_mother (rows : List PeopleRow) (fm : Person × Person) :
    (rows.foldl get_parents_step fm).2
      = match (rows.filter (fun row => row.gender = Gender.F)).getLast? with
        | some row => row.toPerson
        | none => fm.2 := by
  induction rows using List.reverseRecOn with
  | nil => simp
  | append_singleton rows row _ =>
    rw [List.foldl_append, List.filter_append]
    simp only [List.foldl_cons, List.foldl_nil, get_parents_step_eq]
    rename_i ih
    by_cases hg : row.gender = Gender.F
    · simp [hg, List.filter_cons]
    · have hm : row.gender = Gender.M := by
        cases h : row.gender
        · rfl
        · exact absurd h hg
      simpa [hg, hm, List.filter_cons] using ih

/-- One slot of `get_parents` read off the rows of the parents query. -/
theorem parent_slot (rows : List PeopleRow) (g : Gender) :
    ((last_of_gender rows g).id ≠ 0 →
      ∃ row ∈ rows, row.gender = g ∧ last_of_gender rows g = row.toPerson)
    ∧ ((∃ row ∈ rows, row.gender = g) → (∀ row ∈ rows, row.id ≠ 0) →
      (last_of_gender rows g).id ≠ 0) := by
  unfold last_of_gender
  cases hlast : (rows.filter (fun row => row.gender = g)).getLast? with
  | none =>
    rw [List.getLast?_eq_none_iff] at hlast
    refine ⟨fun h => absurd rfl h, ?_⟩
    rintro ⟨row, hrow, hg⟩ _
    have : row ∈ rows.filter (fun row => row.gender = g) := by
      simp [List.mem_filter, hrow, hg]
    rw [hlast] at this
    simp at this
  | some last =>
    have hmem := List.mem_of_getLast?_eq_some hlast
    simp only [List.mem_filter, decide_eq_true_eq] at hmem
    refine ⟨fun _ => ⟨last, hmem.1, hmem.2, rfl⟩, ?_⟩
    intro _ hnz
    exact hnz last hmem.1

theorem get_parents_eq (db : Store) (child_id : Int) :
    get_parents db child_id
      = (0, last_of_gender (select_parents db child_id) Gender.M,
          last_of_gender (select_parents db child_id) Gender.F) := by
  unfold get_parents last_of_gender
  simp only [get_parents_fold_father, get_parents_fold_mother]

/-- One slot of `get_parents` against the tables: with rowids that are unique and non-zero,
the slot of gender `g` is filled iff some `parent-child` row with
`person2_id = child_id` names as person1 a person of gender `g`, and a filled
slot holds such a person. -/
theorem get_parents_slot (db : Store) (child_id : Int) (g : Gender)
    (hkey : (db.people.map (fun r => r.id)).Nodup)
    (hnz : ∀ row ∈ db.people, row.id ≠ 0) :
    ((last_of_gender (select_parents db child_id) g).id ≠ 0 ↔
      ∃ r ∈ db.relationships, ∃ row ∈ db.people,
        r.relationship_type = RelType.parent_child ∧ r.person2_id = child_id
        ∧ row.id = r.person1_id ∧ row.gender = g)
    ∧ ((last_of_gender (select_parents db child_id) g).id ≠ 0 →
      ∃ r ∈ db.relationships, ∃ row ∈ db.people,
        r.relationship_type = RelType.parent_child ∧ r.person2_id = child_id
        ∧ row.id = r.person1_id ∧ row.gender = g
        ∧ last_of_gender (select_parents db child_id) g = row.toPerson) := by
  have hs := parent_slot (select_parents db child_id) g
  have hfwd : (last_of_gender (select_parents db child_id) g).id ≠ 0 →
      ∃ r ∈ db.relationships, ∃ row ∈ db.people,
        r.relationship_type = RelType.parent_child ∧ r.person2_id = child_id
        ∧ row.id = r.person1_id ∧ row.gender = g
        ∧ last_of_gender (select_parents db child_id) g = row.toPerson := by
    intro h
    obtain ⟨row, hrow, hg, heq⟩ := hs.1 h
    obtain ⟨r, hr, h1, h2, h3⟩ := (mem_select_parents db child_id row).mp hrow
    exact ⟨r, hr, row, select_person_mem db _ row h3, h2, h1,
      select_person_id db _ row h3, hg, heq⟩
  refine ⟨⟨?_, ?_⟩, hfwd⟩
  · intro h
    obtain ⟨r, hr, row, hrow, h1, h2, h3, h4, _⟩ := hfwd h
    exact ⟨r, hr, row, hrow, h1, h2, h3, h4⟩
  · rintro ⟨r, hr, row, hrow, h1, h2, h3, h4⟩
    apply hs.2
    · refine ⟨row, (mem_select_parents db child_id row).mpr ⟨r, hr, h2, h1, ?_⟩, h4⟩
      rw [← h3]
      exact select_person_of_mem db row hkey hrow
    · intro row2 hrow2
      obtain ⟨r2, _, _, _, hsel⟩ := (mem_select_parents db child_id row2).mp hrow2
      exact hnz row2 (select_person_mem db _ row2 hsel)

/-! ### `process_add_person` -/

theorem add_person_success_inv (db : Store) (now : Int) (P : Person)
    (h : (add_person db now P).1 = 0) :
    ∃ fn ln g, P.first_name = some fn ∧ P.last_name = some ln
      ∧ Gender.check (String.singleton P.gender) = some g := by
  rcases hfn : P.first_name with _ | fn
  · simp [add_person, hfn] at h
  rcases hln : P.last_name with _ | ln
  · simp [add_person, hfn, hln] at h
  rcases hg : Gender.check (String.singleton P.gender) with _ | g
  · simp [add_person, hfn, hln, hg] at h
  exact ⟨fn, ln, g, rfl, rfl, rfl⟩

theorem add_person_relationships (db : Store) (now : Int) (P : Person) :
    (add_person db now P).2.2.relationships = db.relationships
    ∧ (add_person db now P).2.2.relationships_seq = db.relationships_seq := by
  unfold add_person
  simp only
  split <;> simp

/-- The person left in `*person` by a successful `add_person` is the stored row
read back. -/
theorem add_person_stored (db : Store) (now : Int) (P : Person)
    (h : (add_person db now P).1 = 0) :
    ∃ row : PeopleRow,
      (add_person db now P).2.2
        = { db with people := db.people ++ [row], people_seq := row.id }
      ∧ row.id = new_rowid (db.people.map (fun r => r.id)) db.people_seq
      ∧ row.toPerson = (add_person db now P).2.1
      ∧ row.gender.toChar = P.gender := by
  obtain ⟨fn, ln, g, hfn, hln, hg⟩ := add_person_success_inv db now P h
  rw [add_person_ok db now P fn ln g hfn hln hg]
  refine ⟨⟨new_rowid (db.people.map (fun r => r.id)) db.people_seq, fn, ln, g,
    P.birth_date, P.death_date, P.bio, P.photo_url, now, now⟩, rfl, rfl, ?_, ?_⟩
  · simp [PeopleRow.toPerson, hfn, hln, gender_check_toChar P.gender g hg]
  · exact gender_check_toChar P.gender g hg

theorem add_relationship_ok (db : Store) (now : Int) (rel : Relationship)
    (ty : RelType) (h : RelType.check rel.relationship_type = some ty) :
    (add_relationship db now rel).2.2 =
      { db with
        relationships := db.relationships ++
          [⟨new_rowid (db.relationships.map (fun r => r.id)) db.relationships_seq,
            rel.person1_id, rel.person2_id, ty, rel.marriage_date, rel.divorce_date,
            now, now⟩],
        relationships_seq :=
          new_rowid (db.relationships.map (fun r => r.id)) db.relationships_seq } := by
  simp [add_relationship, h]

theorem process_add_person_of_extract (db : Store) (params : CGIParams)
    (f : AddPersonParams) (now1 now2 : Int)
    (hf : extract_add_person_params params = some f) :
    process_add_person db params now1 now2
      = some (process_add_person_body db f now1 now2) := by
  simp [process_add_person, hf]

/-- The store after a successful `process_add_person` that links the new person:
the new people row and one new relationship row. -/
theorem body_linked (db : Store) (f : AddPersonParams) (now1 now2 : Int)
    (t : String) (ty : RelType)
    (hadd : (add_person db now1 (new_person_of f)).1 = 0)
    (hpos : 0 < parent_id_of f)
    (ht : f.relationship_type = some t)
    (hcheck : RelType.check (new_relationship_of t f.marriage_date (parent_id_of f)
      (add_person db now1 (new_person_of f)).2.1.id).relationship_type = some ty) :
    (process_add_person_body db f now1 now2).1 =
      { (add_person db now1 (new_person_of f)).2.2 with
        relationships := db.relationships ++
          [⟨new_rowid (db.relationships.map (fun r => r.id)) db.relationships_seq,
            (new_relationship_of t f.marriage_date (parent_id_of f)
              (add_person db now1 (new_person_of f)).2.1.id).person1_id,
            (new_relationship_of t f.marriage_date (parent_id_of f)
              (add_person db now1 (new_person_of f)).2.1.id).person2_id,
            ty,
            (new_relationship_of t f.marriage_date (parent_id_of f)
              (add_person db now1 (new_person_of f)).2.1.id).marriage_date,
            (new_relationship_of t f.marriage_date (parent_id_of f)
              (add_person db now1 (new_person_of f)).2.1.id).divorce_date,
            now2, now2⟩],
        relationships_seq :=
          new_rowid (db.relationships.map (fun r => r.id)) db.relationships_seq } := by
  have hr := add_person_relationships db now1 (new_person_of f)
  unfold process_add_person_body
  simp only [hadd, if_true, ht, hpos, gt_iff_lt]
  rw [add_relationship_ok _ now2 _ ty hcheck, hr.1, hr.2]

theorem body_unlinked (db : Store) (f : AddPersonParams) (now1 now2 : Int)
    (hadd : (add_person db now1 (new_person_of f)).1 = 0)
    (h : parent_id_of f ≤ 0 ∨ f.relationship_type = none) :
    (process_add_person_body db f now1 now2).1
      = (add_person db now1 (new_person_of f)).2.2 := by
  unfold process_add_person_body
  simp only [hadd, if_true]
  rcases h with h | h
  · have : ¬ parent_id_of f > 0 := by omega
    cases f.relationship_type <;> simp [this]
  · simp [h]

theorem new_relationship_parent_child (m : Option String) (x n : Int) :
    new_relationship_of "parent-child" m x n
      = ⟨0, x, n, some "parent-child", none, none, 0, 0⟩ := by
  simp [new_relationship_of, Relationship.zero]

theorem new_relationship_spouse (m : Option String) (x n : Int) :
    new_relationship_of "spouse" m x n
      = ⟨0, x, n, some "spouse", non_empty m, none, 0, 0⟩ := by
  simp [new_relationship_of, Relationship.zero]

theorem new_relationship_child (m : Option String) (x n : Int) :
    new_relationship_of "child" m x n
      = ⟨0, n, x, some "parent-child", none, none, 0, 0⟩ := by
  simp [new_relationship_of, Relationship.zero]

theorem extract_add_person_lookups (params : CGIParams) (f : AddPersonParams)
    (hf : extract_add_person_params params = some f) :
    get_cgi_param params "parent_id" = some f.parent_id_str
    ∧ get_cgi_param params "relationship_type" = some f.relationship_type
    ∧ get_cgi_param params "marriage_date" = some f.marriage_date := by
  unfold extract_add_person_params at hf
  split at hf
  · rename_i h1 h2 h3 h4 h5 h6 h7 h8 h9 h10
    cases hf
    exact ⟨h8, h9, h10⟩
  · cases hf

theorem non_empty_cases (p : Option String) :
    non_empty p = if p = some "" then none else p := by
  rcases p with _ | v
  · rfl
  · by_cases hv : v = ""
    · simp [non_empty, hv]
    · simp [non_empty, hv]

/-- C6: `process_add_person` reads `parent_id`, `relationship_type` and
`marriage_date` from the request, and `parent_id = X` is the `int` that `atoi`
makes of the text (0 without the parameter).  When the person insert succeeds
with new id `N`: for `X > 0`, type `parent-child` appends the row
`(X, N, 'parent-child')`, type `child` appends the reversed row
`(N, X, 'parent-child')`, type `spouse` appends `(X, N, 'spouse')` whose marriage
date is the submitted date when that is not empty and is absent when the date
is empty or not submitted, with no divorce date; with `X <= 0` or no
`relationship_type` the relationships table is unchanged. -/
theorem process_add_person_relationship (db : Store) (params : CGIParams)
    (f : AddPersonParams) (now1 now2 : Int) (X N : Int)
    (hf : extract_add_person_params params = some f)
    (hadd : (add_person db now1 (new_person_of f)).1 = 0)
    (hX : parent_id_of f = X)
    (hN : (add_person db now1 (new_person_of f)).2.1.id = N) :
    (get_cgi_param params "parent_id" = some f.parent_id_str
      ∧ get_cgi_param params "relationship_type" = some f.relationship_type
      ∧ get_cgi_param params "marriage_date" = some f.marriage_date)
    ∧ (f.parent_id_str = none → X = 0)
    ∧ (∀ v, f.parent_id_str = some v → X = atoi v)
    ∧ atoi "2" = 2 ∧ atoi " 12abc" = 12 ∧ atoi "-3" = -3 ∧ atoi "abc" = 0
    ∧ atoi "4294967298" = 2 ∧ atoi "4294967296" = 0
    ∧ ∃ db2 out, process_add_person db params now1 now2 = some (db2, out)
      ∧ db2.people = (add_person db now1 (new_person_of f)).2.2.people
      ∧ (0 < X → f.relationship_type = some "parent-child" →
          db2.relationships = db.relationships ++
            [⟨new_rowid (db.relationships.map (fun r => r.id)) db.relationships_seq,
              X, N, RelType.parent_child, none, none, now2, now2⟩])
      ∧ (0 < X → f.relationship_type = some "child" →
          db2.relationships = db.relationships ++
            [⟨new_rowid (db.relationships.map (fun r => r.id)) db.relationships_seq,
              N, X, RelType.parent_child, none, none, now2, now2⟩])
      ∧ (0 < X → f.relationship_type = some "spouse" →
          db2.relationships = db.relationships ++
            [⟨new_rowid (db.relationships.map (fun r => r.id)) db.relationships_seq,
              X, N, RelType.spouse,
              (if f.marriage_date = some "" then none else f.marriage_date),
              none, now2, now2⟩])
      ∧ ((X ≤ 0 ∨ f.relationship_type = none) →
          db2.relationships = db.relationships) := by
  subst hX hN
  refine ⟨extract_add_person_lookups params f hf, ?_, ?_, by decide, by decide, by decide,
    by decide, by decide, by decide,
    (process_add_person_body db f now1 now2).1,
    (process_add_person_body db f now1 now2).2,
    process_add_person_of_extract db params f now1 now2 hf, ?_, ?_, ?_, ?_, ?_⟩
  · intro h
    simp only [parent_id_of, h]
  · intro v h
    simp only [parent_id_of, h]
  · unfold process_add_person_body
    simp only [hadd, if_true]
    cases f.relationship_type with
    | none => rfl
    | some t =>
      by_cases hp : parent_id_of f > 0
      · simp only [hp, if_true]
        unfold add_relationship
        simp only
        split <;> rfl
      · simp only [hp, if_false]
  · intro hpos ht
    rw [body_linked db f now1 now2 "parent-child" RelType.parent_child hadd hpos ht
      (by rw [new_relationship_parent_child]; rfl), new_relationship_parent_child]
  · intro hpos ht
    rw [body_linked db f now1 now2 "child" RelType.parent_child hadd hpos ht
      (by rw [new_relationship_child]; rfl), new_relationship_child]
  · intro hpos ht
    rw [body_linked db f now1 now2 "spouse" RelType.spouse hadd hpos ht
      (by rw [new_relationship_spouse]; rfl), new_relationship_spouse, non_empty_cases]
  · intro h
    rw [body_unlinked db f now1 now2 hadd h]
    exact (add_person_relationships db now1 (new_person_of f)).1

/-- A run of C6 on the family store with `relationship_type=spouse`: Joan,
submitted with `parent_id=4294967298` (read as 2) and a marriage date, gets the
row `(2, 5, 'spouse')` with that date; Jill, submitted with an empty marriage
date, and John, submitted without one, get the row without a date. -/
theorem process_add_person_relationship_witness :
    (∃ db2 out, process_add_person family_store joan_params 40 50 = some (db2, out)
      ∧ db2.relationships = family_store.relationships ++
          [⟨5, 2, 5, RelType.spouse, some "1999-09-09", none, 50, 50⟩])
    ∧ (∃ db2 out, process_add_person family_store jill_params 40 50 = some (db2, out)
      ∧ db2.relationships = family_store.relationships ++
          [⟨5, 2, 5, RelType.spouse, none, none, 50, 50⟩])
    ∧ (∃ db2 out, process_add_person family_store john_params 40 50 = some (db2, out)
      ∧ db2.relationships = family_store.relationships ++
          [⟨5, 2, 5, RelType.spouse, none, none, 50, 50⟩]) := by
  obtain ⟨-, -, -, -, -, -, -, -, -, db2, out, h, -, -, -, hs, -⟩ :=
    process_add_person_relationship family_store joan_params joan_fields 40 50 2 5
      (by decide) (by decide) (by decide) (by decide)
  obtain ⟨-, -, -, -, -, -, -, -, -, db3, out3, h3, -, -, -, hs3, -⟩ :=
    process_add_person_relationship family_store jill_params jill_fields 40 50 2 5
      (by decide) (by decide) (by decide) (by decide)
  obtain ⟨-, -, -, -, -, -, -, -, -, db4, out4, h4, -, -, -, hs4, -⟩ :=
    process_add_person_relationship family_store john_params john_fields 40 50 2 5
      (by decide) (by decide) (by decide) (by decide)
  exact ⟨⟨db2, out, h, hs (by decide) (by decide)⟩,
    ⟨db3, out3, h3, hs3 (by decide) (by decide)⟩,
    ⟨db4, out4, h4, hs4 (by decide) (by decide)⟩⟩

/-! ### Queries on a store that has just grown -/

theorem find_fresh_append (l more : List PeopleRow) (row : PeopleRow)
    (hfresh : ∀ r ∈ l, r.id ≠ row.id) :
    (l ++ row :: more).find? (fun r => r.id = row.id) = some row := by
  have hnone : l.find? (fun r => decide (r.id = row.id)) = none := by
    rw [List.find?_eq_none]
    intro r hr
    simpa using hfresh r hr
  simp [List.find?_append, hnone]

theorem find_old_append (l more : List PeopleRow) (id : Int) (row : PeopleRow)
    (h : l.find? (fun r => r.id = id) = some row) :
    (l ++ more).find? (fun r => r.id = id) = some row := by
  simp [List.find?_append, h]

theorem new_rowid_fresh (db : Store) (r : PeopleRow) (hr : r ∈ db.people) :
    r.id ≠ new_rowid (db.people.map (fun r => r.id)) db.people_seq := by
  have := lt_new_rowid (db.people.map (fun r => r.id)) db.people_seq r.id
    (List.mem_map_of_mem _ hr)
  omega

theorem select_parents_last (people : List PeopleRow) (rels : List RelationshipRow)
    (new : RelationshipRow) (s1 s2 : Int) (c : Int)
    (hold : ∀ r ∈ rels, r.relationship_type = RelType.parent_child → r.person2_id ≠ c)
    (h2 : new.person2_id = c) (hty : new.relationship_type = RelType.parent_child) :
    select_parents ⟨people, rels ++ [new], s1, s2⟩ c
      = (select_person ⟨people, rels ++ [new], s1, s2⟩ new.person1_id).toList := by
  unfold select_parents
  simp only [List.filterMap_append]
  have hnil : rels.filterMap (fun r =>
      if r.person2_id = c ∧ r.relationship_type = RelType.parent_child
      then select_person ⟨people, rels ++ [new], s1, s2⟩ r.person1_id else none) = [] := by
    rw [List.filterMap_eq_nil_iff]
    intro r hr
    have := hold r hr
    by_cases hc : r.person2_id = c ∧ r.relationship_type = RelType.parent_child
    · exact absurd hc.1 (this hc.2)
    · simp [hc]
  rw [hnil]
  cases hsel : select_person ⟨people, rels ++ [new], s1, s2⟩ new.person1_id <;>
    simp [h2, hty, hsel]

/-- Closed form of the store after a successful, linking `process_add_person`. -/
theorem process_linked (db : Store) (f : AddPersonParams) (now1 now2 : Int)
    (t : String) (ty : RelType) (rel : Relationship)
    (hadd : (add_person db now1 (new_person_of f)).1 = 0)
    (hpos : 0 < parent_id_of f)
    (ht : f.relationship_type = some t)
    (hrel : new_relationship_of t f.marriage_date (parent_id_of f)
      (add_person db now1 (new_person_of f)).2.1.id = rel)
    (hcheck : RelType.check rel.relationship_type = some ty) :
    ∃ row : PeopleRow,
      row.id = new_rowid (db.people.map (fun r => r.id)) db.people_seq
      ∧ row.toPerson = (add_person db now1 (new_person_of f)).2.1
      ∧ (process_add_person_body db f now1 now2).1 =
        ⟨db.people ++ [row],
          db.relationships ++
            [⟨new_rowid (db.relationships.map (fun r => r.id)) db.relationships_seq,
              rel.person1_id, rel.person2_id, ty, rel.marriage_date, rel.divorce_date,
              now2, now2⟩],
          row.id,
          new_rowid (db.relationships.map (fun r => r.id)) db.relationships_seq⟩ := by
  obtain ⟨row, hdb, hid, hrow, -⟩ := add_person_stored db now1 (new_person_of f) hadd
  refine ⟨row, hid, hrow, ?_⟩
  rw [body_linked db f now1 now2 t ty hadd hpos ht (by rw [hrel]; exact hcheck), hrel, hdb]

/-- The parents query on a store that has just received a child and the row
linking it to its parent. -/
theorem get_parents_new_child (people : List PeopleRow) (rels : List RelationshipRow)
    (rowP rowC : PeopleRow) (rid s1 s2 now2 : Int)
    (hgender : rowP.gender = Gender.M)
    (hfreshP : ∀ r ∈ people, r.id ≠ rowP.id)
    (hfresh : ∀ r ∈ rels, r.relationship_type = RelType.parent_child →
      r.person2_id ≠ rowC.id) :
    get_parents
        ⟨people ++ [rowP] ++ [rowC],
          rels ++ [⟨rid, rowP.id, rowC.id, RelType.parent_child, none, none, now2, now2⟩],
          s1, s2⟩ rowC.id
      = (0, rowP.toPerson, Person.zero) := by
  have hsel : select_person
      ⟨people ++ [rowP] ++ [rowC],
        rels ++ [⟨rid, rowP.id, rowC.id, RelType.parent_child, none, none, now2, now2⟩],
        s1, s2⟩ rowP.id = some rowP := by
    unfold select_person
    simp only [List.append_assoc, List.singleton_append]
    exact find_fresh_append people [rowC] rowP hfreshP
  rw [get_parents_eq, select_parents_last _ _ _ _ _ _ hfresh rfl rfl]
  simp only [hsel, Option.toList]
  simp [last_of_gender, hgender]

/-- Insert a father, then add a child linked to him: after `add_person` stores P
of gender M with a positive id and `process_add_person` adds C with
`parent_id = P.id` and `relationship_type = parent-child`, `get_parents(C.id)`
returns father = P and no mother, provided no `parent-child` row already named
the id of C as person2. -/
theorem get_parents_after_add (db : Store) (now0 now1 now2 : Int) (P : Person)
    (params : CGIParams) (f : AddPersonParams)
    (hgender : P.gender = 'M')
    (hP : (add_person db now0 P).1 = 0)
    (hpos : 0 < (add_person db now0 P).2.1.id)
    (hf : extract_add_person_params params = some f)
    (hrt : f.relationship_type = some "parent-child")
    (hpid : parent_id_of f = (add_person db now0 P).2.1.id)
    (hC : (add_person (add_person db now0 P).2.2 now1 (new_person_of f)).1 = 0)
    (hfresh : ∀ r ∈ db.relationships, r.relationship_type = RelType.parent_child →
      r.person2_id
        ≠ (add_person (add_person db now0 P).2.2 now1 (new_person_of f)).2.1.id) :
    ∃ db2 out,
      process_add_person (add_person db now0 P).2.2 params now1 now2 = some (db2, out)
      ∧ get_parents db2
          (add_person (add_person db now0 P).2.2 now1 (new_person_of f)).2.1.id
        = (0, (add_person db now0 P).2.1, Person.zero) := by
  obtain ⟨rowP, hdbP, hidP, hPP, hgP⟩ := add_person_stored db now0 P hP
  have hgM : rowP.gender = Gender.M := by
    rw [hgender] at hgP
    cases hg : rowP.gender
    · rfl
    · rw [hg] at hgP
      exact absurd hgP (by decide)
  have hPid : (add_person db now0 P).2.1.id = rowP.id := by rw [← hPP]; rfl
  rw [hPid] at hpid hpos
  obtain ⟨rowC, hidC, hCC, hbody⟩ := process_linked (add_person db now0 P).2.2 f now1 now2
    "parent-child" RelType.parent_child _ hC (hpid ▸ hpos) hrt
    (new_relationship_parent_child _ _ _) rfl
  have hCid : (add_person (add_person db now0 P).2.2 now1 (new_person_of f)).2.1.id
      = rowC.id := by rw [← hCC]; rfl
  refine ⟨(process_add_person_body (add_person db now0 P).2.2 f now1 now2).1,
    (process_add_person_body (add_person db now0 P).2.2 f now1 now2).2,
    process_add_person_of_extract _ params f now1 now2 hf, ?_⟩
  rw [hbody, hCid, hpid, ← hPP]
  rw [hCid] at hfresh
  rw [hdbP]
  apply get_parents_new_child _ _ _ _ _ _ _ _ hgM _ hfresh
  intro r hr
  rw [hidP]
  exact new_rowid_fresh db r hr

/-- C3 (as the claim states it, refuted): Eve is added to the empty store with
`parent_id=3` and `relationship_type=child`; then P = Adam (gender M) is
inserted and receives id 2, and C = Cain is added through `process_add_person`
with `parent_id=2` and `relationship_type=parent-child` and receives id 3.
`get_parents(3)` returns father Adam and mother Eve: the mother is not
absent. -/
theorem get_parents_mother_present :
    (process_add_person Store.empty
        (params_of [("first_name", "Eve"), ("last_name", "Doe"), ("gender", "F"),
          ("parent_id", "3"), ("relationship_type", "child")]) 10 20).map Prod.fst
      = some eve_store
    ∧ (add_person eve_store 30 adam).1 = 0
    ∧ (add_person eve_store 30 adam).2.1.id = 2
    ∧ (add_person eve_store 30 adam).2.1.gender = 'M'
    ∧ (process_add_person (add_person eve_store 30 adam).2.2 cain_params 40 50).map
        Prod.fst = some cain_store
    ∧ get_person_by_id cain_store 3
        = some ⟨3, some "Cain", some "Doe", 'M', none, none, none, none, 40, 40⟩
    ∧ get_parents cain_store 3
        = (0, ⟨2, some "Adam", some "Doe", 'M', none, none, none, none, 30, 30⟩,
            ⟨1, some "Eve", some "Doe", 'F', none, none, none, none, 10, 10⟩)
    ∧ (get_parents cain_store 3).2.2.id ≠ 0 := by
  refine ⟨by decide, by decide, by decide, by decide, by decide, by decide, by decide,
    by decide⟩

/-- C3 (amended): in a store whose rowids are unique and non-zero,
`get_parents(c)` returns a father (`father.id != 0`) iff some `parent-child` row
with `person2_id = c` names as person1 a person of gender M, a mother iff some
such row names a person of gender F, and each returned parent is such a person.
After `add_person` stores P of gender M with a positive id and
`process_add_person` adds C with `parent_id = P.id` and
`relationship_type = parent-child`, `get_parents(C.id)` returns father = P and no
mother, provided no `parent-child` row already named C's id as person2. -/
theorem get_parents_spec :
    (∀ (db : Store) (c : Int), (db.people.map (fun r => r.id)).Nodup →
      (∀ row ∈ db.people, row.id ≠ 0) →
      (get_parents db c).1 = 0
      ∧ ((get_parents db c).2.1.id ≠ 0 ↔
          ∃ r ∈ db.relationships, ∃ row ∈ db.people,
            r.relationship_type = RelType.parent_child ∧ r.person2_id = c
            ∧ row.id = r.person1_id ∧ row.gender = Gender.M)
      ∧ ((get_parents db c).2.1.id ≠ 0 →
          ∃ r ∈ db.relationships, ∃ row ∈ db.people,
            r.relationship_type = RelType.parent_child ∧ r.person2_id = c
            ∧ row.id = r.person1_id ∧ row.gender = Gender.M
            ∧ (get_parents db c).2.1 = row.toPerson)
      ∧ ((get_parents db c).2.2.id ≠ 0 ↔
          ∃ r ∈ db.relationships, ∃ row ∈ db.people,
            r.relationship_type = RelType.parent_child ∧ r.person2_id = c
            ∧ row.id = r.person1_id ∧ row.gender = Gender.F)
      ∧ ((get_parents db c).2.2.id ≠ 0 →
          ∃ r ∈ db.relationships, ∃ row ∈ db.people,
            r.relationship_type = RelType.parent_child ∧ r.person2_id = c
            ∧ row.id = r.person1_id ∧ row.gender = Gender.F
            ∧ (get_parents db c).2.2 = row.toPerson))
    ∧ (∀ (db : Store) (now0 now1 now2 : Int) (P : Person) (params : CGIParams)
        (f : AddPersonParams),
        P.gender = 'M' →
        (add_person db now0 P).1 = 0 →
        0 < (add_person db now0 P).2.1.id →
        extract_add_person_params params = some f →
        f.relationship_type = some "parent-child" →
        parent_id_of f = (add_person db now0 P).2.1.id →
        (add_person (add_person db now0 P).2.2 now1 (new_person_of f)).1 = 0 →
        (∀ r ∈ db.relationships, r.relationship_type = RelType.parent_child →
          r.person2_id
            ≠ (add_person (add_person db now0 P).2.2 now1 (new_person_of f)).2.1.id) →
        ∃ db2 out,
          process_add_person (add_person db now0 P).2.2 params now1 now2
            = some (db2, out)
          ∧ get_parents db2
              (add_person (add_person db now0 P).2.2 now1 (new_person_of f)).2.1.id
            = (0, (add_person db now0 P).2.1, Person.zero)) := by
  refine ⟨?_, ?_⟩
  · intro db c hkey hnz
    have hM := get_parents_slot db c Gender.M hkey hnz
    have hF := get_parents_slot db c Gender.F hkey hnz
    rw [get_parents_eq]
    exact ⟨rfl, hM.1, hM.2, hF.1, hF.2⟩
  · intro db now0 now1 now2 P params f h1 h2 h3 h4 h5 h6 h7 h8
    exact get_parents_after_add db now0 now1 now2 P params f h1 h2 h3 h4 h5 h6 h7 h8

/-- A run of C3: in the family store Kid has father John and mother Jane, and
Adam inserted into the empty store followed by Abel added as his child gives
`get_parents(2)` = (Adam, no mother). -/
theorem get_parents_spec_witness :
    ((get_parents family_store 3).2.1.id ≠ 0 ↔
      ∃ r ∈ family_store.relationships, ∃ row ∈ family_store.people,
        r.relationship_type = RelType.parent_child ∧ r.person2_id = 3
        ∧ row.id = r.person1_id ∧ row.gender = Gender.M)
    ∧ (get_parents family_store 3).2.1.id = 2
    ∧ ∃ db2 out,
        process_add_person (add_person Store.empty 30 adam).2.2 abel_params 40 50
          = some (db2, out)
        ∧ get_parents db2 2
          = (0, ⟨1, some "Adam", some "Doe", 'M', none, none, none, none, 30, 30⟩,
              Person.zero) :=
  ⟨(get_parents_spec.1 family_store 3 (by decide) (by decide)).2.1, by decide,
    get_parents_spec.2 Store.empty 30 40 50 adam abel_params abel_fields
      (by decide) (by decide) (by decide) (by decide) (by decide) (by decide)
      (by decide) (by decide)⟩

/-! ### `get_spouse` -/

theorem mem_select_spouse (db : Store) (x : Int) (row : PeopleRow) :
    row ∈ select_spouse db x ↔
      ∃ r ∈ db.relationships,
        ((r.person1_id = x ∨ r.person2_id = x)
          ∧ r.relationship_type = RelType.spouse
          ∧ (r.divorce_date = none ∨ r.divorce_date = some ""))
        ∧ select_person db (if r.person1_id = x then r.person2_id else r.person1_id)
            = some row := by
  unfold select_spouse
  rw [List.mem_filterMap]
  constructor
  · rintro ⟨r, hr, h⟩
    by_cases hc : (r.person1_id = x ∨ r.person2_id = x)
        ∧ r.relationship_type = RelType.spouse
        ∧ (r.divorce_date = none ∨ r.divorce_date = some "")
    · rw [if_pos hc] at h
      exact ⟨r, hr, hc, h⟩
    · rw [if_neg hc] at h
      cases h
  · rintro ⟨r, hr, hc, h⟩
    exact ⟨r, hr, by rw [if_pos hc]; exact h⟩

/-- C4: `get_spouse(x)` returns a person S only if some `spouse` row whose
divorce date is null or empty links x and S.id, in either slot; and when every
`spouse` row involving x has a non-empty divorce date, `get_spouse(x)` reports
not found (return value 1, `*spouse` zeroed). -/
theorem get_spouse_spec (db : Store) (x : Int) :
    (∀ S : Person, get_spouse db x = (0, S) →
      ∃ r ∈ db.relationships, r.relationship_type = RelType.spouse
        ∧ (r.divorce_date = none ∨ r.divorce_date = some "")
        ∧ ((r.person1_id = x ∧ r.person2_id = S.id)
          ∨ (r.person2_id = x ∧ r.person1_id = S.id)))
    ∧ ((∀ r ∈ db.relationships, r.relationship_type = RelType.spouse →
          (r.person1_id = x ∨ r.person2_id = x) →
          ∃ d, r.divorce_date = some d ∧ d ≠ "") →
        get_spouse db x = (1, Person.zero)) := by
  constructor
  · intro S hS
    unfold get_spouse at hS
    cases hsel : select_spouse db x with
    | nil => simp [hsel] at hS
    | cons row rest =>
      simp only [hsel, Prod.mk.injEq, true_and] at hS
      have hmem : row ∈ select_spouse db x := by simp [hsel]
      obtain ⟨r, hr, ⟨hx, hty, hdiv⟩, hlook⟩ := (mem_select_spouse db x row).mp hmem
      have hid := select_person_id db _ row hlook
      have hSid : S.id = row.id := by rw [← hS]; rfl
      refine ⟨r, hr, hty, hdiv, ?_⟩
      by_cases h1 : r.person1_id = x
      · left
        rw [if_pos h1] at hid
        exact ⟨h1, by rw [hSid, hid]⟩
      · right
        rw [if_neg h1] at hid
        rcases hx with hx | hx
        · exact absurd hx h1
        · exact ⟨hx, by rw [hSid, hid]⟩
  · intro hall
    have hnil : select_spouse db x = [] := by
      unfold select_spouse
      rw [List.filterMap_eq_nil_iff]
      intro r hr
      by_cases hc : (r.person1_id = x ∨ r.person2_id = x)
          ∧ r.relationship_type = RelType.spouse
          ∧ (r.divorce_date = none ∨ r.divorce_date = some "")
      · obtain ⟨d, hd, hne⟩ := hall r hr hc.2.1 hc.1
        rcases hc.2.2 with h | h
        · rw [hd] at h
          cases h
        · rw [hd] at h
          exact absurd (Option.some.inj h) hne
      · rw [if_neg hc]
    simp [get_spouse, hnil]

/-- A run of C4: in the family store `get_spouse(1)` returns John, whom the
active spouse row links to Jane; once the divorce date is recorded the same
query reports not found. -/
theorem get_spouse_spec_witness :
    get_spouse family_store 1
      = (0, ⟨2, some "John", some "Doe", 'M', none, none, none, none, 110, 110⟩)
    ∧ (∃ r ∈ family_store.relationships, r.relationship_type = RelType.spouse
        ∧ (r.divorce_date = none ∨ r.divorce_date = some "")
        ∧ ((r.person1_id = 1 ∧ r.person2_id = 2) ∨ (r.person2_id = 1 ∧ r.person1_id = 2)))
    ∧ get_spouse divorced_store 1 = (1, Person.zero)
    ∧ get_spouse divorced_store 2 = (1, Person.zero) :=
  ⟨by decide,
    (get_spouse_spec family_store 1).1
      ⟨2, some "John", some "Doe", 'M', none, none, none, none, 110, 110⟩ (by decide),
    (get_spouse_spec divorced_store 1).2 (by decide),
    (get_spouse_spec divorced_store 2).2 (by decide)⟩

/-- The two spouse queries on a store that has just received person B and the
spouse row `(a, B.id)`. -/
theorem get_spouse_new_spouse (people : List PeopleRow) (rels : List RelationshipRow)
    (rowA rowB : PeopleRow) (a rid s1 s2 now2 : Int) (m : Option String)
    (hA : people.find? (fun r => r.id = a) = some rowA)
    (hfreshB : ∀ r ∈ people, r.id ≠ rowB.id)
    (hnoA : ∀ r ∈ rels, r.relationship_type = RelType.spouse →
      r.person1_id ≠ a ∧ r.person2_id ≠ a)
    (hnoB : ∀ r ∈ rels, r.relationship_type = RelType.spouse →
      r.person1_id ≠ rowB.id ∧ r.person2_id ≠ rowB.id) :
    get_spouse
        ⟨people ++ [rowB], rels ++ [⟨rid, a, rowB.id, RelType.spouse, m, none, now2, now2⟩],
          s1, s2⟩ a = (0, rowB.toPerson)
    ∧ get_spouse
        ⟨people ++ [rowB], rels ++ [⟨rid, a, rowB.id, RelType.spouse, m, none, now2, now2⟩],
          s1, s2⟩ rowB.id = (0, rowA.toPerson) := by
  have hAmem : rowA ∈ people := List.mem_of_find?_eq_some hA
  have hAid : rowA.id = a := by
    have := List.find?_some hA
    simpa using this
  have hne : a ≠ rowB.id := by
    rw [← hAid]
    exact hfreshB rowA hAmem
  have hselB : (people ++ [rowB]).find? (fun r => decide (r.id = rowB.id)) = some rowB :=
    find_fresh_append people [] rowB hfreshB
  have hselA : (people ++ [rowB]).find? (fun r => decide (r.id = a)) = some rowA :=
    find_old_append people [rowB] a rowA hA
  have hnil : ∀ (x : Int) (db : Store),
      (∀ r ∈ rels, r.relationship_type = RelType.spouse →
        r.person1_id ≠ x ∧ r.person2_id ≠ x) →
      rels.filterMap (fun r =>
        if (r.person1_id = x ∨ r.person2_id = x)
            ∧ r.relationship_type = RelType.spouse
            ∧ (r.divorce_date = none ∨ r.divorce_date = some "")
        then select_person db (if r.person1_id = x then r.person2_id else r.person1_id)
        else none) = [] := by
    intro x db hno
    rw [List.filterMap_eq_nil_iff]
    intro r hr
    have h := hno r hr
    by_cases hc : (r.person1_id = x ∨ r.person2_id = x)
        ∧ r.relationship_type = RelType.spouse
        ∧ (r.divorce_date = none ∨ r.divorce_date = some "")
    · have h2 := h hc.2.1
      rcases hc.1 with h1 | h1
      · exact absurd h1 h2.1
      · exact absurd h1 h2.2
    · rw [if_neg hc]
  have hsB : ∀ R, select_person ⟨people ++ [rowB], R, s1, s2⟩ rowB.id = some rowB :=
    fun _ => hselB
  have hsA : ∀ R, select_person ⟨people ++ [rowB], R, s1, s2⟩ a = some rowA :=
    fun _ => hselA
  constructor
  · unfold get_spouse select_spouse
    simp only [List.filterMap_append, hnil a _ hnoA, List.nil_append]
    simp [hsB]
  · unfold get_spouse select_spouse
    simp only [List.filterMap_append, hnil rowB.id _ hnoB, List.nil_append]
    simp [hsA, hne]

/-- C5 (as the claim states it, refuted): Zed is added to the empty store with
`parent_id=3` and `relationship_type=spouse`, then Jane (id 2) without a link,
so that A = Jane exists and has no spouse row.  B = John is then added through
`process_add_person` with `relationship_type=spouse` and `parent_id=2` and
receives id 3.  `get_spouse(2)` returns John, but `get_spouse(3)` returns Zed,
not Jane. -/
theorem get_spouse_not_symmetric :
    (((process_add_person Store.empty
        (params_of [("first_name", "Zed"), ("last_name", "Roe"), ("gender", "M"),
          ("parent_id", "3"), ("relationship_type", "spouse")]) 10 20).bind
      (fun r => process_add_person r.1
        (params_of [("first_name", "Jane"), ("last_name", "Doe"), ("gender", "F")])
        30 31)).map Prod.fst)
      = some zed_store
    ∧ get_person_by_id zed_store 2
        = some ⟨2, some "Jane", some "Doe", 'F', none, none, none, none, 30, 30⟩
    ∧ (∀ r ∈ zed_store.relationships, r.relationship_type = RelType.spouse →
        r.person1_id ≠ 2 ∧ r.person2_id ≠ 2)
    ∧ (process_add_person zed_store john_params 40 50).map Prod.fst = some john_store
    ∧ get_spouse john_store 2
        = (0, ⟨3, some "John", some "Doe", 'M', none, none, none, none, 40, 40⟩)
    ∧ get_spouse john_store 3
        = (0, ⟨1, some "Zed", some "Roe", 'M', none, none, none, none, 10, 10⟩)
    ∧ (get_spouse john_store 3).2.id ≠ 2 := by
  refine ⟨by decide, by decide, by decide, by decide, by decide, by decide, by decide⟩

/-- C5 (amended): `get_spouse` checks both sides of a spouse row.  When person A
exists with a positive id and has no spouse row, and B is added through
`process_add_person` with `relationship_type = spouse` and `parent_id = A.id`,
then `get_spouse(A.id)` returns B and `get_spouse(B.id)` returns A, provided no
spouse row already named the id that B receives. -/
theorem get_spouse_after_add (db : Store) (params : CGIParams) (f : AddPersonParams)
    (now1 now2 : Int) (a : Int) (A : Person)
    (hA : get_person_by_id db a = some A)
    (hapos : 0 < a)
    (hnoA : ∀ r ∈ db.relationships, r.relationship_type = RelType.spouse →
      r.person1_id ≠ a ∧ r.person2_id ≠ a)
    (hf : extract_add_person_params params = some f)
    (hrt : f.relationship_type = some "spouse")
    (hpid : parent_id_of f = a)
    (hB : (add_person db now1 (new_person_of f)).1 = 0)
    (hnoB : ∀ r ∈ db.relationships, r.relationship_type = RelType.spouse →
      r.person1_id ≠ (add_person db now1 (new_person_of f)).2.1.id
      ∧ r.person2_id ≠ (add_person db now1 (new_person_of f)).2.1.id) :
    ∃ db2 out, process_add_person db params now1 now2 = some (db2, out)
      ∧ get_spouse db2 a = (0, (add_person db now1 (new_person_of f)).2.1)
      ∧ get_spouse db2 (add_person db now1 (new_person_of f)).2.1.id = (0, A) := by
  obtain ⟨rowA, hselA, hrowA⟩ : ∃ rowA, select_person db a = some rowA
      ∧ rowA.toPerson = A := by
    unfold get_person_by_id at hA
    cases hsel : select_person db a with
    | none => simp [hsel] at hA
    | some rowA => exact ⟨rowA, rfl, by simpa [hsel] using hA⟩
  obtain ⟨rowB, hidB, hBB, hbody⟩ := process_linked db f now1 now2 "spouse"
    RelType.spouse _ hB (hpid ▸ hapos) hrt (new_relationship_spouse _ _ _) rfl
  have hBid : (add_person db now1 (new_person_of f)).2.1.id = rowB.id := by
    rw [← hBB]; rfl
  refine ⟨(process_add_person_body db f now1 now2).1,
    (process_add_person_body db f now1 now2).2,
    process_add_person_of_extract db params f now1 now2 hf, ?_⟩
  rw [hbody, hBid, hpid, ← hBB, ← hrowA]
  rw [hBid] at hnoB
  apply get_spouse_new_spouse db.people db.relationships rowA rowB a _ _ _ _ _ hselA
    _ hnoA hnoB
  intro r hr
  rw [hidB]
  exact new_rowid_fresh db r hr

/-- A run of C5: Jane is alone in the store; John is added as her spouse; each
is then the spouse of the other. -/
theorem get_spouse_after_add_witness :
    ∃ db2 out,
      process_add_person
          ⟨[⟨1, "Zed", "Roe", Gender.M, none, none, none, none, 10, 10⟩,
            ⟨2, "Jane", "Doe", Gender.F, none, none, none, none, 30, 30⟩], [], 2, 0⟩
          john_params 40 50 = some (db2, out)
      ∧ get_spouse db2 2
          = (0, ⟨3, some "John", some "Doe", 'M', none, none, none, none, 40, 40⟩)
      ∧ get_spouse db2 3
          = (0, ⟨2, some "Jane", some "Doe", 'F', none, none, none, none, 30, 30⟩) :=
  get_spouse_after_add
    ⟨[⟨1, "Zed", "Roe", Gender.M, none, none, none, none, 10, 10⟩,
      ⟨2, "Jane", "Doe", Gender.F, none, none, none, none, 30, 30⟩], [], 2, 0⟩
    john_params john_fields 40 50 2
    ⟨2, some "Jane", some "Doe", 'F', none, none, none, none, 30, 30⟩
    (by decide) (by decide) (by decide) (by decide) (by decide) (by decide)
    (by decide) (by decide)

/-! ### Tree rendering -/

theorem render_family_tree_succ (fuel : Nat) (db : Store) (root_id levels : Int) :
    render_family_tree (fuel + 1) db root_id levels
      = render_family_tree_step (render_family_tree fuel db) db root_id levels := rfl

theorem generate_tree_json_succ (fuel : Nat) (db : Store) (person_id levels : Int) :
    generate_tree_json (fuel + 1) db person_id levels
      = generate_tree_json_step (generate_tree_json fuel db) db person_id levels := rfl

/-- C7: with `levels <= 0`, `render_family_tree` prints nothing and
`generate_tree_json` prints exactly `null`, for every store and root id. -/
theorem tree_zero_levels (db : Store) (root_id levels : Int) (fuel : Nat)
    (h : levels ≤ 0) :
    render_family_tree (fuel + 1) db root_id levels = some ""
    ∧ generate_tree_json (fuel + 1) db root_id levels = some "null" := by
  simp [render_family_tree, generate_tree_json, h]

/-- A run of C7 on the family store with zero and with negative levels. -/
theorem tree_zero_levels_witness :
    (render_family_tree 1 family_store 3 0 = some ""
      ∧ generate_tree_json 1 family_store 3 0 = some "null")
    ∧ (render_family_tree 8 family_store 99 (-2) = some ""
      ∧ generate_tree_json 8 family_store 99 (-2) = some "null") :=
  ⟨tree_zero_levels family_store 3 0 0 (by decide),
    tree_zero_levels family_store 99 (-2) 7 (by decide)⟩

/-- C8: with `N > 0` and an id that names no `people` row, `render_family_tree`
returns having printed exactly the `Person not found.` paragraph and
`generate_tree_json` returns having printed exactly `null`. -/
theorem tree_person_not_found (db : Store) (id N : Int) (fuel : Nat)
    (hN : 0 < N) (hmissing : ∀ row ∈ db.people, row.id ≠ id) :
    render_family_tree (fuel + 1) db id N = some "<p>Person not found.</p>"
    ∧ generate_tree_json (fuel + 1) db id N = some "null" := by
  have hnot : ¬ N ≤ 0 := by omega
  have hsel : get_person_by_id db id = none := by
    unfold get_person_by_id select_person
    rw [Option.map_eq_none', List.find?_eq_none]
    intro row hrow
    simpa using hmissing row hrow
  simp [render_family_tree, generate_tree_json, hnot, hsel]

/-- A run of C8 on the family store, which has no person 99. -/
theorem tree_person_not_found_witness :
    render_family_tree 1 family_store 99 3 = some "<p>Person not found.</p>"
    ∧ generate_tree_json 1 family_store 99 3 = some "null" :=
  tree_person_not_found family_store 99 3 0 (by decide) (by decide)

theorem render_step_congr (call1 call2 : Int → Int → Option String) (db : Store)
    (root_id levels : Int)
    (h : 1 < levels → ∀ id, call1 id (levels - 1) = call2 id (levels - 1)) :
    render_family_tree_step call1 db root_id levels
      = render_family_tree_step call2 db root_id levels := by
  unfold render_family_tree_step
  by_cases h1 : 1 < levels
  · simp only [h h1]
  · simp only [gt_iff_lt, h1, if_false]

theorem render_step_some (call : Int → Int → Option String) (db : Store)
    (root_id levels : Int)
    (h : 1 < levels → ∀ id, (call id (levels - 1)).isSome) :
    (render_family_tree_step call db root_id levels).isSome := by
  unfold render_family_tree_step
  by_cases h0 : levels ≤ 0
  · simp [h0]
  · simp only [h0, if_false]
    cases get_person_by_id db root_id with
    | none => rfl
    | some person =>
      simp only [Option.isSome_map']
      by_cases h1 : 1 < levels
      · simp only [gt_iff_lt, h1, if_true]
        by_cases hrc : (get_parents db root_id).1 = 0
        · simp only [hrc, if_true]
          have hf : ((if (get_parents db root_id).2.1.id ≠ 0
              then call (get_parents db root_id).2.1.id (levels - 1)
              else some "")).isSome := by
            split_ifs
            · exact h h1 _
            · rfl
          have hm : ((if (get_parents db root_id).2.2.id ≠ 0
              then call (get_parents db root_id).2.2.id (levels - 1)
              else some "")).isSome := by
            split_ifs
            · exact h h1 _
            · rfl
          obtain ⟨a, ha⟩ := Option.isSome_iff_exists.mp hf
          obtain ⟨b, hb⟩ := Option.isSome_iff_exists.mp hm
          rw [ha, hb]
          rfl
        · simp only [hrc, if_false]
          rfl
      · simp only [gt_iff_lt, h1, if_false]
        rfl

theorem json_step_congr (call1 call2 : Int → Int → Option String) (db : Store)
    (person_id levels : Int)
    (h : 0 < levels → ∀ id, call1 id (levels - 1) = call2 id (levels - 1)) :
    generate_tree_json_step call1 db person_id levels
      = generate_tree_json_step call2 db person_id levels := by
  unfold generate_tree_json_step
  by_cases h0 : levels ≤ 0
  · simp only [h0, if_true]
  · have hpos : 0 < levels := by omega
    simp only [h hpos]

theorem mapM_option_some {α β : Type} (f : α → Option β) (l : List α)
    (h : ∀ x, (f x).isSome) : (l.mapM f).isSome := by
  induction l with
  | nil => rfl
  | cons a l ih =>
    obtain ⟨b, hb⟩ := Option.isSome_iff_exists.mp (h a)
    obtain ⟨bs, hbs⟩ := Option.isSome_iff_exists.mp ih
    rw [List.mapM_cons, hb, hbs]
    rfl

theorem json_step_some (call : Int → Int → Option String) (db : Store)
    (person_id levels : Int)
    (h : 0 < levels → ∀ id, (call id (levels - 1)).isSome) :
    (generate_tree_json_step call db person_id levels).isSome := by
  unfold generate_tree_json_step
  by_cases h0 : levels ≤ 0
  · simp [h0]
  · have hpos : 0 < levels := by omega
    simp only [h0, if_false]
    cases get_person_by_id db person_id with
    | none => rfl
    | some person =>
      simp only [Option.isSome_map']
      split_ifs
      · rw [Option.isSome_map']
        exact mapM_option_some _ _ (fun child => h hpos child.id)
      · rfl

/-- Fuel beyond `levels` changes nothing, and the run ends. -/
theorem render_fuel (db : Store) (n : Nat) :
    ∀ (fuel : Nat) (root_id levels : Int), levels.toNat ≤ n → n < fuel →
      render_family_tree fuel db root_id levels
          = render_family_tree (n + 1) db root_id levels
        ∧ (render_family_tree (n + 1) db root_id levels).isSome := by
  induction n with
  | zero =>
    intro fuel root_id levels hl hf
    obtain ⟨k, rfl⟩ : ∃ k, fuel = k + 1 := ⟨fuel - 1, by omega⟩
    simp only [render_family_tree_succ]
    exact ⟨render_step_congr _ _ db root_id levels (fun h1 => by omega),
      render_step_some _ db root_id levels (fun h1 => by omega)⟩
  | succ m ih =>
    intro fuel root_id levels hl hf
    obtain ⟨k, rfl⟩ : ∃ k, fuel = k + 1 := ⟨fuel - 1, by omega⟩
    simp only [render_family_tree_succ]
    refine ⟨render_step_congr _ _ db root_id levels (fun h1 id => ?_),
      render_step_some _ db root_id levels (fun h1 id => ?_)⟩
    · exact (ih k id (levels - 1) (by omega) (by omega)).1
    · exact (ih (m + 1) id (levels - 1) (by omega) (by omega)).2

/-- Fuel beyond `levels` changes nothing, and the run ends. -/
theorem json_fuel (db : Store) (n : Nat) :
    ∀ (fuel : Nat) (person_id levels : Int), levels.toNat ≤ n → n < fuel →
      generate_tree_json fuel db person_id levels
          = generate_tree_json (n + 1) db person_id levels
        ∧ (generate_tree_json (n + 1) db person_id levels).isSome := by
  induction n with
  | zero =>
    intro fuel person_id levels hl hf
    obtain ⟨k, rfl⟩ : ∃ k, fuel = k + 1 := ⟨fuel - 1, by omega⟩
    simp only [generate_tree_json_succ]
    exact ⟨json_step_congr _ _ db person_id levels (fun h1 => by omega),
      json_step_some _ db person_id levels (fun h1 => by omega)⟩
  | succ m ih =>
    intro fuel person_id levels hl hf
    obtain ⟨k, rfl⟩ : ∃ k, fuel = k + 1 := ⟨fuel - 1, by omega⟩
    simp only [generate_tree_json_succ]
    refine ⟨json_step_congr _ _ db person_id levels (fun h1 id => ?_),
      json_step_some _ db person_id levels (fun h1 id => ?_)⟩
    · exact (ih k id (levels - 1) (by omega) (by omega)).1
    · exact (ih (m + 1) id (levels - 1) (by omega) (by omega)).2

/-- C9: for every store, cyclic or not, every root and every integer `levels`,
`render_family_tree` and `generate_tree_json` terminate: a nesting depth of
`max levels 0 + 1` activations is enough and more fuel gives the same output.
Every recursive call is made with `levels - 1`: an activation is unfolded into
its step, and the step depends on the recursive function only through its
values at `levels - 1`. -/
theorem tree_terminates (db : Store) (root_id levels : Int) :
    (∀ fuel, render_family_tree (fuel + 1) db root_id levels
        = render_family_tree_step (render_family_tree fuel db) db root_id levels)
    ∧ (∀ call1 call2 : Int → Int → Option String,
        (∀ id, call1 id (levels - 1) = call2 id (levels - 1)) →
        render_family_tree_step call1 db root_id levels
          = render_family_tree_step call2 db root_id levels)
    ∧ (∃ out, ∀ fuel, levels.toNat < fuel →
        render_family_tree fuel db root_id levels = some out)
    ∧ (∀ fuel, generate_tree_json (fuel + 1) db root_id levels
        = generate_tree_json_step (generate_tree_json fuel db) db root_id levels)
    ∧ (∀ call1 call2 : Int → Int → Option String,
        (∀ id, call1 id (levels - 1) = call2 id (levels - 1)) →
        generate_tree_json_step call1 db root_id levels
          = generate_tree_json_step call2 db root_id levels)
    ∧ (∃ json, ∀ fuel, levels.toNat < fuel →
        generate_tree_json fuel db root_id levels = some json) := by
  refine ⟨fun _ => rfl, fun c1 c2 h => render_step_congr c1 c2 db root_id levels
    (fun _ => h), ?_, fun _ => rfl, fun c1 c2 h => json_step_congr c1 c2 db root_id
    levels (fun _ => h), ?_⟩
  · obtain ⟨out, hout⟩ := Option.isSome_iff_exists.mp
      (render_fuel db levels.toNat (levels.toNat + 1) root_id levels (le_refl _)
        (Nat.lt_succ_self _)).2
    refine ⟨out, fun fuel hfuel => ?_⟩
    rw [(render_fuel db levels.toNat fuel root_id levels (le_refl _) hfuel).1, hout]
  · obtain ⟨json, hjson⟩ := Option.isSome_iff_exists.mp
      (json_fuel db levels.toNat (levels.toNat + 1) root_id levels (le_refl _)
        (Nat.lt_succ_self _)).2
    refine ⟨json, fun fuel hfuel => ?_⟩
    rw [(json_fuel db levels.toNat fuel root_id levels (le_refl _) hfuel).1, hjson]

/-- A run of C9 on the cyclic store: from person 1, who is their own parent, and
from person 2, whose child 3 is also their parent, three levels end within four
activations, with the same output under more fuel; two activations are not
enough for the HTML walk nor three for the JSON walk, so both do go round the
cycle. -/
theorem tree_terminates_witness :
    (∃ out, render_family_tree 4 cyclic_store 1 3 = some out
      ∧ render_family_tree 9 cyclic_store 1 3 = some out)
    ∧ (∃ json, generate_tree_json 4 cyclic_store 2 3 = some json
      ∧ generate_tree_json 9 cyclic_store 2 3 = some json)
    ∧ render_family_tree 2 cyclic_store 1 3 = none
    ∧ generate_tree_json 3 cyclic_store 2 3 = none := by
  obtain ⟨out, hout⟩ := (tree_terminates cyclic_store 1 3).2.2.1
  obtain ⟨json, hjson⟩ := (tree_terminates cyclic_store 2 3).2.2.2.2.2
  exact ⟨⟨out, hout 4 (by decide), hout 9 (by decide)⟩,
    ⟨json, hjson 4 (by decide), hjson 9 (by decide)⟩, by decide, by decide⟩

/-! ### Escaped output -/

theorem singleton_data (a : Char) : (String.singleton a).data = [a] := rfl

/-- What `escape_entity` gives: an entity of the table, or the character itself
when it is not `&`. -/
theorem escape_entity_cases (a : Char) :
    (∃ e ∈ html_entities, ∃ tail, escape_entity a = e ∧ e.data = '&' :: tail
      ∧ '&' ∉ tail ∧ ∀ c ∈ tail, c ≠ '<' ∧ c ≠ '>' ∧ c ≠ '"' ∧ c ≠ apostrophe)
    ∨ ((a ≠ '&' ∧ a ≠ '<' ∧ a ≠ '>' ∧ a ≠ '"' ∧ a ≠ apostrophe)
      ∧ (escape_entity a).data = [a]) := by
  unfold escape_entity
  split_ifs with h1 h2 h3 h4 h5
  · exact Or.inl ⟨"&amp;", by decide, "amp;".data, rfl, rfl, by decide, by decide⟩
  · exact Or.inl ⟨"&lt;", by decide, "lt;".data, rfl, rfl, by decide, by decide⟩
  · exact Or.inl ⟨"&gt;", by decide, "gt;".data, rfl, rfl, by decide, by decide⟩
  · exact Or.inl ⟨"&quot;", by decide, "quot;".data, rfl, rfl, by decide, by decide⟩
  · exact Or.inl ⟨"&#039;", by decide, "#039;".data, rfl, rfl, by decide, by decide⟩
  · exact Or.inr ⟨⟨h1, h2, h3, h4, h5⟩, rfl⟩

theorem entity_chars_clean (a c : Char) (hc : c ∈ (escape_entity a).data) :
    c ≠ '<' ∧ c ≠ '>' ∧ c ≠ '"' ∧ c ≠ apostrophe := by
  rcases escape_entity_cases a with ⟨e, -, tail, he, hd, -, hclean⟩ | ⟨hne, hd⟩
  · rw [he, hd] at hc
    rcases List.mem_cons.mp hc with h | h
    · subst h
      decide
    · exact hclean c h
  · rw [hd, List.mem_singleton] at hc
    subst hc
    exact hne.2

theorem escaped_chars_clean (l : List Char) :
    ∀ c ∈ ((l.map escape_entity).map String.data).flatten,
      c ≠ '<' ∧ c ≠ '>' ∧ c ≠ '"' ∧ c ≠ apostrophe := by
  induction l with
  | nil => intro c hc; simp at hc
  | cons a l ih =>
    intro c hc
    simp only [List.map_cons, List.flatten_cons, List.mem_append] at hc
    rcases hc with h | h
    · exact entity_chars_clean a c h
    · exact ih c h

theorem amp_split_clean (tail R pre post : List Char) (h : '&' ∉ tail)
    (heq : tail ++ R = pre ++ '&' :: post) : ∃ pre2, R = pre2 ++ '&' :: post := by
  induction tail generalizing pre with
  | nil => exact ⟨pre, heq⟩
  | cons t ts ih =>
    cases pre with
    | nil =>
      simp only [List.cons_append, List.nil_append, List.cons.injEq] at heq
      exact absurd heq.1.symm (fun hh => h (hh ▸ List.mem_cons_self _ _))
    | cons p pre =>
      simp only [List.cons_append, List.cons.injEq] at heq
      exact ih pre (fun hh => h (List.mem_cons_of_mem _ hh)) heq.2

/-- An entity of the table followed by well-escaped text: every `&` starts an
entity. -/
theorem amp_after_entity (tail R : List Char) (e : String)
    (he : e ∈ html_entities) (hdata : e.data = '&' :: tail) (hclean : '&' ∉ tail)
    (ih : ∀ pre post, R = pre ++ '&' :: post →
      ∃ e ∈ html_entities, e.data <+: '&' :: post)
    (pre post : List Char) (heq : ('&' :: tail) ++ R = pre ++ '&' :: post) :
    ∃ e ∈ html_entities, e.data <+: '&' :: post := by
  cases pre with
  | nil =>
    simp only [List.cons_append, List.nil_append, List.cons.injEq, true_and] at heq
    refine ⟨e, he, ?_⟩
    rw [hdata, ← heq]
    exact ⟨R, rfl⟩
  | cons p pre =>
    simp only [List.cons_append, List.cons.injEq] at heq
    obtain ⟨pre2, h2⟩ := amp_split_clean tail R pre post hclean heq.2
    exact ih pre2 post h2

theorem escaped_amp (l : List Char) :
    ∀ pre post, ((l.map escape_entity).map String.data).flatten = pre ++ '&' :: post →
      ∃ e ∈ html_entities, e.data <+: '&' :: post := by
  induction l with
  | nil =>
    intro pre post h
    simp at h
  | cons a l ih =>
    intro pre post h
    simp only [List.map_cons, List.flatten_cons] at h
    rcases escape_entity_cases a with ⟨e, he, tail, hea, hd, hclean, -⟩ | ⟨hne, hd⟩
    · rw [hea, hd] at h
      exact amp_after_entity tail _ e he hd hclean ih pre post h
    · rw [hd] at h
      cases pre with
      | nil =>
        simp only [List.singleton_append, List.nil_append, List.cons.injEq] at h
        exact absurd h.1 hne.1
      | cons p pre =>
        simp only [List.singleton_append, List.cons_append, List.cons.injEq] at h
        exact ih pre post h.2

theorem html_escape_data (s : String) :
    (html_escape (some s)).data
      = ((s.data.map escape_entity).map String.data).flatten := by
  simp [html_escape, html_escape_fill_fst]

/-- C11: for every string (and for the null pointer) the result of `html_escape`
contains no `<`, `>`, double quote or apostrophe, and every `&` in it is the
first character of one of the five entities `&amp;`, `&lt;`, `&gt;`, `&quot;`,
`&#039;`. -/
theorem html_escape_safe (str : Option String) :
    (∀ c ∈ (html_escape str).data, c ≠ '<' ∧ c ≠ '>' ∧ c ≠ '"' ∧ c ≠ apostrophe)
    ∧ (∀ pre post : List Char, (html_escape str).data = pre ++ '&' :: post →
        ∃ e ∈ html_entities, e.data <+: '&' :: post) := by
  cases str with
  | none =>
    constructor
    · intro c hc
      simp [html_escape] at hc
    · intro pre post h
      simp [html_escape] at h
  | some s =>
    rw [html_escape_data]
    exact ⟨escaped_chars_clean s.data, escaped_amp s.data⟩

/-- A run of C11: in the escaped form of `a&b<c` the one `&` written for the
ampersand starts `&amp;` and the one written for `<` starts `&lt;`. -/
theorem html_escape_safe_witness :
    html_escape (some "a&b<c") = "a&amp;b&lt;c"
    ∧ (∃ e ∈ html_entities, e.data <+: '&' :: "amp;b&lt;c".data)
    ∧ (∃ e ∈ html_entities, e.data <+: '&' :: "lt;c".data) :=
  ⟨by decide,
    (html_escape_safe (some "a&b<c")).2 "a".data "amp;b&lt;c".data (by decide),
    (html_escape_safe (some "a&b<c")).2 "a&amp;b".data "lt;c".data (by decide)⟩

/-! ### `parse_query_string` -/

theorem chr_toNat (n : Nat) (h : n < 256) : (chr n).toNat = n := by
  have hv : n.isValidChar := Or.inl (by omega)
  unfold chr Char.ofNat
  rw [dif_pos hv]
  unfold Char.ofNatAux Char.toNat
  rfl

theorem chr_ne_nul (n : Nat) (h0 : n ≠ 0) (h : n < 256) : chr n ≠ nul := by
  intro heq
  have h1 := chr_toNat n h
  rw [heq] at h1
  have h2 : nul.toNat = 0 := by decide
  omega

theorem hex_digit_lt (c : Char) (x : Nat) (h : hex_digit c = some x) : x < 16 := by
  unfold hex_digit at h
  split_ifs at h <;> simp at h <;> omega

theorem hex_digit_not_space (c : Char) (x : Nat) (h : hex_digit c = some x) :
    isspace c = false ∧ c ≠ '-' ∧ c ≠ '+' := by
  have hn : (48 ≤ c.toNat ∧ c.toNat ≤ 57) ∨ (97 ≤ c.toNat ∧ c.toNat ≤ 102)
      ∨ (65 ≤ c.toNat ∧ c.toNat ≤ 70) := by
    unfold hex_digit at h
    split_ifs at h with h1 h2 h3
    · exact Or.inl h1
    · exact Or.inr (Or.inl h2)
    · exact Or.inr (Or.inr h3)
  refine ⟨?_, ?_, ?_⟩
  · unfold isspace
    have h32 : c ≠ ' ' := by
      intro hc
      rw [hc] at hn
      revert hn
      decide
    simp only [h32, decide_False, Bool.false_or, Bool.and_eq_false_imp, decide_eq_true_eq,
      decide_eq_false_iff_not]
    omega
  · intro hc
    rw [hc] at hn
    revert hn
    decide
  · intro hc
    rw [hc] at hn
    revert hn
    decide

theorem sscanf_two_digits (c1 c2 : Char) (rest : List Char) (x y : Nat)
    (h1 : hex_digit c1 = some x) (h2 : hex_digit c2 = some y) :
    sscanf_2x (c1 :: c2 :: rest) = some ((16 * x + y : Nat) : Int) := by
  obtain ⟨hs, hm, hp⟩ := hex_digit_not_space c1 x h1
  unfold sscanf_2x
  simp [List.dropWhile, hs, hm, hp, h1, h2]

/-- On a value whose escapes are well formed the decoding loop computes the
URL-decoding of the specification, and it writes no NUL byte when the value has
none. -/
theorem url_decode_well_formed (n : Nat) :
    ∀ (junk : Int) (v : List Char), v.length ≤ n → escapes_well_formed v = true →
      url_decode junk v = url_decode_spec v
      ∧ (nul ∉ v → nul ∉ url_decode_spec v) := by
  have hsp : nul ≠ ' ' := by decide
  induction n with
  | zero =>
    intro junk v hlen _
    have : v = [] := List.length_eq_zero.mp (Nat.le_zero.mp hlen)
    subst this
    exact ⟨rfl, fun _ h => by simp [url_decode_spec] at h⟩
  | succ n ih =>
    intro junk v hlen hwf
    rcases v with _ | ⟨c, _ | ⟨c1, _ | ⟨c2, rest⟩⟩⟩
    · exact ⟨rfl, fun _ h => by simp [url_decode_spec] at h⟩
    · refine ⟨rfl, fun hn h => ?_⟩
      simp only [url_decode_spec, List.mem_singleton] at h
      split_ifs at h
      · exact hsp h
      · exact hn (by simp [h])
    · have h1 := ih junk [c1]
        (by simp only [List.length_cons, List.length_nil] at hlen ⊢; omega) rfl
      refine ⟨by simp only [url_decode, url_decode_spec, h1.1], fun hn h => ?_⟩
      simp only [url_decode_spec, List.mem_cons, List.mem_singleton, List.not_mem_nil,
        or_false] at h
      rcases h with h | h
      · split_ifs at h
        · exact hsp h
        · exact hn (by simp [h])
      · split_ifs at h
        · exact hsp h
        · exact hn (by simp [h])
    · simp only [List.length_cons] at hlen
      by_cases hplus : c = '+'
      · have hpc : c ≠ '%' := by rw [hplus]; decide
        have hwf2 : escapes_well_formed (c1 :: c2 :: rest) = true := by
          simpa [escapes_well_formed, hpc] using hwf
        have h1 := ih junk (c1 :: c2 :: rest) (by simp only [List.length_cons]; omega) hwf2
        refine ⟨by simp only [url_decode, url_decode_spec, hplus, if_true, h1.1],
          fun hn h => ?_⟩
        simp only [url_decode_spec, hplus, if_true, List.mem_cons] at h
        rcases h with h | h
        · exact hsp h
        · exact h1.2 (fun hh => hn (List.mem_cons_of_mem _ hh)) h
      · by_cases hpc : c = '%'
        · subst hpc
          have hpc : ('%' : Char) = '%' := rfl
          simp only [escapes_well_formed, if_true] at hwf
          rcases hx : hex_digit c1 with _ | x
          · simp [hx] at hwf
          rcases hy : hex_digit c2 with _ | y
          · simp [hx, hy] at hwf
          simp only [hx, hy, Bool.and_eq_true, decide_eq_true_eq] at hwf
          have h1 := ih ((16 * x + y : Nat) : Int) rest (by omega) hwf.2
          have hsc := sscanf_two_digits c1 c2 rest x y hx hy
          have hxl := hex_digit_lt c1 x hx
          have hyl := hex_digit_lt c2 y hy
          have hbyte : char_of_int ((16 * x + y : Nat) : Int) = chr (16 * x + y) := by
            unfold char_of_int
            congr 1
            omega
          refine ⟨?_, fun hn h => ?_⟩
          · simp only [url_decode, url_decode_spec, hplus, if_false, hpc, if_true, hsc,
              Option.getD_some, hbyte, hx, hy, h1.1]
          · simp only [url_decode_spec, hplus, if_false, hpc, if_true, hx, hy,
              List.mem_cons] at h
            rcases h with h | h
            · exact chr_ne_nul (16 * x + y) hwf.1 (by omega) h.symm
            · exact h1.2 (fun hh => hn (List.mem_cons_of_mem _ (List.mem_cons_of_mem _
                (List.mem_cons_of_mem _ hh)))) h
        · have hwf2 : escapes_well_formed (c1 :: c2 :: rest) = true := by
            simpa [escapes_well_formed, hpc] using hwf
          have h1 := ih junk (c1 :: c2 :: rest) (by simp only [List.length_cons]; omega) hwf2
          refine ⟨by simp only [url_decode, url_decode_spec, hplus, if_false, hpc, h1.1],
            fun hn h => ?_⟩
          simp only [url_decode_spec, hplus, if_false, hpc, List.mem_cons] at h
          rcases h with h | h
          · exact hn (by simp [h])
          · exact h1.2 (fun hh => hn (List.mem_cons_of_mem _ hh)) h

theorem intercalate_cons_cons (a b : List Char) (ls : List (List Char)) :
    ['&'].intercalate (a :: b :: ls) = a ++ '&' :: ['&'].intercalate (b :: ls) := by
  simp [List.intercalate, List.intersperse]

theorem intercalate_single (a : List Char) : ['&'].intercalate [a] = a := by
  simp [List.intercalate, List.intersperse]

theorem count_amp_intercalate (ls : List (List Char)) (hls : ls ≠ [])
    (hclean : ∀ l ∈ ls, '&' ∉ l) :
    (['&'].intercalate ls).count '&' + 1 = ls.length := by
  induction ls with
  | nil => exact absurd rfl hls
  | cons a ls ih =>
    have ha : a.count '&' = 0 := List.count_eq_zero.mpr (hclean a (List.mem_cons_self _ _))
    cases ls with
    | nil => simp [intercalate_single, ha]
    | cons b ls =>
      rw [intercalate_cons_cons, List.count_append, List.count_cons_self, ha]
      have := ih (by simp) (fun l hl => hclean l (List.mem_cons_of_mem _ hl))
      simp only [List.length_cons] at this ⊢
      omega

theorem intercalate_ne_nil (ls : List (List Char)) (hls : ls ≠ [])
    (hne : ∀ l ∈ ls, l ≠ []) : ['&'].intercalate ls ≠ [] := by
  cases ls with
  | nil => exact absurd rfl hls
  | cons a ls =>
    have ha := hne a (List.mem_cons_self _ _)
    cases ls with
    | nil => rwa [intercalate_single]
    | cons b ls =>
      rw [intercalate_cons_cons]
      intro h
      exact ha (List.append_eq_nil.mp h).1

theorem strtok_tokens_intercalate (ls : List (List Char)) (hls : ls ≠ [])
    (hclean : ∀ l ∈ ls, '&' ∉ l) (hne : ∀ l ∈ ls, l ≠ []) :
    strtok_tokens (['&'].intercalate ls) = ls := by
  unfold strtok_tokens
  rw [List.splitOn_intercalate ls '&' hclean hls, List.filter_eq_self]
  intro l hl
  simpa using hne l hl

theorem takeWhile_until (p : Char → Bool) (l r : List Char) (b : Char)
    (hl : ∀ x ∈ l, p x = true) (hb : p b = false) :
    (l ++ b :: r).takeWhile p = l ∧ (l ++ b :: r).dropWhile p = b :: r := by
  induction l with
  | nil => simp [List.takeWhile_cons, List.dropWhile_cons, hb]
  | cons a l ih =>
    have ha := hl a (List.mem_cons_self _ _)
    have h2 := ih (fun x hx => hl x (List.mem_cons_of_mem _ hx))
    rw [List.cons_append, List.takeWhile_cons, List.dropWhile_cons, ha]
    simp only [if_true]
    exact ⟨by rw [h2.1], h2.2⟩

theorem takeWhile_name (name v : List Char) (h : '=' ∉ name) :
    (name ++ '=' :: v).takeWhile (fun c => c ≠ '=') = name
    ∧ (name ++ '=' :: v).dropWhile (fun c => c ≠ '=') = '=' :: v := by
  apply takeWhile_until
  · intro x hx
    have : x ≠ '=' := fun hh => h (hh ▸ hx)
    simpa using this
  · simp

theorem parse_token_decoded (junk : Int) (t : String × Option String)
    (hname : '=' ∉ t.1.data)
    (hvalue : ∀ v, t.2 = some v → nul ∉ v.data ∧ escapes_well_formed v.data = true) :
    parse_token junk (token_text t) = decoded_pair t := by
  obtain ⟨name, value⟩ := t
  cases value with
  | none =>
    simp only [token_text, decoded_pair, parse_token]
    rw [if_neg hname]
  | some v =>
    obtain ⟨hnul, hwf⟩ := hvalue v rfl
    have hdec := url_decode_well_formed v.data.length junk v.data (le_refl _) hwf
    have hsplit := takeWhile_name name.data v.data hname
    have hmem : '=' ∈ name.data ++ '=' :: v.data := by simp
    simp only [token_text, decoded_pair, parse_token]
    rw [if_pos hmem, hsplit.1, hsplit.2, List.drop_one, List.tail_cons, hdec.1]
    have hc : c_string (url_decode_spec v.data) = url_decode_spec v.data := by
      unfold c_string
      rw [List.takeWhile_eq_self_iff]
      intro c hc
      have : c ≠ nul := fun hh => hdec.2 hnul (hh ▸ hc)
      simpa using this
    rw [hc]

theorem parse_tokens_decoded (tokens : List (String × Option String))
    (hname : ∀ t ∈ tokens, '=' ∉ t.1.data)
    (hvalue : ∀ t ∈ tokens, ∀ v ∈ t.2, nul ∉ v.data ∧ escapes_well_formed v.data = true) :
    ∀ junk : Int, parse_tokens junk (tokens.map token_text) = tokens.map decoded_pair := by
  induction tokens with
  | nil => intro junk; rfl
  | cons t tokens ih =>
    intro junk
    rw [List.map_cons, List.map_cons, parse_tokens,
      parse_token_decoded junk t (hname t (List.mem_cons_self _ _))
        (fun v hv => hvalue t (List.mem_cons_self _ _) v hv),
      ih (fun u hu => hname u (List.mem_cons_of_mem _ hu))
        (fun u hu => hvalue u (List.mem_cons_of_mem _ hu))]

/-- The parse of a query string made of well-formed tokens. -/
theorem parse_query_of (junk : Int) (tokens : List (String × Option String))
    (hk : tokens ≠ [])
    (hname : ∀ t ∈ tokens, '&' ∉ t.1.data ∧ '=' ∉ t.1.data)
    (hbare : ∀ t ∈ tokens, t.2 = none → t.1 ≠ "")
    (hvalue : ∀ t ∈ tokens, ∀ v ∈ t.2,
      '&' ∉ v.data ∧ nul ∉ v.data ∧ escapes_well_formed v.data = true) :
    parse_query_string junk (some (query_of tokens))
      = tokens.map (fun t => some (decoded_pair t)) := by
  have hls : tokens.map token_text ≠ [] := by simpa using hk
  have hclean : ∀ l ∈ tokens.map token_text, '&' ∉ l := by
    intro l hl
    obtain ⟨t, ht, rfl⟩ := List.mem_map.mp hl
    obtain ⟨name, value⟩ := t
    cases value with
    | none => exact (hname _ ht).1
    | some v =>
      have h1 := (hname _ ht).1
      have h2 := (hvalue _ ht v rfl).1
      simp only [token_text, List.mem_append, List.mem_cons, not_or]
      exact ⟨h1, by decide, h2⟩
  have hne : ∀ l ∈ tokens.map token_text, l ≠ [] := by
    intro l hl
    obtain ⟨t, ht, rfl⟩ := List.mem_map.mp hl
    obtain ⟨name, value⟩ := t
    cases value with
    | none =>
      have h := hbare _ ht rfl
      simp only [token_text]
      intro hnil
      exact h (String.ext hnil)
    | some v => simp [token_text]
  have hcount := count_amp_intercalate _ hls hclean
  have htok := strtok_tokens_intercalate _ hls hclean hne
  have hq : query_of tokens ≠ "" := by
    intro h
    exact intercalate_ne_nil _ hls hne (congrArg String.data h)
  unfold parse_query_string
  simp only [hq, if_false]
  have hdata : (query_of tokens).data = ['&'].intercalate (tokens.map token_text) := rfl
  rw [hdata, htok]
  have hc : 1 + (['&'].intercalate (tokens.map token_text)).count '&' = tokens.length := by
    rw [List.length_map] at hcount
    omega
  rw [hc, ← List.length_map tokens token_text, List.take_length, Nat.sub_self,
    List.replicate_zero, List.append_nil,
    parse_tokens_decoded tokens (fun t ht => (hname t ht).2)
      (fun t ht v hv => ⟨(hvalue t ht v hv).2.1, (hvalue t ht v hv).2.2⟩) junk,
    List.map_map]
  rfl

/-- C13 (as the claim states it, refuted): by the decoding rules of the claim
the value `%1z`, in which `%` is not followed by two hexadecimal digits, is
copied unchanged; `parse_query_string` on `k=%1z` instead scans the single digit
`1`, stores the byte 1 and skips the `z`. -/
theorem parse_query_string_malformed_escape :
    url_decode_spec "%1z".data = "%1z".data
    ∧ decoded_pair ("k", some "%1z") = ⟨"k", "%1z"⟩
    ∧ parse_query_string 0 (some "k=%1z") = [some ⟨"k", String.mk [chr 1]⟩]
    ∧ parse_query_string 0 (some "k=%1z") ≠ [some (decoded_pair ("k", some "%1z"))] := by
  refine ⟨by decide, by decide, by decide, by decide⟩

/-- C13 (amended): for every query string `n1=v1&...&nk=vk` (k >= 1, tokens
non-empty, names free of `&` and `=`, values free of `&`) in whose values every
`%` that has two characters after it is followed by two hexadecimal digits other
than `00`, `parse_query_string` yields exactly k pairs in order, with names
n1..nk and values the URL-decoding of v1..vk (`+` to space, `%XY` to the byte
16*X+Y, every other character copied; values are C strings, so hold no NUL);
a value is split from its name at the first `=` and a token without `=` gets
the empty value.  In particular
`a=1&b=two+words&c=%3D` gives a = `1`, b = `two words`, c = `=`, and `k=a=b`
gives k = `a=b`. -/
theorem parse_query_string_spec (junk : Int) :
    (∀ tokens : List (String × Option String), tokens ≠ [] →
      (∀ t ∈ tokens, '&' ∉ t.1.data ∧ '=' ∉ t.1.data) →
      (∀ t ∈ tokens, t.2 = none → t.1 ≠ "") →
      (∀ t ∈ tokens, ∀ v ∈ t.2,
        '&' ∉ v.data ∧ nul ∉ v.data ∧ escapes_well_formed v.data = true) →
      parse_query_string junk (some (query_of tokens))
        = tokens.map (fun t => some (decoded_pair t)))
    ∧ parse_query_string junk (some "a=1&b=two+words&c=%3D")
        = [some ⟨"a", "1"⟩, some ⟨"b", "two words"⟩, some ⟨"c", "="⟩]
    ∧ parse_query_string junk (some "k=a=b") = [some ⟨"k", "a=b"⟩]
    ∧ parse_query_string junk (some "flag&x=1") = [some ⟨"flag", ""⟩, some ⟨"x", "1"⟩] := by
  refine ⟨parse_query_of junk, ?_, ?_, ?_⟩
  · have h := parse_query_of junk
      [("a", some "1"), ("b", some "two+words"), ("c", some "%3D")]
      (by decide) (by decide) (by decide) (by decide)
    have hq : query_of [("a", some "1"), ("b", some "two+words"), ("c", some "%3D")]
        = "a=1&b=two+words&c=%3D" := by decide
    rw [hq] at h
    exact h.trans (by decide)
  · have h := parse_query_of junk [("k", some "a=b")]
      (by decide) (by decide) (by decide) (by decide)
    have hq : query_of [("k", some "a=b")] = "k=a=b" := by decide
    rw [hq] at h
    exact h.trans (by decide)
  · have h := parse_query_of junk [("flag", none), ("x", some "1")]
      (by decide) (by decide) (by decide) (by decide)
    have hq : query_of [("flag", none), ("x", some "1")] = "flag&x=1" := by decide
    rw [hq] at h
    exact h.trans (by decide)

/-- A run of C13 (amended) on the query string `name=Ada+L&born=%31815&note`. -/
theorem parse_query_string_spec_witness :
    parse_query_string 77
        (some (query_of [("name", some "Ada+L"), ("born", some "%31815"), ("note", none)]))
      = [some ⟨"name", "Ada L"⟩, some ⟨"born", "1815"⟩, some ⟨"note", ""⟩] :=
  ((parse_query_string_spec 77).1
    [("name", some "Ada+L"), ("born", some "%31815"), ("note", none)]
    (by decide) (by decide) (by decide) (by decide)).trans (by decide)

/-! ### `get_cgi_param` -/

theorem get_cgi_param_find (entries : List CGIParam) (name : String) :
    get_cgi_param (entries.map some) name
      = some ((entries.find? (fun e => e.name = name)).map (fun e => e.value)) := by
  induction entries with
  | nil => rfl
  | cons e entries ih =>
    by_cases h : e.name = name
    · simp [get_cgi_param, h]
    · simp [get_cgi_param, h, ih]

/-- C14: on a fully initialised parameter list `get_cgi_param` returns the value
of the first entry (lowest index) whose name equals the requested name exactly,
and returns `NULL` iff no entry has that name; for `a=1&a=2` the lookup of `a`
gives `1`. -/
theorem get_cgi_param_spec (entries : List CGIParam) (name : String) :
    (∀ v, get_cgi_param (entries.map some) name = some (some v) ↔
      ∃ pre e post, entries = pre ++ e :: post ∧ (∀ a ∈ pre, a.name ≠ name)
        ∧ e.name = name ∧ e.value = v)
    ∧ (get_cgi_param (entries.map some) name = some none ↔
        ∀ e ∈ entries, e.name ≠ name)
    ∧ (∀ junk, get_cgi_param (parse_query_string junk (some "a=1&a=2")) "a"
        = some (some "1")) := by
  rw [get_cgi_param_find]
  refine ⟨?_, ?_, ?_⟩
  · intro v
    simp only [Option.some.injEq, Option.map_eq_some', List.find?_eq_some,
      decide_eq_true_eq]
    constructor
    · rintro ⟨e, ⟨hname, pre, post, hsplit, hpre⟩, hv⟩
      exact ⟨pre, e, post, hsplit, fun a ha => by simpa using hpre a ha, hname, hv⟩
    · rintro ⟨pre, e, post, hsplit, hpre, hname, hv⟩
      exact ⟨e, ⟨hname, pre, post, hsplit, fun a ha => by simpa using hpre a ha⟩, hv⟩
  · simp only [Option.some.injEq, Option.map_eq_none', List.find?_eq_none,
      decide_eq_true_eq]
  · intro junk
    have h := parse_query_of junk [("a", some "1"), ("a", some "2")]
      (by decide) (by decide) (by decide) (by decide)
    have hq : query_of [("a", some "1"), ("a", some "2")] = "a=1&a=2" := by decide
    rw [hq] at h
    rw [h]
    decide

/-- A run of C14: in the list for `x=1&a=first&a=second` the lookup of `a` gives
`first`, and the lookup of `b` gives `NULL`. -/
theorem get_cgi_param_spec_witness :
    get_cgi_param ([⟨"x", "1"⟩, ⟨"a", "first"⟩, ⟨"a", "second"⟩].map some) "a"
      = some (some "first")
    ∧ get_cgi_param ([⟨"x", "1"⟩, ⟨"a", "first"⟩, ⟨"a", "second"⟩].map some) "b"
      = some none :=
  ⟨((get_cgi_param_spec [⟨"x", "1"⟩, ⟨"a", "first"⟩, ⟨"a", "second"⟩] "a").1 "first").mpr
      ⟨[⟨"x", "1"⟩], ⟨"a", "first"⟩, [⟨"a", "second"⟩], rfl, by decide, rfl, rfl⟩,
    (get_cgi_param_spec [⟨"x", "1"⟩, ⟨"a", "first"⟩, ⟨"a", "second"⟩] "b").2.1.mpr
      (by decide)⟩

/-! ### Failed and partial writes -/

theorem singleton_eq_iff (c d : Char) : String.singleton c = String.singleton d ↔ c = d := by
  constructor
  · intro h
    have := congrArg String.data h
    simpa [singleton_data] using this
  · intro h
    rw [h]

theorem gender_check_none (c : Char) (hM : c ≠ 'M') (hF : c ≠ 'F') :
    Gender.check (String.singleton c) = none := by
  have h1 : String.singleton c ≠ "M" := fun h =>
    hM ((singleton_eq_iff c 'M').mp h)
  have h2 : String.singleton c ≠ "F" := fun h =>
    hF ((singleton_eq_iff c 'F').mp h)
  simp [Gender.check, h1, h2]

theorem add_person_failed (db : Store) (now : Int) (P : Person)
    (h : (add_person db now P).1 ≠ 0) :
    (add_person db now P).2.2 = db ∧ (add_person db now P).2.1.id = P.id := by
  unfold add_person at h ⊢
  simp only at h ⊢
  split
  · rename_i h1 h2 h3
    simp [h1, h2, h3] at h
  · exact ⟨rfl, rfl⟩

/-- C17: whenever `add_person` fails the store is unchanged and the id of the
`Person` is not assigned; `process_add_person` then inserts no relationship,
prints only `Error adding person.` and completes.  A gender other than M and F
makes `add_person` fail. -/
theorem add_person_failure (db : Store) (now1 now2 : Int) :
    (∀ P : Person, (add_person db now1 P).1 ≠ 0 →
      (add_person db now1 P).2.2 = db ∧ (add_person db now1 P).2.1.id = P.id)
    ∧ (∀ P : Person, P.gender ≠ 'M' → P.gender ≠ 'F' → (add_person db now1 P).1 ≠ 0)
    ∧ (∀ (params : CGIParams) (f : AddPersonParams),
        extract_add_person_params params = some f →
        (add_person db now1 (new_person_of f)).1 ≠ 0 →
        process_add_person db params now1 now2
          = some (db, "<p>Error adding person.</p>\n")) := by
  refine ⟨fun P h => add_person_failed db now1 P h, ?_, ?_⟩
  · intro P hM hF
    simp [add_person, gender_check_none P.gender hM hF]
  · intro params f hf hfail
    rw [process_add_person_of_extract db params f now1 now2 hf]
    unfold process_add_person_body
    simp only [hfail, if_false]
    rw [(add_person_failed db now1 (new_person_of f) hfail).1]

/-- A run of C17: a request with gender `X` on the family store adds nothing. -/
theorem add_person_failure_witness :
    process_add_person family_store
        (params_of [("first_name", "Max"), ("last_name", "Doe"), ("gender", "X"),
          ("parent_id", "2"), ("relationship_type", "parent-child")]) 40 50
      = some (family_store, "<p>Error adding person.</p>\n") :=
  (add_person_failure family_store 40 50).2.2
    (params_of [("first_name", "Max"), ("last_name", "Doe"), ("gender", "X"),
      ("parent_id", "2"), ("relationship_type", "parent-child")])
    ⟨some "Max", some "Doe", some "X", none, none, none, none, some "2",
      some "parent-child", none⟩ (by decide) (by decide)

theorem new_relationship_other (t : String) (m : Option String) (x n : Int)
    (h1 : t ≠ "parent-child") (h2 : t ≠ "spouse") (h3 : t ≠ "child") :
    new_relationship_of t m x n = Relationship.zero := by
  simp [new_relationship_of, h1, h2, h3]

theorem add_relationship_failed (db : Store) (now : Int) (rel : Relationship)
    (h : (add_relationship db now rel).1 ≠ 0) :
    (add_relationship db now rel).2.2 = db := by
  unfold add_relationship at h ⊢
  simp only at h ⊢
  split
  · rename_i h1
    simp [h1] at h
  · rfl

/-- C18: there is no rollback.  When `add_person` succeeds and the following
`add_relationship` fails, the new person stays in the store, no relationship row
is added, and the response still reports `Person added successfully.`; with
`parent_id > 0` and a `relationship_type` that is none of `parent-child`,
`spouse`, `child` the relationship has no type and the insert does fail. -/
theorem add_relationship_failure (db : Store) (params : CGIParams)
    (f : AddPersonParams) (now1 now2 : Int) (t : String)
    (hf : extract_add_person_params params = some f)
    (hadd : (add_person db now1 (new_person_of f)).1 = 0)
    (hpos : 0 < parent_id_of f)
    (ht : f.relationship_type = some t) :
    ((add_relationship (add_person db now1 (new_person_of f)).2.2 now2
        (new_relationship_of t f.marriage_date (parent_id_of f)
          (add_person db now1 (new_person_of f)).2.1.id)).1 ≠ 0 →
      process_add_person db params now1 now2
        = some ((add_person db now1 (new_person_of f)).2.2,
            "<p>Person added successfully.</p>\n"
            ++ "<a href=\"?action=view_profile&id="
            ++ toString (add_person db now1 (new_person_of f)).2.1.id
            ++ "\" class=\"btn-primary\">View Profile</a>\n")
      ∧ (add_person db now1 (new_person_of f)).2.2.relationships = db.relationships
      ∧ get_person_by_id (add_person db now1 (new_person_of f)).2.2
          (add_person db now1 (new_person_of f)).2.1.id
        = some (add_person db now1 (new_person_of f)).2.1)
    ∧ (t ≠ "parent-child" → t ≠ "spouse" → t ≠ "child" →
      (add_relationship (add_person db now1 (new_person_of f)).2.2 now2
        (new_relationship_of t f.marriage_date (parent_id_of f)
          (add_person db now1 (new_person_of f)).2.1.id)).1 ≠ 0) := by
  constructor
  · intro hfail
    refine ⟨?_, (add_person_relationships db now1 (new_person_of f)).1, ?_⟩
    · rw [process_add_person_of_extract db params f now1 now2 hf]
      unfold process_add_person_body
      simp only [hadd, if_true, ht, hpos, gt_iff_lt]
      rw [add_relationship_failed _ now2 _ hfail]
    · obtain ⟨row, hdb, hid, hrow, -⟩ := add_person_stored db now1 (new_person_of f) hadd
      have hrid : (add_person db now1 (new_person_of f)).2.1.id = row.id := by
        rw [← hrow]; rfl
      rw [hrid, hdb, ← hrow]
      unfold get_person_by_id
      rw [select_person_fresh db row hid]
      rfl
  · intro h1 h2 h3
    rw [new_relationship_other t _ _ _ h1 h2 h3]
    simp [add_relationship, Relationship.zero, RelType.check]

/-- A run of C18: a request with `relationship_type=sibling` on the family store
adds person 5 and no relationship row. -/
theorem add_relationship_failure_witness :
    ∃ db2 out,
      process_add_person family_store
        (params_of [("first_name", "Max"), ("last_name", "Doe"), ("gender", "M"),
          ("parent_id", "2"), ("relationship_type", "sibling")]) 40 50 = some (db2, out)
      ∧ db2.relationships = family_store.relationships
      ∧ get_person_by_id db2 5
        = some ⟨5, some "Max", some "Doe", 'M', none, none, none, none, 40, 40⟩
      ∧ out = "<p>Person added successfully.</p>\n<a href=\"?action=view_profile&id=5\" class=\"btn-primary\">View Profile</a>\n" := by
  have h := add_relationship_failure family_store
    (params_of [("first_name", "Max"), ("last_name", "Doe"), ("gender", "M"),
      ("parent_id", "2"), ("relationship_type", "sibling")])
    ⟨some "Max", some "Doe", some "M", none, none, none, none, some "2",
      some "sibling", none⟩ 40 50 "sibling" (by decide) (by decide) (by decide)
    (by decide)
  obtain ⟨h1, h2, h3⟩ := h.1 (h.2 (by decide) (by decide) (by decide))
  exact ⟨_, _, h1, h2, h3, by decide⟩

/-! ### `update_person` -/

/-- C19 (as the claim states it, refuted): the family store has no person 99;
`update_person` for a person with id 99 returns 0, not a failure, and leaves the
store as it was. -/
theorem update_person_missing_row_succeeds :
    get_person_by_id family_store 99 = none
    ∧ (update_person family_store 500
        ⟨99, some "Ann", some "Lee", 'F', none, none, none, none, 0, 0⟩).1 = 0
    ∧ (update_person family_store 500
        ⟨99, some "Ann", some "Lee", 'F', none, none, none, none, 0, 0⟩).2.2
      = family_store := by
  refine ⟨by decide, by decide, by decide⟩

/-- C19 (amended): when no `people` row has the given person's id,
`update_person` returns 0 (success), changes no row, and only refreshes
`updated_at` in the record it was given. -/
theorem update_person_missing_row (db : Store) (now : Int) (p : Person)
    (hmissing : ∀ row ∈ db.people, row.id ≠ p.id) :
    update_person db now p = (0, { p with updated_at := now }, db) := by
  have hall : db.people.all (fun r => r.id ≠ p.id) = true := by
    rw [List.all_eq_true]
    intro r hr
    simpa using hmissing r hr
  unfold update_person
  simp only [hall, if_true]

/-- A run of C19 (amended) on the family store, whose four rows have the ids 1
to 4: the update of a person 99 returns 0 and leaves the four rows as they
were. -/
theorem update_person_missing_row_witness :
    family_store.people.map (fun row => row.id) = [1, 2, 3, 4]
    ∧ update_person family_store 500
        ⟨99, some "Ann", some "Lee", 'F', none, none, none, none, 0, 0⟩
      = (0, ⟨99, some "Ann", some "Lee", 'F', none, none, none, none, 0, 500⟩,
          family_store) :=
  ⟨by decide, update_person_missing_row family_store 500
    ⟨99, some "Ann", some "Lee", 'F', none, none, none, none, 0, 0⟩ (by decide)⟩

theorem update_person_ok (db : Store) (now : Int) (p : Person) (row : PeopleRow)
    (hrow : row ∈ db.people) (hid : row.id = p.id)
    (hok : (update_person db now p).1 = 0) :
    ∃ fn ln g, p.first_name = some fn ∧ p.last_name = some ln ∧ Gender.toChar g = p.gender
      ∧ update_person db now p
        = (0, { p with updated_at := now },
            { db with
              people := db.people.map (fun r =>
                if r.id = p.id then
                  ⟨r.id, fn, ln, g, p.birth_date, p.death_date, p.bio, p.photo_url,
                    r.created_at, now⟩
                else r) }) := by
  have hall : db.people.all (fun r => r.id ≠ p.id) = false := by
    rw [List.all_eq_false]
    exact ⟨row, hrow, by simpa using hid⟩
  unfold update_person at hok ⊢
  simp only [hall, Bool.false_eq_true, if_false] at hok ⊢
  rcases hfn : p.first_name with _ | fn
  · simp [hfn] at hok
  rcases hln : p.last_name with _ | ln
  · simp [hfn, hln] at hok
  rcases hg : Gender.check (String.singleton p.gender) with _ | g
  · simp [hfn, hln, hg] at hok
  exact ⟨fn, ln, g, rfl, rfl, gender_check_toChar p.gender g hg, rfl⟩

/-- C20: when the id of `p` names an existing row and `update_person(p)`
succeeds, every row with that id gets the names, gender, dates, bio and photo
URL of `p` (absent optional fields stored as null) and the new `updated_at`,
and keeps its `id` and `created_at`; every other `people` row, every
relationship row and both counters are unchanged. -/
theorem update_person_frame (db : Store) (now : Int) (p : Person) (row : PeopleRow)
    (hrow : row ∈ db.people) (hid : row.id = p.id)
    (hok : (update_person db now p).1 = 0) :
    (update_person db now p).2.2.relationships = db.relationships
    ∧ (update_person db now p).2.2.people_seq = db.people_seq
    ∧ (update_person db now p).2.2.relationships_seq = db.relationships_seq
    ∧ (update_person db now p).2.1 = { p with updated_at := now }
    ∧ (update_person db now p).2.2.people.map PeopleRow.toPerson
        = db.people.map (fun r =>
            if r.id = p.id then
              { p with id := r.id, created_at := r.created_at, updated_at := now }
            else r.toPerson)
    ∧ (∀ r ∈ db.people, r.id ≠ p.id → r ∈ (update_person db now p).2.2.people)
    ∧ (∀ r ∈ (update_person db now p).2.2.people, r.id ≠ p.id → r ∈ db.people) := by
  obtain ⟨fn, ln, g, hfn, hln, hg, heq⟩ := update_person_ok db now p row hrow hid hok
  rw [heq]
  refine ⟨rfl, rfl, rfl, rfl, ?_, ?_, ?_⟩
  · simp only [List.map_map]
    apply List.map_congr_left
    intro r _
    by_cases h : r.id = p.id
    · simp [h, PeopleRow.toPerson, hfn, hln, hg]
    · simp [h]
  · intro r hr hne
    simp only [List.mem_map]
    exact ⟨r, hr, by simp [hne]⟩
  · intro r hr hne
    simp only [List.mem_map] at hr
    obtain ⟨r0, hr0, h⟩ := hr
    by_cases h0 : r0.id = p.id
    · rw [if_pos h0] at h
      rw [← h] at hne
      exact absurd h0 hne
    · rw [if_neg h0] at h
      rw [← h]
      exact hr0

/-- A run of C20: Kid (id 3) of the family store is renamed; the row keeps id and
`created_at`, the other three rows and all relationship rows are untouched. -/
theorem update_person_frame_witness :
    (update_person family_store 900
        ⟨3, some "Kit", some "Doe", 'M', some "2000-02-02", none, none, none, 0, 0⟩).2.2
      = { family_store with
          people :=
            [⟨1, "Jane", "Doe", Gender.F, some "1970-01-01", none, none, none, 100, 100⟩,
             ⟨2, "John", "Doe", Gender.M, none, none, none, none, 110, 110⟩,
             ⟨3, "Kit", "Doe", Gender.M, some "2000-02-02", none, none, none, 120, 900⟩,
             ⟨4, "Sis", "Doe", Gender.F, none, none, none, none, 130, 130⟩] }
    ∧ (update_person family_store 900
        ⟨3, some "Kit", some "Doe", 'M', some "2000-02-02", none, none, none, 0, 0⟩).2.2.relationships
      = family_store.relationships := by
  have h := update_person_frame family_store 900
    ⟨3, some "Kit", some "Doe", 'M', some "2000-02-02", none, none, none, 0, 0⟩
    ⟨3, "Kid", "Doe", Gender.M, none, none, none, none, 120, 120⟩
    (by decide) (by decide) (by decide)
  exact ⟨by decide, h.1⟩

/-! ### The entry point -/

theorem dispatch_search (db : Store) (host : Host) (params : CGIParams) :
    dispatch db host params "search"
      = (action_search db params).map (fun out => (db, out)) := by
  simp [dispatch]

theorem action_search_no_rows (db : Store) (params : CGIParams) (term : String)
    (hterm : get_cgi_param params "search_term" = some (some term)) (hne : term ≠ "")
    (hrows : select_search db (search_pattern term) = []) :
    action_search db params
      = some ("<h2>Search Results</h2>\n" ++ "<div class=\"search-results\">\n"
          ++ "</div>\n" ++ "<p>No results found for \"" ++ term ++ "\".</p>\n"
          ++ search_form) := by
  simp only [action_search, hterm, non_empty, hne, hrows, String.join, if_false,
    Option.map_some', List.map_nil, List.foldl_nil, List.isEmpty_nil, if_true]
  rfl

/-- C12 (the code departs from the claim): the search action prints the term of
a search without result through `%s`, unescaped.  For the term `<script>`, sent
as `%3Cscript%3E`, on the family store the page holds
`No results found for "<script>".`, not the escaped `&lt;script&gt;`; and for
every store and every non-empty term that matches no row the message holds the
term exactly as received. -/
theorem search_term_printed_raw :
    main family_store search_script
      = some (family_store,
          print_html_header "Family Tree"
          ++ ("<h2>Search Results</h2>\n" ++ "<div class=\"search-results\">\n"
            ++ "</div>\n" ++ "<p>No results found for \"" ++ "<script>" ++ "\".</p>\n"
            ++ search_form)
          ++ print_html_footer 2026)
    ∧ html_escape (some "<script>") = "&lt;script&gt;"
    ∧ (∀ (db : Store) (params : CGIParams) (term : String),
        get_cgi_param params "search_term" = some (some term) → term ≠ "" →
        select_search db (search_pattern term) = [] →
        action_search db params
          = some ("<h2>Search Results</h2>\n" ++ "<div class=\"search-results\">\n"
              ++ "</div>\n" ++ "<p>No results found for \"" ++ term ++ "\".</p>\n"
              ++ search_form)) := by
  refine ⟨?_, by decide, action_search_no_rows⟩
  have hparse : parse_query_string search_script.junk search_script.query_string
      = [some ⟨"action", "search"⟩, some ⟨"search_term", "<script>"⟩] := by decide
  have hsearch := action_search_no_rows family_store
    [some ⟨"action", "search"⟩, some ⟨"search_term", "<script>"⟩] "<script>"
    (by decide) (by decide) (by decide)
  unfold main
  simp only [hparse]
  have haction : get_cgi_param
      [some ⟨"action", "search"⟩, some ⟨"search_term", "<script>"⟩] "action"
      = some (some "search") := by decide
  simp only [haction, Option.getD_some, dispatch_search, hsearch, Option.map_some']
  rfl

/-- C15 (the code departs from the claim): `main` parses `QUERY_STRING` only and
never reads the request body.  For the request of the add-person form (the
action in the query string, `first_name=Ada&last_name=Byron&gender=F` in the
body) the inserted person has empty names and gender M, and the result of
`main` is the same for every body. -/
theorem post_body_ignored :
    (main Store.empty posted_add_person).map Prod.fst
      = some ⟨[⟨1, "", "", Gender.M, none, none, none, none, 100, 100⟩], [], 1, 0⟩
    ∧ (∀ (db : Store) (host : Host) (body : String),
        main db { host with body := body } = main db host) := by
  exact ⟨by decide, fun _ _ _ => rfl⟩

/-- C16 (the code departs from the claim): without a `relationship_type`
parameter `show_add_person_form` hands the null pointer to `strcmp`, so the
request of the `Add New Person` link does not complete; with the parameter
present the form is printed. -/
theorem add_person_form_null_type :
    (∀ parent_id : Int, show_add_person_form parent_id none = none)
    ∧ get_cgi_param (parse_query_string 0 add_new_person_link.query_string)
        "relationship_type" = some none
    ∧ main family_store add_new_person_link = none
    ∧ (show_add_person_form 2 (some "child")).isSome = true := by
  exact ⟨fun _ => rfl, by decide, by decide, by decide⟩

/-! ### Requests and the rows of the store -/

theorem rows_kept_refl (db : Store) : rows_kept db db :=
  ⟨fun r hr => ⟨r, hr, rfl⟩, List.prefix_refl _⟩

theorem add_person_rows_kept (db : Store) (now : Int) (P : Person) :
    rows_kept db (add_person db now P).2.2 := by
  by_cases h : (add_person db now P).1 = 0
  · obtain ⟨row, hdb, -, -, -⟩ := add_person_stored db now P h
    rw [hdb]
    exact ⟨fun r hr => ⟨r, List.mem_append_left _ hr, rfl⟩, List.prefix_refl _⟩
  · rw [(add_person_failed db now P h).1]
    exact rows_kept_refl db

theorem add_relationship_rows_kept (db : Store) (now : Int) (rel : Relationship) :
    rows_kept db (add_relationship db now rel).2.2 := by
  unfold add_relationship
  simp only
  split
  · exact ⟨fun r hr => ⟨r, hr, rfl⟩, List.prefix_append _ _⟩
  · exact rows_kept_refl db

theorem rows_kept_trans (a b c : Store) (h1 : rows_kept a b) (h2 : rows_kept b c) :
    rows_kept a c := by
  refine ⟨fun r hr => ?_, h1.2.trans h2.2⟩
  obtain ⟨r2, hr2, hid⟩ := h1.1 r hr
  obtain ⟨r3, hr3, hid3⟩ := h2.1 r2 hr2
  exact ⟨r3, hr3, hid3.trans hid⟩

theorem process_add_person_body_rows_kept (db : Store) (f : AddPersonParams)
    (now1 now2 : Int) : rows_kept db (process_add_person_body db f now1 now2).1 := by
  have h1 := add_person_rows_kept db now1 (new_person_of f)
  unfold process_add_person_body
  simp only
  by_cases hadd : (add_person db now1 (new_person_of f)).1 = 0
  · rw [if_pos hadd]
    cases f.relationship_type with
    | none => exact h1
    | some t =>
      simp only
      by_cases hpos : parent_id_of f > 0
      · rw [if_pos hpos]
        exact rows_kept_trans _ _ _ h1 (add_relationship_rows_kept _ _ _)
      · rw [if_neg hpos]
        exact h1
  · rw [if_neg hadd]
    exact h1

theorem update_person_rows_kept (db : Store) (now : Int) (p : Person) :
    rows_kept db (update_person db now p).2.2 := by
  unfold update_person
  simp only
  split_ifs
  · exact rows_kept_refl db
  · split
    · refine ⟨fun r hr => ?_, List.prefix_refl _⟩
      simp only [List.mem_map]
      by_cases hid : r.id = p.id
      · exact ⟨_, ⟨r, hr, rfl⟩, by simp [hid]⟩
      · exact ⟨_, ⟨r, hr, rfl⟩, by simp [hid]⟩
    · exact rows_kept_refl db

theorem edit_person_rows_kept (db : Store) (params : CGIParams) (now : Int)
    (db2 : Store) (out : String)
    (h : action_process_edit_person db params now = some (db2, out)) :
    rows_kept db db2 := by
  unfold action_process_edit_person at h
  split at h
  · cases h
  · simp only at h
    split_ifs at h
    · split at h
      · rcases hf : extract_edit_person_params params with _ | f
        · simp [hf] at h
        · simp only [hf, Option.map_some', Option.some.injEq] at h
          split_ifs at h <;>
          · cases h
            exact update_person_rows_kept _ _ _
      · cases h
        exact rows_kept_refl db
    · cases h
      exact rows_kept_refl db

theorem map_pair_inv {α : Type} (o : Option α) (db db2 : Store) (out : α)
    (h : o.map (fun x => (db, x)) = some (db2, out)) : db2 = db := by
  cases o with
  | none => cases h
  | some x =>
    simp only [Option.map_some', Option.some.injEq, Prod.mk.injEq] at h
    exact h.1.symm

theorem dispatch_rows (db : Store) (host : Host) (params : CGIParams) (action : String)
    (db2 : Store) (out : String)
    (h : dispatch db host params action = some (db2, out)) :
    rows_kept db db2
    ∧ (action ≠ "process_add_person" → action ≠ "process_edit_person" → db2 = db) := by
  have hread : ∀ o : Option String, o.map (fun x => (db, x)) = some (db2, out) →
      rows_kept db db2
      ∧ (action ≠ "process_add_person" → action ≠ "process_edit_person" → db2 = db) := by
    intro o ho
    have := map_pair_inv o db db2 out ho
    subst this
    exact ⟨rows_kept_refl _, fun _ _ => rfl⟩
  unfold dispatch at h
  by_cases h1 : action = "view_profile"
  · rw [if_pos h1] at h; exact hread _ h
  rw [if_neg h1] at h
  by_cases h2 : action = "view_tree"
  · rw [if_pos h2] at h; exact hread _ h
  rw [if_neg h2] at h
  by_cases h3 : action = "add_person"
  · rw [if_pos h3] at h; exact hread _ h
  rw [if_neg h3] at h
  by_cases h4 : action = "process_add_person"
  · rw [if_pos h4] at h
    refine ⟨?_, fun hne _ => absurd h4 hne⟩
    unfold process_add_person at h
    rcases hf : extract_add_person_params params with _ | f
    · simp [hf] at h
    · simp only [hf, Option.map_some', Option.some.injEq] at h
      have := process_add_person_body_rows_kept db f host.now1 host.now2
      rw [h] at this
      exact this
  rw [if_neg h4] at h
  by_cases h5 : action = "edit_person"
  · rw [if_pos h5] at h; exact hread _ h
  rw [if_neg h5] at h
  by_cases h6 : action = "process_edit_person"
  · rw [if_pos h6] at h
    exact ⟨edit_person_rows_kept db params host.now1 db2 out h, fun _ hne => absurd h6 hne⟩
  rw [if_neg h6] at h
  by_cases h7 : action = "add_family_member"
  · rw [if_pos h7] at h; exact hread _ h
  rw [if_neg h7] at h
  by_cases h8 : action = "login"
  · rw [if_pos h8] at h; exact hread (some show_login_form) h
  rw [if_neg h8] at h
  by_cases h9 : action = "delete_person"
  · rw [if_pos h9] at h; exact hread _ h
  rw [if_neg h9] at h
  by_cases h10 : action = "process_delete_person"
  · rw [if_pos h10] at h; exact hread _ h
  rw [if_neg h10] at h
  by_cases h11 : action = "search"
  · rw [if_pos h11] at h; exact hread _ h
  rw [if_neg h11] at h
  exact hread (some (show_home_page db)) h

theorem dispatch_unrecognised (db : Store) (host : Host) (params : CGIParams)
    (action : String) (h : action ∉ recognised_actions) :
    dispatch db host params action = some (db, show_home_page db) := by
  simp only [recognised_actions, List.mem_cons, List.mem_singleton, List.not_mem_nil,
    or_false, not_or] at h
  obtain ⟨h1, h2, h3, h4, h5, h6, h7, h8, h9, h10, h11⟩ := h
  unfold dispatch
  rw [if_neg h1, if_neg h2, if_neg h3, if_neg h4, if_neg h5, if_neg h6, if_neg h7,
    if_neg h8, if_neg h9, if_neg h10, if_neg h11]

/-- A lookup that returns `NULL` has passed every entry, so every entry was
written and `free_cgi_params` completes. -/
theorem free_after_null (params : CGIParams) (name : String)
    (h : get_cgi_param params name = some none) : free_cgi_params params = some () := by
  have hall : params.all (fun entry => entry.isSome) = true := by
    induction params with
    | nil => rfl
    | cons e params ih =>
      rcases e with _ | p
      · simp [get_cgi_param] at h
      · by_cases hn : p.name = name
        · simp [get_cgi_param, hn] at h
        · simp only [get_cgi_param, hn, if_false] at h
          simp only [List.all_cons, Option.isSome_some, Bool.true_and]
          exact ih h
  unfold free_cgi_params
  rw [if_pos hall]

theorem main_of_action (db : Store) (host : Host) (a : Option String)
    (h : get_cgi_param (parse_query_string host.junk host.query_string) "action" = some a)
    (hfree : free_cgi_params (parse_query_string host.junk host.query_string) = some ()) :
    main db host
      = (dispatch db host (parse_query_string host.junk host.query_string)
          (a.getD "home")).map (fun r =>
            (r.1, print_html_header "Family Tree" ++ r.2 ++ print_html_footer host.year)) := by
  unfold main
  simp only [h, hfree, Option.map_some']
  cases dispatch db host (parse_query_string host.junk host.query_string) (a.getD "home") <;>
    rfl

theorem home_unrecognised : "home" ∉ recognised_actions := by decide

theorem add_person_ids_positive (db : Store) (now : Int) (P : Person)
    (h : ids_positive db) : ids_positive (add_person db now P).2.2 := by
  by_cases hadd : (add_person db now P).1 = 0
  · obtain ⟨row, hdb, hid, -, -⟩ := add_person_stored db now P hadd
    have hpos : 0 < row.id := by
      rw [hid]
      have := le_foldl_max (db.people.map (fun r => r.id)) db.people_seq
      unfold new_rowid
      have h2 := h.2
      omega
    rw [hdb]
    refine ⟨fun r hr => ?_, le_of_lt hpos⟩
    rcases List.mem_append.mp hr with h1 | h1
    · exact h.1 r h1
    · simp only [List.mem_singleton] at h1
      rw [h1]
      exact hpos
  · rw [(add_person_failed db now P hadd).1]
    exact h

theorem add_relationship_people (db : Store) (now : Int) (rel : Relationship) :
    (add_relationship db now rel).2.2.people = db.people
    ∧ (add_relationship db now rel).2.2.people_seq = db.people_seq := by
  unfold add_relationship
  simp only
  split <;> exact ⟨rfl, rfl⟩

theorem process_add_person_body_ids_positive (db : Store) (f : AddPersonParams)
    (now1 now2 : Int) (h : ids_positive db) :
    ids_positive (process_add_person_body db f now1 now2).1 := by
  have h1 := add_person_ids_positive db now1 (new_person_of f) h
  unfold process_add_person_body
  simp only
  by_cases hadd : (add_person db now1 (new_person_of f)).1 = 0
  · rw [if_pos hadd]
    cases f.relationship_type with
    | none => exact h1
    | some t =>
      simp only
      by_cases hpos : parent_id_of f > 0
      · rw [if_pos hpos]
        unfold ids_positive
        rw [(add_relationship_people _ _ _).1, (add_relationship_people _ _ _).2]
        exact h1
      · rw [if_neg hpos]
        exact h1
  · rw [if_neg hadd]
    exact h1

theorem update_person_ids_positive (db : Store) (now : Int) (p : Person)
    (h : ids_positive db) : ids_positive (update_person db now p).2.2 := by
  unfold update_person
  simp only
  split_ifs
  · exact h
  · split
    · refine ⟨fun r hr => ?_, h.2⟩
      simp only [List.mem_map] at hr
      obtain ⟨r0, hr0, heq⟩ := hr
      have := h.1 r0 hr0
      by_cases hid : r0.id = p.id
      · rw [if_pos hid] at heq
        rw [← heq]
        exact this
      · rw [if_neg hid] at heq
        rw [← heq]
        exact this
    · exact h

theorem edit_person_ids_positive (db : Store) (params : CGIParams) (now : Int)
    (db2 : Store) (out : String) (hpos : ids_positive db)
    (h : action_process_edit_person db params now = some (db2, out)) :
    ids_positive db2 := by
  unfold action_process_edit_person at h
  split at h
  · cases h
  · simp only at h
    split_ifs at h
    · split at h
      · rcases hf : extract_edit_person_params params with _ | f
        · simp [hf] at h
        · simp only [hf, Option.map_some', Option.some.injEq] at h
          split_ifs at h <;>
          · cases h
            exact update_person_ids_positive _ _ _ hpos
      · cases h
        exact hpos
    · cases h
      exact hpos

/-- Every request keeps the rowids of `people` positive. -/
theorem dispatch_ids_positive (db : Store) (host : Host) (params : CGIParams)
    (action : String) (db2 : Store) (out : String) (hpos : ids_positive db)
    (h : dispatch db host params action = some (db2, out)) : ids_positive db2 := by
  by_cases h4 : action = "process_add_person"
  · subst h4
    have hd : dispatch db host params "process_add_person"
        = process_add_person db params host.now1 host.now2 := by
      simp [dispatch]
    rw [hd] at h
    unfold process_add_person at h
    rcases hf : extract_add_person_params params with _ | f
    · simp [hf] at h
    · simp only [hf, Option.map_some', Option.some.injEq] at h
      have := process_add_person_body_ids_positive db f host.now1 host.now2 hpos
      rw [h] at this
      exact this
  · by_cases h6 : action = "process_edit_person"
    · subst h6
      have hd : dispatch db host params "process_edit_person"
          = action_process_edit_person db params host.now1 := by
        simp [dispatch]
      rw [hd] at h
      exact edit_person_ids_positive db params host.now1 db2 out hpos h
    · rw [(dispatch_rows db host params action db2 out h).2 h4 h6]
      exact hpos

theorem empty_ids_positive : ids_positive Store.empty :=
  ⟨fun _ h => absurd h (List.not_mem_nil _), le_refl _⟩

/-- C21: handling one request never removes a `people` row and never removes or
changes a relationship row.  Whatever the action value and the parameter list,
when the dispatch of `main` completes with store `db2`, every person id of the
store before is an id of `db2` and the relationship rows before are the first
relationship rows of `db2`, unchanged; `delete_person` and
`process_delete_person` leave the whole store as it was, and so does every
action other than `process_add_person` and `process_edit_person`.  The same
holds for the whole run of `main`. -/
theorem request_keeps_rows (db : Store) (host : Host) (params : CGIParams)
    (action : String) (db2 : Store) (out : String)
    (h : dispatch db host params action = some (db2, out)) :
    (∀ r ∈ db.people, ∃ r2 ∈ db2.people, r2.id = r.id)
    ∧ (∀ r ∈ db.relationships, r ∈ db2.relationships)
    ∧ db.relationships <+: db2.relationships
    ∧ (action = "delete_person" ∨ action = "process_delete_person" → db2 = db)
    ∧ (action ≠ "process_add_person" → action ≠ "process_edit_person" → db2 = db)
    ∧ (∀ (db3 : Store) (page : String), main db host = some (db3, page) →
        rows_kept db db3) := by
  obtain ⟨hkept, hsame⟩ := dispatch_rows db host params action db2 out h
  refine ⟨hkept.1, fun r hr => hkept.2.subset hr, hkept.2, ?_, hsame, ?_⟩
  · intro hdel
    apply hsame
    · rcases hdel with hd | hd <;> rw [hd] <;> decide
    · rcases hdel with hd | hd <;> rw [hd] <;> decide
  · intro db3 page hmain
    unfold main at hmain
    simp only at hmain
    rcases ha : get_cgi_param (parse_query_string host.junk host.query_string) "action"
      with _ | a
    · simp [ha] at hmain
    · simp only [ha] at hmain
      rcases hd : dispatch db host (parse_query_string host.junk host.query_string)
        (a.getD "home") with _ | r
      · simp [hd] at hmain
      · rcases hfree : free_cgi_params (parse_query_string host.junk host.query_string)
          with _ | u
        · simp [hd, hfree] at hmain
        · simp only [hd, hfree, Option.some_bind, Option.map_some', Option.some.injEq,
            Prod.mk.injEq] at hmain
          have := (dispatch_rows db host _ _ r.1 r.2 hd).1
          rw [hmain.1] at this
          exact this

/-- A run of C21: the request `process_add_person` that adds Max to the family
store keeps the four people and the four relationship rows. -/
theorem request_keeps_rows_witness :
    (∀ r ∈ family_store.people, ∃ r2 ∈ add_child_store.people, r2.id = r.id)
    ∧ family_store.relationships <+: add_child_store.relationships :=
  have h := request_keeps_rows family_store add_child_request
    (parse_query_string 0 add_child_request.query_string) "process_add_person"
    add_child_store
    "<p>Person added successfully.</p>\n<a href=\"?action=view_profile&id=5\" class=\"btn-primary\">View Profile</a>\n"
    (by decide)
  ⟨h.1, h.2.2.1⟩

/-- C22 (the code departs from the claim): without a query string, with an empty
one, and whenever the lookup of `action` returns `NULL`, `main` prints the home
page and leaves the store alone, and so does every action value outside the
recognised names.  But for the query string `x=1&`, which has no `action`
parameter, the lookup of `action` runs into the second entry of the array, which
was never written, and the run does not get to the home page. -/
theorem home_default_unset_entry :
    (∀ (db : Store) (host : Host),
        host.query_string = none ∨ host.query_string = some "" →
        main db host = some (db,
          print_html_header "Family Tree" ++ show_home_page db
            ++ print_html_footer host.year))
    ∧ (∀ (db : Store) (host : Host),
        get_cgi_param (parse_query_string host.junk host.query_string) "action"
          = some none →
        main db host = some (db,
          print_html_header "Family Tree" ++ show_home_page db
            ++ print_html_footer host.year))
    ∧ (∀ (db : Store) (host : Host) (params : CGIParams) (action : String),
        action ∉ recognised_actions →
        dispatch db host params action = some (db, show_home_page db))
    ∧ parse_query_string 0 (some "x=1&") = [some ⟨"x", "1"⟩, none]
    ∧ get_cgi_param (parse_query_string 0 (some "x=1&")) "action" = none
    ∧ main family_store trailing_amp = none := by
  have hnull : ∀ (db : Store) (host : Host),
      get_cgi_param (parse_query_string host.junk host.query_string) "action"
        = some none →
      main db host = some (db,
        print_html_header "Family Tree" ++ show_home_page db
          ++ print_html_footer host.year) := by
    intro db host ha
    rw [main_of_action db host none ha (free_after_null _ "action" ha), Option.getD_none,
      dispatch_unrecognised db host _ "home" home_unrecognised]
    rfl
  refine ⟨?_, hnull, dispatch_unrecognised, by decide, by decide, by decide⟩
  intro db host hq
  apply hnull
  rcases hq with hq | hq <;> rw [hq] <;> rfl

/-! ### The labels of the family-member page -/

set_option maxRecDepth 4000 in
theorem add_family_member_page_john :
    action_add_family_member family_store (params_of [("person_id", "2")])
      = some ("<h2>Add Family Member for John Doe</h2>\n"
          ++ "<div class=\"relationship-options\">\n"
          ++ "<a href=\"?action=add_person&person_id=2&relationship_type=parent-child\" class=\"btn-primary\">Add Parent</a>\n"
          ++ "<a href=\"?action=add_person&person_id=2&relationship_type=spouse\" class=\"btn-primary\">Add Spouse</a>\n"
          ++ "<a href=\"?action=add_person&person_id=2&relationship_type=child\" class=\"btn-primary\">Add Child</a>\n"
          ++ "<a href=\"?action=view_profile&id=2\" class=\"btn-secondary\">Cancel</a>\n"
          ++ "</div>\n") := by
  decide

/-- C27 (the code departs from the claim): the labels `Add Parent` and
`Add Child` of the family-member page are exchanged.  On the page of John
(person 2 of the family store) the link `Add Child` carries
`relationship_type=child` and the link `Add Parent` carries
`relationship_type=parent-child`.  The request with `parent_id=2` and
`relationship_type=child` adds Max as person 5 and makes Max a parent of John:
`get_children(2)` still returns persons 3 and 4 only, `get_parents(5)` returns
nobody, `get_children(5)` returns John and `get_parents(2)` returns Max as
father.  The request with `relationship_type=parent-child` makes Max a child of
John. -/
theorem family_member_labels_swapped :
    action_add_family_member family_store (params_of [("person_id", "2")])
      = some ("<h2>Add Family Member for John Doe</h2>\n"
          ++ "<div class=\"relationship-options\">\n"
          ++ "<a href=\"?action=add_person&person_id=2&relationship_type=parent-child\" class=\"btn-primary\">Add Parent</a>\n"
          ++ "<a href=\"?action=add_person&person_id=2&relationship_type=spouse\" class=\"btn-primary\">Add Spouse</a>\n"
          ++ "<a href=\"?action=add_person&person_id=2&relationship_type=child\" class=\"btn-primary\">Add Child</a>\n"
          ++ "<a href=\"?action=view_profile&id=2\" class=\"btn-secondary\">Cancel</a>\n"
          ++ "</div>\n")
    ∧ (main family_store add_child_request).map Prod.fst = some add_child_store
    ∧ (get_children add_child_store 2).2.1.map (fun p => p.id) = [3, 4]
    ∧ get_parents add_child_store 5 = (0, Person.zero, Person.zero)
    ∧ (get_children add_child_store 5).2.1.map (fun p => p.id) = [2]
    ∧ (get_parents add_child_store 2).2.1.id = 5
    ∧ (main family_store add_parent_request).map Prod.fst = some add_parent_store
    ∧ (get_children add_parent_store 2).2.1.map (fun p => p.id) = [3, 4, 5]
    ∧ (get_parents add_parent_store 5).2.1.id = 2
    ∧ (get_children add_parent_store 5).2.1 = []
    ∧ get_parents add_parent_store 2 = (0, Person.zero, Person.zero) := by
  refine ⟨add_family_member_page_john, by decide, by decide, by decide, by decide,
    by decide, by decide, by decide, by decide, by decide, by decide⟩

/-! ### Entries never written and the unassigned `hex` -/

/-- The `hex` of the decoding loop keeps what the last converted escape stored:
in `%41%zz%42%zz` the two escapes that convert nothing repeat the byte before
them, whatever `hex` held at the start, and the same holds from one token to the
next. -/
theorem hex_kept_between_escapes (junk : Int) :
    parse_query_string junk (some "k=%41%zz%42%zz") = [some ⟨"k", "AABB"⟩]
    ∧ parse_query_string junk (some "a=%41&b=%zz") = [some ⟨"a", "A"⟩, some ⟨"b", "A"⟩]
    ∧ hex_after junk "%41%zz%42%zz".data = 66
    ∧ hex_after junk "%zz".data = junk :=
  ⟨rfl, rfl, rfl, rfl⟩

/-- The cleanup at the end of `main` frees the name and the value of every
entry: for `action=view_profile&id=1&` both lookups succeed and the page of
person 1 is produced, and `free_cgi_params` then reads the entry that was never
written. -/
theorem main_frees_unset_entry (junk : Int) :
    parse_query_string junk (some "action=view_profile&id=1&")
      = [some ⟨"action", "view_profile"⟩, some ⟨"id", "1"⟩, none]
    ∧ (dispatch family_store ⟨some "action=view_profile&id=1&", "", junk, 1, 2, 2026⟩
        (parse_query_string junk (some "action=view_profile&id=1&")) "view_profile").isSome
        = true
    ∧ free_cgi_params (parse_query_string junk (some "action=view_profile&id=1&")) = none
    ∧ main family_store ⟨some "action=view_profile&id=1&", "", junk, 1, 2, 2026⟩ = none
    ∧ free_cgi_params (parse_query_string junk (some "action=view_profile&id=1"))
        = some ()
    ∧ free_cgi_params (parse_query_string junk none) = some () :=
  ⟨rfl, rfl, rfl, rfl, rfl, rfl⟩

/-- C28 (the code departs from the claim): `count` is one more than the number
of `&`, while `strtok` returns only the non-empty tokens.  For `a=1&`, `&a=1`
and `a=1&&b=2` the last entry of the array is never written, for `&` neither of
the two entries is; the lookup of `b` in the list for `a=1&` reads the unwritten
second entry. -/
theorem parse_query_string_unset_entries (junk : Int) :
    parse_query_string junk (some "a=1&") = [some ⟨"a", "1"⟩, none]
    ∧ parse_query_string junk (some "&a=1") = [some ⟨"a", "1"⟩, none]
    ∧ parse_query_string junk (some "a=1&&b=2")
        = [some ⟨"a", "1"⟩, some ⟨"b", "2"⟩, none]
    ∧ parse_query_string junk (some "&") = [none, none]
    ∧ get_cgi_param (parse_query_string junk (some "a=1&")) "b" = none
    ∧ get_cgi_param (parse_query_string junk (some "a=1&")) "a" = some (some "1") := by
  exact ⟨rfl, rfl, rfl, rfl, rfl, rfl⟩

/-- C29 (the code departs from the claim): the result of `sscanf` is not
checked.  For the value `%zz` nothing is converted, `hex` is never assigned and
the byte written is whatever `hex` held: with 0 there the value of `k` is empty,
with 65 it is `A`, so two parses of `k=%zz` can differ.  Nor do the two
characters after `%` alone fix the byte when one is converted: in `% 41` and
`% 42` they are a space and `4`, and the bytes written are `A` and `B`. -/
theorem percent_decode_unassigned :
    sscanf_2x "zz".data = none
    ∧ (∀ junk : Int, parse_query_string junk (some "k=%zz")
        = [some ⟨"k", String.mk (c_string [char_of_int junk])⟩])
    ∧ parse_query_string 0 (some "k=%zz") = [some ⟨"k", ""⟩]
    ∧ parse_query_string 65 (some "k=%zz") = [some ⟨"k", "A"⟩]
    ∧ parse_query_string 0 (some "k=%zz") ≠ parse_query_string 65 (some "k=%zz")
    ∧ (∀ junk : Int, parse_query_string junk (some "k=% 41") = [some ⟨"k", "A1"⟩]
        ∧ parse_query_string junk (some "k=% 42") = [some ⟨"k", "B2"⟩]) := by
  exact ⟨by decide, fun _ => rfl, by decide, by decide, by decide, fun _ => ⟨rfl, rfl⟩⟩

/-! ### The buffer of `html_escape` -/

theorem foldl_extra (str : List Char) (n : Nat) :
    str.foldl (fun escaped_len c => escaped_len + html_escape_extra c) n
      = n + (str.map html_escape_extra).sum := by
  induction str generalizing n with
  | nil => simp
  | cons c str ih => simp [ih, Nat.add_assoc]

theorem entity_length (c : Char) :
    (escape_entity c).length = 1 + html_escape_extra c := by
  unfold escape_entity html_escape_extra
  split_ifs <;> rfl

theorem join_cons_length (a : String) (l : List String) :
    (String.join (a :: l)).length = a.length + (String.join l).length := by
  simp only [String.length, String.data_join, List.map_cons, List.flatten_cons,
    List.length_append]

theorem join_entity_length (str : List Char) :
    (String.join (str.map escape_entity)).length
      = str.length + (str.map html_escape_extra).sum := by
  induction str with
  | nil => rfl
  | cons c str ih =>
    have h : (String.join ((c :: str).map escape_entity)).length
        = (escape_entity c).length + (String.join (str.map escape_entity)).length := by
      rw [List.map_cons, join_cons_length]
    rw [h, ih, entity_length]
    simp only [List.length_cons, List.map_cons, List.sum_cons]
    omega

theorem html_escape_len_eq (str : List Char) :
    html_escape_len str = (String.join (str.map escape_entity)).length := by
  unfold html_escape_len
  rw [foldl_extra, join_entity_length]

theorem html_escape_fill_in_some (size : Nat) (str escaped : List Char) (j : Nat)
    (h : j + (String.join (str.map escape_entity)).length + 1 ≤ size) :
    html_escape_fill_in size str escaped j = some (html_escape_fill str escaped j) := by
  induction str generalizing escaped j with
  | nil => rfl
  | cons c str ih =>
    have hlen : (String.join ((c :: str).map escape_entity)).length
        = (escape_entity c).length + (String.join (str.map escape_entity)).length := by
      rw [List.map_cons, join_cons_length]
    rw [hlen, entity_length] at h
    unfold html_escape_extra at h
    unfold html_escape_fill_in html_escape_fill
    split_ifs at h ⊢ <;> first
      | exact ih _ _ (by omega)
      | omega

/-- C30: for every string the length computed by the counting pass of
`html_escape` is the index `j` that the filling pass ends with, that is the
number of bytes written before the final terminator; and run on the
`escaped_len + 1` bytes allocated, no write of the filling pass (the terminator
that each `strcpy` of an entity appends included) and not the final NUL falls
outside the buffer, so the run gives the result of `html_escape`.  A buffer one
byte shorter does not hold the entity of `&`. -/
theorem html_escape_in_bounds (s : String) :
    (html_escape_fill s.toList [] 0).2 = html_escape_len s.toList
    ∧ html_escape_fill_in (html_escape_len s.toList + 1) s.toList [] 0
        = some (html_escape_fill s.toList [] 0)
    ∧ (html_escape_fill s.toList [] 0).2 + 1 ≤ html_escape_len s.toList + 1
    ∧ html_escape_in_buffer s = some (html_escape (some s))
    ∧ html_escape_len "&".toList = 5
    ∧ html_escape_fill_in 5 "&".toList [] 0 = none := by
  have h1 : (html_escape_fill s.toList [] 0).2 = html_escape_len s.toList := by
    rw [html_escape_fill_snd, html_escape_len_eq, Nat.zero_add]
  have h2 := html_escape_fill_in_some (html_escape_len s.toList + 1) s.toList [] 0
    (by rw [html_escape_len_eq]; omega)
  refine ⟨h1, h2, by omega, ?_, by decide, by decide⟩
  unfold html_escape_in_buffer
  simp only
  rw [h2]
  simp only [h1, le_refl, if_true]
  rfl

/-! ### The shape of the rendered tree -/

theorem child_cards_eq (db : Store) (parent_id : Int) :
    (select_children db parent_id).map (fun row => render_person_card row.toPerson)
      = child_cards db parent_id := by
  unfold select_children child_cards child_rows get_person_by_id
  induction db.relationships with
  | nil => rfl
  | cons r rels ih =>
    by_cases hc : r.person1_id = parent_id ∧ r.relationship_type = RelType.parent_child
    · rcases hs : select_person db r.person2_id with _ | row
      · simp only [List.filterMap_cons, hc, and_self, if_true, hs, List.filter_cons,
          decide_True, Option.map_none']
        exact ih
      · simp only [List.filterMap_cons, hc, and_self, if_true, hs, List.filter_cons,
          decide_True, Option.map_some', List.map_cons]
        rw [ih]
    · simp only [List.filterMap_cons, hc, if_false, List.filter_cons, decide_False]
      exact ih

theorem render_children_block_eq (db : Store) (root_id : Int) :
    render_children_block db root_id
      = "<div class=\"tree-children\">\n" ++ String.join (child_cards db root_id)
        ++ "</div>\n" := by
  unfold render_children_block
  rw [child_cards_eq]

theorem string_append_empty (s : String) : s ++ "" = s := by
  apply String.ext
  simp

theorem render_step_one (call : Int → Int → Option String) (db : Store)
    (root_id : Int) (person : Person)
    (hp : get_person_by_id db root_id = some person) :
    render_family_tree_step call db root_id 1
      = some ("<div class=\"tree-level\">\n" ++ render_person_card person
          ++ (if (get_spouse db root_id).1 = 0 then render_person_card (get_spouse db root_id).2
              else "")
          ++ render_children_block db root_id ++ "</div>\n") := by
  unfold render_family_tree_step
  have h0 : ¬ ((1 : Int) ≤ 0) := by decide
  have h1 : ¬ ((1 : Int) > 1) := by decide
  rw [if_neg h0]
  simp only [hp, h1, if_false, Option.map_some', string_append_empty]

theorem render_step_more (call : Int → Int → Option String) (db : Store)
    (root_id levels : Int) (person : Person) (father_tree mother_tree : String)
    (hp : get_person_by_id db root_id = some person) (hl : 1 < levels)
    (hf : (if (get_parents db root_id).2.1.id ≠ 0
            then call (get_parents db root_id).2.1.id (levels - 1) else some "")
          = some father_tree)
    (hm : (if (get_parents db root_id).2.2.id ≠ 0
            then call (get_parents db root_id).2.2.id (levels - 1) else some "")
          = some mother_tree) :
    render_family_tree_step call db root_id levels
      = some ("<div class=\"tree-level\">\n" ++ render_person_card person
          ++ (if (get_spouse db root_id).1 = 0 then render_person_card (get_spouse db root_id).2
              else "")
          ++ ("<div class=\"tree-parents\">\n" ++ father_tree ++ mother_tree ++ "</div>\n")
          ++ render_children_block db root_id ++ "</div>\n") := by
  unfold render_family_tree_step
  have h0 : ¬ (levels ≤ 0) := by omega
  have hrc : (get_parents db root_id).1 = 0 := rfl
  rw [if_neg h0]
  simp only [hp, gt_iff_lt, hl, if_true, hrc, hf, hm, Option.map_some']

/-- With enough fuel a recursive call of `render_family_tree` returns. -/
theorem render_call_some (db : Store) (fuel : Nat) (id levels : Int)
    (hfuel : levels.toNat < fuel) :
    ∃ tree, render_family_tree fuel db id levels = some tree := by
  have h := render_fuel db levels.toNat fuel id levels (le_refl _) hfuel
  obtain ⟨tree, htree⟩ := Option.isSome_iff_exists.mp h.2
  exact ⟨tree, by rw [h.1, htree]⟩

theorem parent_call_some (db : Store) (fuel : Nat) (id levels : Int)
    (hfuel : levels.toNat < fuel) :
    ∃ tree, (if id ≠ 0 then render_family_tree fuel db id levels else some "")
      = some tree := by
  by_cases h : id ≠ 0
  · rw [if_pos h]
    exact render_call_some db fuel id levels hfuel
  · rw [if_neg h]
    exact ⟨"", rfl⟩

/-- The text printed for an existing person: level, card, spouse card, parents
block, children block. -/
theorem render_structure (db : Store) (root_id levels : Int) (person : Person)
    (fuel : Nat) (hp : get_person_by_id db root_id = some person) (hl : 1 ≤ levels)
    (hfuel : levels.toNat ≤ fuel) :
    ∃ parents_block,
      render_family_tree (fuel + 1) db root_id levels
        = some ("<div class=\"tree-level\">\n" ++ render_person_card person
            ++ (if (get_spouse db root_id).1 = 0
                then render_person_card (get_spouse db root_id).2 else "")
            ++ parents_block ++ render_children_block db root_id ++ "</div>\n")
      ∧ (levels = 1 → parents_block = "")
      ∧ (1 < levels → ∃ father_tree mother_tree,
          (if (get_parents db root_id).2.1.id ≠ 0
            then render_family_tree fuel db (get_parents db root_id).2.1.id (levels - 1)
            else some "") = some father_tree
          ∧ (if (get_parents db root_id).2.2.id ≠ 0
            then render_family_tree fuel db (get_parents db root_id).2.2.id (levels - 1)
            else some "") = some mother_tree
          ∧ parents_block
            = "<div class=\"tree-parents\">\n" ++ father_tree ++ mother_tree ++ "</div>\n") := by
  rw [render_family_tree_succ]
  by_cases h1 : levels = 1
  · subst h1
    refine ⟨"", ?_, fun _ => rfl, fun h => absurd h (by decide)⟩
    rw [render_step_one _ db root_id person hp, string_append_empty]
  · have hl1 : 1 < levels := by omega
    have hsub : (levels - 1).toNat < fuel := by omega
    obtain ⟨father_tree, hf⟩ := parent_call_some db fuel (get_parents db root_id).2.1.id
      (levels - 1) hsub
    obtain ⟨mother_tree, hm⟩ := parent_call_some db fuel (get_parents db root_id).2.2.id
      (levels - 1) hsub
    refine ⟨"<div class=\"tree-parents\">\n" ++ father_tree ++ mother_tree ++ "</div>\n",
      render_step_more _ db root_id levels person father_tree mother_tree hp hl1 hf hm,
      fun h => absurd h h1, fun _ => ⟨father_tree, mother_tree, hf, hm, rfl⟩⟩

theorem join_mem_split {α : Type} (f : α → String) (l : List α) (x : α) (hx : x ∈ l) :
    ∃ d e, String.join (l.map f) = d ++ f x ++ e := by
  obtain ⟨s, t, rfl⟩ := List.mem_iff_append.mp hx
  refine ⟨String.join (s.map f), String.join (t.map f), ?_⟩
  apply String.ext
  simp [String.data_join, String.data_append]

theorem card_ne_empty (person : Person) (h : person.id ≠ 0) :
    render_person_card person ≠ "" := by
  unfold render_person_card
  rw [if_neg h]
  intro heq
  have := congrArg String.length heq
  simp only [String.length_append] at this
  have h2 : 0 < "<div class=\"person-card ".length := by decide
  have h3 : "".length = 0 := rfl
  omega

theorem length_filterMap_isSome {α β : Type} (f : α → Option β) (l : List α) :
    (l.filterMap f).length = (l.filter (fun x => (f x).isSome)).length := by
  induction l with
  | nil => rfl
  | cons a l ih =>
    rcases h : f a with _ | b
    · simp [List.filterMap_cons, List.filter_cons, h, ih]
    · simp [List.filterMap_cons, List.filter_cons, h, ih]

set_option maxRecDepth 4000 in
theorem eve_tree :
    render_family_tree 2 eve_store 1 1
      = some ("<div class=\"tree-level\">\n"
          ++ render_person_card ⟨1, some "Eve", some "Doe", 'F', none, none, none, none, 10, 10⟩
          ++ ("<div class=\"tree-children\">\n" ++ "</div>\n") ++ "</div>\n") := by
  decide

/-- C23 (as the claim states it, refuted): in `eve_store` person 1 exists and
one `parent-child` row has `person1_id = 1`; its `person2_id` 3 names no person.
The claim has `render_family_tree(1, 1)` emit one card for that row; the
children block printed holds no card. -/
theorem tree_children_dangling_row :
    get_person_by_id eve_store 1
      = some ⟨1, some "Eve", some "Doe", 'F', none, none, none, none, 10, 10⟩
    ∧ child_rows eve_store 1 = [⟨1, 1, 3, RelType.parent_child, none, none, 20, 20⟩]
    ∧ get_person_by_id eve_store 3 = none
    ∧ child_cards eve_store 1 = []
    ∧ render_family_tree 2 eve_store 1 1
      = some ("<div class=\"tree-level\">\n"
          ++ render_person_card ⟨1, some "Eve", some "Doe", 'F', none, none, none, none, 10, 10⟩
          ++ ("<div class=\"tree-children\">\n" ++ "</div>\n") ++ "</div>\n") := by
  exact ⟨by decide, by decide, by decide, by decide, eve_tree⟩

/-- C23 (amended): for every store, every existing root and every
`levels >= 1`, `render_family_tree(root, levels)` prints the level, the card of
the root, the card of the spouse found, a parents block and a children block.
The children block holds one card for each `parent-child` row with
`person1_id = root` whose `person2_id` names a person (as many cards as rows
when every such row names a person), whatever the value of `levels`.  With
`levels = 1` the parents block is empty and no recursive call is made; with
`levels > 1` it holds the trees of the father and of the mother that
`get_parents` returns, each rendered with `levels - 1`. -/
theorem render_family_tree_children (db : Store) (root_id levels : Int) (person : Person)
    (fuel : Nat) (hp : get_person_by_id db root_id = some person) (hl : 1 ≤ levels)
    (hfuel : levels.toNat ≤ fuel) :
    (child_cards db root_id).length
        = ((child_rows db root_id).filter (fun r =>
            (get_person_by_id db r.person2_id).isSome)).length
    ∧ ((∀ r ∈ child_rows db root_id, (get_person_by_id db r.person2_id).isSome) →
        (child_cards db root_id).length = (child_rows db root_id).length)
    ∧ (∃ parents_block,
        render_family_tree (fuel + 1) db root_id levels
          = some ("<div class=\"tree-level\">\n" ++ render_person_card person
              ++ (if (get_spouse db root_id).1 = 0
                  then render_person_card (get_spouse db root_id).2 else "")
              ++ parents_block
              ++ ("<div class=\"tree-children\">\n" ++ String.join (child_cards db root_id)
                ++ "</div>\n")
              ++ "</div>\n")
        ∧ (levels = 1 → parents_block = "")
        ∧ (1 < levels → ∃ father_tree mother_tree,
            (if (get_parents db root_id).2.1.id ≠ 0
              then render_family_tree fuel db (get_parents db root_id).2.1.id (levels - 1)
              else some "") = some father_tree
            ∧ (if (get_parents db root_id).2.2.id ≠ 0
              then render_family_tree fuel db (get_parents db root_id).2.2.id (levels - 1)
              else some "") = some mother_tree
            ∧ parents_block
              = "<div class=\"tree-parents\">\n" ++ father_tree ++ mother_tree
                ++ "</div>\n"))
    ∧ (levels = 1 → ∀ call : Int → Int → Option String,
        render_family_tree_step call db root_id levels
          = some ("<div class=\"tree-level\">\n" ++ render_person_card person
              ++ (if (get_spouse db root_id).1 = 0
                  then render_person_card (get_spouse db root_id).2 else "")
              ++ ("<div class=\"tree-children\">\n" ++ String.join (child_cards db root_id)
                ++ "</div>\n")
              ++ "</div>\n")) := by
  have hlen : (child_cards db root_id).length
      = ((child_rows db root_id).filter (fun r =>
          (get_person_by_id db r.person2_id).isSome)).length := by
    unfold child_cards
    rw [List.length_map, length_filterMap_isSome]
  refine ⟨hlen, ?_, ?_, ?_⟩
  · intro hall
    rw [hlen, List.filter_eq_self.mpr hall]
  · have h := render_structure db root_id levels person fuel hp hl hfuel
    rw [render_children_block_eq] at h
    exact h
  · intro h1 call
    rw [h1, render_step_one call db root_id person hp, render_children_block_eq]

/-- A run of C23 (amended) on the family store: John (person 2) rendered with
two levels has no parents on record, and his children block holds the cards of
Kid and Sis. -/
theorem render_family_tree_children_witness :
    (child_cards family_store 2).length = (child_rows family_store 2).length
    ∧ ∃ parents_block,
        render_family_tree 3 family_store 2 2
          = some ("<div class=\"tree-level\">\n"
              ++ render_person_card
                  ⟨2, some "John", some "Doe", 'M', none, none, none, none, 110, 110⟩
              ++ (if (get_spouse family_store 2).1 = 0
                  then render_person_card (get_spouse family_store 2).2 else "")
              ++ parents_block
              ++ ("<div class=\"tree-children\">\n"
                ++ String.join (child_cards family_store 2) ++ "</div>\n")
              ++ "</div>\n") := by
  have h := render_family_tree_children family_store 2 2
    ⟨2, some "John", some "Doe", 'M', none, none, none, none, 110, 110⟩ 2
    (by decide) (by decide) (by decide)
  obtain ⟨pb, hpb, -, -⟩ := h.2.2.1
  exact ⟨h.2.1 (by decide), pb, hpb⟩


theorem two_fathers_reached :
    ((((process_add_person Store.empty
          (params_of [("first_name", "Al"), ("last_name", "Roe"), ("gender", "M")]) 10 11).bind
        (fun s => process_add_person s.1
          (params_of [("first_name", "Bea"), ("last_name", "Roe"), ("gender", "F"),
            ("parent_id", "1"), ("relationship_type", "spouse")]) 20 21)).bind
        (fun s => process_add_person s.1
          (params_of [("first_name", "Kid"), ("last_name", "Roe"), ("gender", "M"),
            ("parent_id", "1"), ("relationship_type", "parent-child")]) 30 31)).bind
        (fun s => process_add_person s.1
          (params_of [("first_name", "Carl"), ("last_name", "Poe"), ("gender", "M"),
            ("parent_id", "3"), ("relationship_type", "child")]) 40 41)).map Prod.fst
      = some two_fathers_store := by
  decide

set_option maxRecDepth 8000 in
theorem two_fathers_rendered :
    render_family_tree 3 two_fathers_store 3 2 = some two_fathers_tree
    ∧ occurs_in
        (render_person_card ⟨1, some "Al", some "Roe", 'M', none, none, none, none, 10, 10⟩)
        two_fathers_tree = false
    ∧ occurs_in
        (render_person_card ⟨2, some "Bea", some "Roe", 'F', none, none, none, none, 20, 20⟩)
        two_fathers_tree = false := by
  refine ⟨by decide, by decide, by decide⟩

/-- C24 (as the claim states it, refuted): `two_fathers_store` is what four
add-person requests leave on the empty store: Al, Bea as spouse of Al, Kid as
child of Al, and Carl entered as a parent of Kid.  Kid exists, a `parent-child`
row links Kid to the existing parent Al of gender M, and Al has the active
spouse Bea.  `get_parents` returns Carl, the later row, as father, so the text
printed for Kid with two levels holds the subtree of Carl only: neither the
card of Al nor the card of Bea occurs in it. -/
theorem ascending_walk_skips_parent :
    ((((process_add_person Store.empty
          (params_of [("first_name", "Al"), ("last_name", "Roe"), ("gender", "M")]) 10 11).bind
        (fun s => process_add_person s.1
          (params_of [("first_name", "Bea"), ("last_name", "Roe"), ("gender", "F"),
            ("parent_id", "1"), ("relationship_type", "spouse")]) 20 21)).bind
        (fun s => process_add_person s.1
          (params_of [("first_name", "Kid"), ("last_name", "Roe"), ("gender", "M"),
            ("parent_id", "1"), ("relationship_type", "parent-child")]) 30 31)).bind
        (fun s => process_add_person s.1
          (params_of [("first_name", "Carl"), ("last_name", "Poe"), ("gender", "M"),
            ("parent_id", "3"), ("relationship_type", "child")]) 40 41)).map Prod.fst
      = some two_fathers_store
    ∧ get_person_by_id two_fathers_store 3
      = some ⟨3, some "Kid", some "Roe", 'M', none, none, none, none, 30, 30⟩
    ∧ (⟨2, 1, 3, RelType.parent_child, none, none, 31, 31⟩ : RelationshipRow)
        ∈ two_fathers_store.relationships
    ∧ get_person_by_id two_fathers_store 1
      = some ⟨1, some "Al", some "Roe", 'M', none, none, none, none, 10, 10⟩
    ∧ get_spouse two_fathers_store 1
      = (0, ⟨2, some "Bea", some "Roe", 'F', none, none, none, none, 20, 20⟩)
    ∧ (get_parents two_fathers_store 3).2.1.id = 4
    ∧ render_family_tree 3 two_fathers_store 3 2 = some two_fathers_tree
    ∧ occurs_in
        (render_person_card ⟨1, some "Al", some "Roe", 'M', none, none, none, none, 10, 10⟩)
        two_fathers_tree = false
    ∧ occurs_in
        (render_person_card ⟨2, some "Bea", some "Roe", 'F', none, none, none, none, 20, 20⟩)
        two_fathers_tree = false := by
  exact ⟨two_fathers_reached, by decide, by decide, by decide, by decide, by decide,
    two_fathers_rendered.1, two_fathers_rendered.2.1, two_fathers_rendered.2.2⟩

/-- C24 (amended): in every store whose rowids are non-zero (they are positive
in every store that requests build from the empty one), let the existing root R
be linked by a `parent-child` row to an existing parent F, and let
`levels >= 2`.  Then `get_parents(R)` returns a parent P of the gender of F (the
last such parent in row order; P is F when R has no other parent of that
gender), and the text printed by `render_family_tree(R, levels)` holds the card
of R, which is not empty, at least twice: once as the root, right after the
opening of the level, and once inside the children block of the subtree of P,
which is part of the text.  That subtree starts with the card of P followed by
the card of the spouse that `get_spouse(P)` finds. -/
theorem ascending_walk_duplicates (db : Store) (R levels : Int) (fuel : Nat)
    (rowR rowF : PeopleRow) (r : RelationshipRow)
    (hnz : ∀ row ∈ db.people, row.id ≠ 0)
    (hR : select_person db R = some rowR)
    (hr : r ∈ db.relationships) (hty : r.relationship_type = RelType.parent_child)
    (hchild : r.person2_id = R)
    (hF : select_person db r.person1_id = some rowF)
    (hl : 2 ≤ levels) (hfuel : levels.toNat ≤ fuel) :
    ∃ rowP : PeopleRow,
      rowP ∈ select_parents db R ∧ rowP.gender = rowF.gender
      ∧ rowP.toPerson
          = (if rowF.gender = Gender.M then (get_parents db R).2.1
             else (get_parents db R).2.2)
      ∧ ((∀ row ∈ select_parents db R, row.gender = rowF.gender → row = rowF) →
          rowP = rowF)
      ∧ render_person_card rowR.toPerson ≠ ""
      ∧ ∃ subtree a b c d e,
          render_family_tree fuel db rowP.id (levels - 1) = some subtree
          ∧ subtree
            = "<div class=\"tree-level\">\n" ++ render_person_card rowP.toPerson
              ++ (if (get_spouse db rowP.id).1 = 0
                  then render_person_card (get_spouse db rowP.id).2 else "")
              ++ c ++ "<div class=\"tree-children\">\n" ++ d
              ++ render_person_card rowR.toPerson ++ e ++ "</div>\n" ++ "</div>\n"
          ∧ render_family_tree (fuel + 1) db R levels
            = some ("<div class=\"tree-level\">\n" ++ render_person_card rowR.toPerson
                ++ a ++ subtree ++ b) := by
  have hmemF : rowF ∈ select_parents db R :=
    (mem_select_parents db R rowF).mpr ⟨r, hr, hchild, hty, hF⟩
  have hrows : ∀ row ∈ select_parents db R, row.id ≠ 0 := by
    intro row hrow
    obtain ⟨r2, -, -, -, hsel⟩ := (mem_select_parents db R row).mp hrow
    exact hnz row (select_person_mem db _ row hsel)
  have hslot := parent_slot (select_parents db R) rowF.gender
  obtain ⟨rowP, hPmem, hPg, hPlast⟩ := hslot.1 (hslot.2 ⟨rowF, hmemF, rfl⟩ hrows)
  have hPparent : rowP.toPerson
      = (if rowF.gender = Gender.M then (get_parents db R).2.1
         else (get_parents db R).2.2) := by
    rw [get_parents_eq, ← hPlast]
    cases rowF.gender <;> rfl
  obtain ⟨r2, hr2, h2child, h2ty, h2sel⟩ := (mem_select_parents db R rowP).mp hPmem
  have hPid : r2.person1_id = rowP.id := (select_person_id db _ rowP h2sel).symm
  have hPne : rowP.id ≠ 0 := hrows rowP hPmem
  have hPsel : get_person_by_id db rowP.id = some rowP.toPerson := by
    unfold get_person_by_id
    rw [← hPid, h2sel]
    rfl
  have hRsel : get_person_by_id db R = some rowR.toPerson := by
    unfold get_person_by_id
    rw [hR]
    rfl
  have hRchild : rowR ∈ select_children db rowP.id :=
    (mem_select_children db rowP.id rowR).mpr ⟨r2, hr2, hPid, h2ty, by rw [h2child, hR]⟩
  have hRne : rowR.id ≠ 0 := hnz rowR (select_person_mem db R rowR hR)
  obtain ⟨k, rfl⟩ : ∃ k, fuel = k + 1 := ⟨fuel - 1, by omega⟩
  obtain ⟨c, hsub, -, -⟩ := render_structure db rowP.id (levels - 1) rowP.toPerson k hPsel
    (by omega) (by omega)
  obtain ⟨d, e, hjoin⟩ := join_mem_split (fun row => render_person_card row.toPerson)
    (select_children db rowP.id) rowR hRchild
  obtain ⟨pbR, hroot, -, hparents⟩ := render_structure db R levels rowR.toPerson (k + 1) hRsel
    (by omega) hfuel
  obtain ⟨father_tree, mother_tree, hf, hm, hpb⟩ := hparents (by omega)
  refine ⟨rowP, hPmem, hPg, hPparent, fun honly => honly rowP hPmem hPg,
    card_ne_empty rowR.toPerson hRne, ?_⟩
  have hsub2 : render_family_tree (k + 1) db rowP.id (levels - 1)
      = some ("<div class=\"tree-level\">\n" ++ render_person_card rowP.toPerson
          ++ (if (get_spouse db rowP.id).1 = 0
              then render_person_card (get_spouse db rowP.id).2 else "")
          ++ c ++ "<div class=\"tree-children\">\n" ++ d
          ++ render_person_card rowR.toPerson ++ e ++ "</div>\n" ++ "</div>\n") := by
    rw [hsub]
    unfold render_children_block
    rw [hjoin]
    simp only [String.append_assoc]
  rw [hroot, hpb]
  by_cases hg : rowF.gender = Gender.M
  · rw [if_pos hg] at hPparent
    have hid : (get_parents db R).2.1.id = rowP.id := by rw [← hPparent]; rfl
    rw [hid, if_pos hPne, hsub2] at hf
    refine ⟨_, (if (get_spouse db R).1 = 0 then render_person_card (get_spouse db R).2
        else "") ++ "<div class=\"tree-parents\">\n",
      mother_tree ++ "</div>\n" ++ render_children_block db R ++ "</div>\n",
      c, d, e, hsub2, rfl, ?_⟩
    rw [← Option.some.inj hf]
    simp only [String.append_assoc]
  · rw [if_neg hg] at hPparent
    have hid : (get_parents db R).2.2.id = rowP.id := by rw [← hPparent]; rfl
    rw [hid, if_pos hPne, hsub2] at hm
    refine ⟨_, (if (get_spouse db R).1 = 0 then render_person_card (get_spouse db R).2
        else "") ++ "<div class=\"tree-parents\">\n" ++ father_tree,
      "</div>\n" ++ render_children_block db R ++ "</div>\n",
      c, d, e, hsub2, rfl, ?_⟩
    rw [← Option.some.inj hm]
    simp only [String.append_assoc]

/-- A run of C24 (amended) on the family store: Kid (person 3) is linked to
John, his only father; the text printed for Kid with two levels holds the
subtree of John, and in it the card of Kid. -/
theorem ascending_walk_duplicates_witness :
    ∃ rowP : PeopleRow,
      (rowP.gender = Gender.M
        ∧ rowP = ⟨2, "John", "Doe", Gender.M, none, none, none, none, 110, 110⟩)
      ∧ ∃ subtree a b c d e,
          render_family_tree 2 family_store rowP.id (2 - 1) = some subtree
          ∧ subtree
            = "<div class=\"tree-level\">\n" ++ render_person_card rowP.toPerson
              ++ (if (get_spouse family_store rowP.id).1 = 0
                  then render_person_card (get_spouse family_store rowP.id).2 else "")
              ++ c ++ "<div class=\"tree-children\">\n" ++ d
              ++ render_person_card
                  ⟨3, some "Kid", some "Doe", 'M', none, none, none, none, 120, 120⟩
              ++ e ++ "</div>\n" ++ "</div>\n"
          ∧ render_family_tree (2 + 1) family_store 3 2
            = some ("<div class=\"tree-level\">\n"
                ++ render_person_card
                    ⟨3, some "Kid", some "Doe", 'M', none, none, none, none, 120, 120⟩
                ++ a ++ subtree ++ b) := by
  obtain ⟨rowP, hmem, hg, -, honly, -, htree⟩ := ascending_walk_duplicates family_store 3 2 2
    ⟨3, "Kid", "Doe", Gender.M, none, none, none, none, 120, 120⟩
    ⟨2, "John", "Doe", Gender.M, none, none, none, none, 110, 110⟩
    ⟨2, 2, 3, RelType.parent_child, none, none, 121, 121⟩
    (by decide) (by decide) (by decide) (by decide) (by decide) (by decide) (by decide)
    (by decide)
  exact ⟨rowP, ⟨hg, honly (by decide)⟩, htree⟩

/-! ### The depth of the JSON tree -/

theorem mapM_option_mem {α β : Type} (f : α → Option β) (l : List α) (out : List β)
    (h : l.mapM f = some out) : ∀ y ∈ out, ∃ x ∈ l, f x = some y := by
  induction l generalizing out with
  | nil =>
    simp only [List.mapM_nil] at h
    cases h
    intro y hy
    simp at hy
  | cons a l ih =>
    rw [List.mapM_cons] at h
    rcases hfa : f a with _ | b
    · rw [hfa] at h
      simp only [Option.bind_eq_bind, Option.none_bind] at h
      cases h
    rcases hl : l.mapM f with _ | bs
    · rw [hfa, hl] at h
      simp only [Option.bind_eq_bind, Option.some_bind, Option.none_bind] at h
      cases h
    rw [hfa, hl] at h
    simp only [Option.pure_def, Option.bind_eq_bind, Option.some_bind,
      Option.some.injEq] at h
    subst h
    intro y hy
    rcases List.mem_cons.mp hy with h1 | h1
    · exact ⟨a, List.mem_cons_self _ _, by rw [hfa, h1]⟩
    · obtain ⟨x, hx, hfx⟩ := ih bs hl y h1
      exact ⟨x, List.mem_cons_of_mem _ hx, hfx⟩

theorem mapM_option_const {α β : Type} (f : α → Option β) (c : β) (l : List α)
    (h : ∀ x ∈ l, f x = some c) : l.mapM f = some (List.replicate l.length c) := by
  induction l with
  | nil => rfl
  | cons a l ih =>
    rw [List.mapM_cons, h a (List.mem_cons_self _ _),
      ih (fun x hx => h x (List.mem_cons_of_mem _ hx))]
    rfl

theorem json_depth_zero (db : Store) (out : String) (h : JsonDepth db 0 out) :
    out = "null" := by
  cases h
  rfl

theorem json_depth (db : Store) :
    ∀ (fuel : Nat) (person_id levels : Int) (out : String),
      generate_tree_json fuel db person_id levels = some out →
      JsonDepth db levels.toNat out := by
  intro fuel
  induction fuel with
  | zero =>
    intro person_id levels out h
    simp [generate_tree_json] at h
  | succ fuel ih =>
    intro person_id levels out h
    rw [generate_tree_json_succ] at h
    unfold generate_tree_json_step at h
    by_cases h0 : levels ≤ 0
    · rw [if_pos h0] at h
      cases h
      exact JsonDepth.null _
    · rw [if_neg h0] at h
      obtain ⟨n, hn⟩ : ∃ n, levels.toNat = n + 1 := ⟨levels.toNat - 1, by omega⟩
      have hn1 : (levels - 1).toNat = n := by omega
      rw [hn]
      rcases hp : get_person_by_id db person_id with _ | person
      · simp only [hp] at h
        cases h
        exact JsonDepth.null _
      · simp only [hp] at h
        by_cases hc : (get_children db person_id).1 = 0 ∧ (get_children db person_id).2.2 > 0
        · rw [if_pos hc] at h
          rcases hm : (get_children db person_id).2.1.mapM
              (fun child => generate_tree_json fuel db child.id (levels - 1)) with _ | items
          · rw [hm] at h
            exact absurd h (by simp)
          · rw [hm] at h
            simp only [Option.map_some', Option.some.injEq] at h
            rw [← h]
            apply JsonDepth.node
            intro item hitem
            obtain ⟨child, -, hchild⟩ := mapM_option_mem _ _ _ hm item hitem
            have := ih child.id (levels - 1) item hchild
            rwa [hn1] at this
        · rw [if_neg hc] at h
          simp only [Option.map_some', Option.some.injEq] at h
          rw [← h]
          exact JsonDepth.leaf _ _ _

theorem json_one_level (db : Store) (person_id : Int) (person : Person) (fuel : Nat)
    (hp : get_person_by_id db person_id = some person) :
    generate_tree_json (fuel + 2) db person_id 1
      = some (tree_json_head db person_id person
          ++ (if (get_children db person_id).2.2 > 0 then
                "  \"children\": [\n"
                ++ String.intercalate ",\n"
                    (List.replicate (select_children db person_id).length "null")
                ++ "\n  ]"
              else "  \"children\": []")
          ++ "\n\x7d") := by
  rw [generate_tree_json_succ]
  unfold generate_tree_json_step
  have h0 : ¬ ((1 : Int) ≤ 0) := by decide
  rw [if_neg h0]
  simp only [hp]
  have hrc : (get_children db person_id).1 = 0 := by
    unfold get_children
    simp only
    split_ifs <;> rfl
  by_cases hc : (get_children db person_id).2.2 > 0
  · rw [if_pos ⟨hrc, hc⟩, if_pos hc]
    have hm := mapM_option_const
      (fun child : Person => generate_tree_json (fuel + 1) db child.id (1 - 1)) "null"
      (get_children db person_id).2.1
      (fun child _ => by simp [generate_tree_json])
    have hlen : (get_children db person_id).2.1.length
        = (select_children db person_id).length := by
      unfold get_children at hc ⊢
      simp only at hc ⊢
      split_ifs at hc ⊢ with hpos
      · simp
      · exfalso
        exact hpos hc
    rw [hm, hlen]
    rfl
  · rw [if_neg (fun h => hc h.2), if_neg hc]
    rfl

theorem select_children_length (db : Store) (parent_id : Int) :
    (select_children db parent_id).length
      = ((child_rows db parent_id).filter (fun r =>
          (get_person_by_id db r.person2_id).isSome)).length := by
  have h := congrArg List.length (child_cards_eq db parent_id)
  rw [List.length_map] at h
  rw [h]
  unfold child_cards
  rw [List.length_map, length_filterMap_isSome]

/-- C25 (as the claim states it, refuted): in `eve_store` person 1 exists and
has one child row, the `parent-child` row `(1, 3)`, whose `person2_id` names no
person.  With `levels = 1` the claim has the `children` array consist of one
`null`; the array printed is `[]`. -/
theorem json_children_dangling_row :
    get_person_by_id eve_store 1
      = some ⟨1, some "Eve", some "Doe", 'F', none, none, none, none, 10, 10⟩
    ∧ child_rows eve_store 1 = [⟨1, 1, 3, RelType.parent_child, none, none, 20, 20⟩]
    ∧ get_person_by_id eve_store 3 = none
    ∧ generate_tree_json 2 eve_store 1 1
      = some (tree_json_head eve_store 1
            ⟨1, some "Eve", some "Doe", 'F', none, none, none, none, 10, 10⟩
          ++ "  \"children\": []" ++ "\n\x7d")
    ∧ generate_tree_json 2 eve_store 1 1
      ≠ some (tree_json_head eve_store 1
            ⟨1, some "Eve", some "Doe", 'F', none, none, none, none, 10, 10⟩
          ++ ("  \"children\": [\n" ++ String.intercalate ",\n" ["null"] ++ "\n  ]")
          ++ "\n\x7d") := by
  refine ⟨by decide, by decide, by decide, by decide, by decide⟩

/-- C25 (amended): in the JSON export every child is generated with
`levels - 1`.  For every store and existing person p, one activation of
`generate_tree_json(p, levels)` with `levels > 0` prints the head of the object
and one text per row of the children query, each produced by a recursive call
with `levels - 1`; the text printed never nests person objects more than
`levels` deep (at depth 0 it is `null`); with `levels = 1` and k >= 1
`parent-child` rows with `person1_id = p` whose `person2_id` names a person
(all the child rows of p, when each of them names a person) the `children`
array consists of exactly k entries `null`, and with no such row it is `[]`. -/
theorem json_children_levels (db : Store) (person_id : Int) (person : Person)
    (hp : get_person_by_id db person_id = some person) :
    (∀ (call : Int → Int → Option String) (levels : Int), 0 < levels →
      generate_tree_json_step call db person_id levels
        = (if (get_children db person_id).1 = 0 ∧ (get_children db person_id).2.2 > 0 then
            ((get_children db person_id).2.1.mapM
                (fun child => call child.id (levels - 1))).map
              (fun items => "  \"children\": [\n" ++ String.intercalate ",\n" items
                ++ "\n  ]")
          else some "  \"children\": []").map
            (fun children_block =>
              tree_json_head db person_id person ++ children_block ++ "\n\x7d"))
    ∧ (∀ (fuel : Nat) (levels : Int) (out : String),
        generate_tree_json fuel db person_id levels = some out →
        JsonDepth db levels.toNat out)
    ∧ (∀ out : String, JsonDepth db 0 out → out = "null")
    ∧ (∀ (fuel k : Nat),
        ((child_rows db person_id).filter (fun r =>
          (get_person_by_id db r.person2_id).isSome)).length = k + 1 →
        generate_tree_json (fuel + 2) db person_id 1
          = some (tree_json_head db person_id person
              ++ ("  \"children\": [\n"
                ++ String.intercalate ",\n" (List.replicate (k + 1) "null") ++ "\n  ]")
              ++ "\n\x7d"))
    ∧ (∀ (fuel k : Nat),
        (∀ r ∈ child_rows db person_id, (get_person_by_id db r.person2_id).isSome) →
        (child_rows db person_id).length = k + 1 →
        generate_tree_json (fuel + 2) db person_id 1
          = some (tree_json_head db person_id person
              ++ ("  \"children\": [\n"
                ++ String.intercalate ",\n" (List.replicate (k + 1) "null") ++ "\n  ]")
              ++ "\n\x7d"))
    ∧ (∀ fuel : Nat,
        (∀ r ∈ child_rows db person_id, get_person_by_id db r.person2_id = none) →
        generate_tree_json (fuel + 2) db person_id 1
          = some (tree_json_head db person_id person ++ "  \"children\": []" ++ "\n\x7d")) := by
  have hcount : (get_children db person_id).2.2
      = ((select_children db person_id).length : Int) := by
    unfold get_children
    simp only
    split_ifs <;> rfl
  have hrows : ∀ (fuel k : Nat),
      ((child_rows db person_id).filter (fun r =>
        (get_person_by_id db r.person2_id).isSome)).length = k + 1 →
      generate_tree_json (fuel + 2) db person_id 1
        = some (tree_json_head db person_id person
            ++ ("  \"children\": [\n"
              ++ String.intercalate ",\n" (List.replicate (k + 1) "null") ++ "\n  ]")
            ++ "\n\x7d") := by
    intro fuel k hk
    have hlen : (select_children db person_id).length = k + 1 := by
      rw [select_children_length, hk]
    have hpos : (get_children db person_id).2.2 > 0 := by
      rw [hcount, hlen]
      exact_mod_cast Nat.succ_pos k
    rw [json_one_level db person_id person fuel hp, if_pos hpos, hlen]
  refine ⟨?_, fun fuel levels out h => json_depth db fuel person_id levels out h,
    json_depth_zero db, hrows, ?_, ?_⟩
  · intro call levels hpos
    unfold generate_tree_json_step
    have h0 : ¬ (levels ≤ 0) := by omega
    rw [if_neg h0]
    simp only [hp]
  · intro fuel k hall hk
    apply hrows fuel k
    rw [List.filter_eq_self.mpr hall, hk]
  · intro fuel hnone
    have hlen : (select_children db person_id).length = 0 := by
      rw [select_children_length, List.length_eq_zero, List.filter_eq_nil_iff]
      intro r hr
      rw [hnone r hr]
      simp
    have hpos : ¬ (get_children db person_id).2.2 > 0 := by
      rw [hcount, hlen]
      decide
    rw [json_one_level db person_id person fuel hp, if_neg hpos]

/-- A run of C25 (amended) on the family store: with one level, John (person 2),
whose two child rows name Kid and Sis, gets an array of two `null` entries, and
Kid (person 3), who has no child row, gets `[]`. -/
theorem json_children_levels_witness :
    generate_tree_json 2 family_store 2 1
      = some (tree_json_head family_store 2
            ⟨2, some "John", some "Doe", 'M', none, none, none, none, 110, 110⟩
          ++ ("  \"children\": [\n" ++ String.intercalate ",\n" ["null", "null"] ++ "\n  ]")
          ++ "\n\x7d")
    ∧ generate_tree_json 2 family_store 3 1
      = some (tree_json_head family_store 3
            ⟨3, some "Kid", some "Doe", 'M', none, none, none, none, 120, 120⟩
          ++ "  \"children\": []" ++ "\n\x7d") :=
  ⟨(json_children_levels family_store 2
      ⟨2, some "John", some "Doe", 'M', none, none, none, none, 110, 110⟩
      (by decide)).2.2.2.2.1 0 1 (by decide) (by decide),
    (json_children_levels family_store 3
      ⟨3, some "Kid", some "Doe", 'M', none, none, none, none, 120, 120⟩
      (by decide)).2.2.2.2.2 0 (by decide)⟩

/-! ### The decoding loop on its buffer -/

theorem take_set_self (l : List Char) (n : Nat) (a : Char) :
    (l.set n a).take n = l.take n := by
  rw [List.set_take]
  apply List.set_eq_of_length_le
  simp

theorem take_set_succ (l : List Char) (n : Nat) (a : Char) (h : n < l.length) :
    (l.set n a).take (n + 1) = l.take n ++ [a] := by
  rw [List.take_succ, take_set_self, List.getElem?_set_self h]
  rfl

theorem url_decode_cons_plain (junk : Int) (c : Char) (rest : List Char) (h : c ≠ '%') :
    url_decode junk (c :: rest) = (if c = '+' then ' ' else c) :: url_decode junk rest := by
  rcases rest with _ | ⟨c1, _ | ⟨c2, rest⟩⟩
  · rfl
  · rfl
  · simp only [url_decode, h, if_false]
    split_ifs <;> rfl

theorem drop_head (buf : List Char) (src : Nat) (c : Char) (rest : List Char)
    (h : buf.drop src = c :: rest) :
    buf[src]? = some c ∧ buf.drop (src + 1) = rest := by
  constructor
  · have := List.getElem?_drop buf src 0
    rw [h] at this
    simpa using this.symm
  · rw [← List.tail_drop, h]
    rfl


theorem loop_end (junk : Int) (fuel : Nat) (buf : List Char) (src dst : Nat)
    (h : buf[src]? = some nul) :
    url_decode_in_buffer junk (fuel + 1) buf src dst
      = (poke buf dst nul).map (fun buf => (buf, dst)) := by
  simp only [url_decode_in_buffer, h, if_true]

theorem loop_copy (junk : Int) (fuel : Nat) (buf : List Char) (src dst : Nat) (c : Char)
    (h : buf[src]? = some c) (hnul : c ≠ nul)
    (hesc : c = '%' → escape_follows buf src = some false) :
    url_decode_in_buffer junk (fuel + 1) buf src dst
      = (poke buf dst (if c = '+' then ' ' else c)).bind (fun buf =>
          url_decode_in_buffer junk fuel buf (src + 1) (dst + 1)) := by
  simp only [url_decode_in_buffer, h, hnul, if_false]
  by_cases hplus : c = '+'
  · simp only [hplus, if_true]
  · simp only [hplus, if_false]
    by_cases hpc : c = '%'
    · simp only [hpc, if_true, hesc hpc]
    · simp only [hpc, if_false]

theorem loop_escape (junk : Int) (fuel : Nat) (buf : List Char) (src dst : Nat)
    (text : List Char) (h : buf[src]? = some '%')
    (hesc : escape_follows buf src = some true)
    (htext : string_at buf (src + 1) = some text) :
    url_decode_in_buffer junk (fuel + 1) buf src dst
      = (poke buf dst (char_of_int ((sscanf_2x text).getD junk))).bind (fun buf =>
          url_decode_in_buffer ((sscanf_2x text).getD junk) fuel buf (src + 3) (dst + 1)) := by
  have h1 : ('%' : Char) ≠ nul := by decide
  have h2 : ('%' : Char) ≠ '+' := by decide
  simp only [url_decode_in_buffer, h, h1, h2, if_false, if_true, hesc, htext]


/-- One write through `dst` followed by the rest of the loop, given what the
loop does on the shorter rest. -/
theorem loop_after_write (junk : Int) (n fuel : Nat) (buf : List Char) (src dst k : Nat)
    (x : Char) (rest : List Char)
    (ih : ∀ (rest buf : List Char) (src dst fuel : Nat),
      rest.length ≤ n → rest.length < fuel → nul ∉ rest → dst ≤ src →
      buf.drop src = rest ++ [nul] →
      ∃ buf2 dst2, url_decode_in_buffer junk fuel buf src dst = some (buf2, dst2)
        ∧ buf2.length = buf.length
        ∧ dst2 ≤ src + rest.length
        ∧ buf2.take dst2 = buf.take dst ++ url_decode junk rest
        ∧ buf2[dst2]? = some nul)
    (hlen : rest.length ≤ n) (hfuel : rest.length < fuel) (hnul : nul ∉ rest)
    (hdst : dst ≤ src) (hk : 1 ≤ k) (hdrop : buf.drop (src + k) = rest ++ [nul]) :
    ∃ buf2 dst2,
      (poke buf dst x).bind (fun buf =>
          url_decode_in_buffer junk fuel buf (src + k) (dst + 1)) = some (buf2, dst2)
      ∧ buf2.length = buf.length
      ∧ dst2 ≤ src + k + rest.length
      ∧ buf2.take dst2 = buf.take dst ++ x :: url_decode junk rest
      ∧ buf2[dst2]? = some nul := by
  have hbuf : src + k + rest.length + 1 = buf.length := by
    have := congrArg List.length hdrop
    simp only [List.length_drop, List.length_append, List.length_singleton] at this
    omega
  have hin : dst < buf.length := by omega
  obtain ⟨buf2, dst2, hrun, hl2, hd2, ht2, hn2⟩ := ih rest (buf.set dst x) (src + k) (dst + 1)
    fuel hlen hfuel hnul (by omega)
    (by rw [List.drop_set_of_lt x buf (by omega)]; exact hdrop)
  refine ⟨buf2, dst2, ?_, ?_, hd2, ?_, hn2⟩
  · simp only [poke, hin, if_true, Option.some_bind]
    exact hrun
  · rw [hl2, List.length_set]
  · rw [ht2, take_set_succ buf dst x hin, List.append_assoc]
    rfl

theorem c_string_clean (l r : List Char) (h : nul ∉ l) : c_string (l ++ nul :: r) = l := by
  unfold c_string
  refine (takeWhile_until (fun c => decide (c ≠ nul)) l r nul ?_ ?_).1
  · intro x hx
    have : x ≠ nul := fun hh => h (hh ▸ hx)
    simpa using this
  · simp

/-- The loop on a buffer whose unread part is `rest` followed by the terminator:
it ends without a read or write outside the buffer, having written the bytes of
`url_decode junk rest` from `dst` on and the terminator behind them. -/
theorem decode_loop (n : Nat) :
    ∀ (junk : Int) (rest buf : List Char) (src dst fuel : Nat),
      rest.length ≤ n → rest.length < fuel → nul ∉ rest → dst ≤ src →
      buf.drop src = rest ++ [nul] →
      ∃ buf2 dst2, url_decode_in_buffer junk fuel buf src dst = some (buf2, dst2)
        ∧ buf2.length = buf.length
        ∧ dst2 ≤ src + rest.length
        ∧ buf2.take dst2 = buf.take dst ++ url_decode junk rest
        ∧ buf2[dst2]? = some nul := by
  induction n using Nat.strong_induction_on with
  | _ n ih =>
    intro junk rest buf src dst fuel hlen hfuel hnul hdst hdrop
    obtain ⟨fuel, rfl⟩ : ∃ f, fuel = f + 1 := ⟨fuel - 1, by omega⟩
    rcases rest with _ | ⟨c, rest⟩
    · -- the terminator is read: the loop ends
      have hhead := drop_head buf src nul [] hdrop
      have hbuf : src + 1 = buf.length := by
        have := congrArg List.length hdrop
        simp only [List.length_drop, List.nil_append, List.length_singleton] at this
        omega
      have hin : dst < buf.length := by omega
      rw [loop_end junk fuel buf src dst hhead.1]
      refine ⟨buf.set dst nul, dst, ?_, List.length_set _ _ _, by omega, ?_, ?_⟩
      · simp only [poke, hin, if_true, Option.map_some']
      · rw [take_set_self]
        simp [url_decode]
      · exact List.getElem?_set_self hin
    · have hhead := drop_head buf src c (rest ++ [nul]) hdrop
      have hc : c ≠ nul := fun h => hnul (h ▸ List.mem_cons_self _ _)
      have hrest : nul ∉ rest := fun h => hnul (List.mem_cons_of_mem _ h)
      simp only [List.length_cons] at hlen hfuel
      obtain ⟨m, rfl⟩ : ∃ m, n = m + 1 := ⟨n - 1, by omega⟩
      have ihm : ∀ (junk : Int) (rest buf : List Char) (src dst fuel : Nat),
          rest.length ≤ m → rest.length < fuel → nul ∉ rest → dst ≤ src →
          buf.drop src = rest ++ [nul] →
          ∃ buf2 dst2, url_decode_in_buffer junk fuel buf src dst = some (buf2, dst2)
            ∧ buf2.length = buf.length
            ∧ dst2 ≤ src + rest.length
            ∧ buf2.take dst2 = buf.take dst ++ url_decode junk rest
            ∧ buf2[dst2]? = some nul := by
        intro junk2 rest2 buf2 src2 dst2 fuel2 h1 h2 h3 h4 h5
        exact ih rest2.length (by omega) junk2 rest2 buf2 src2 dst2 fuel2 (le_refl _) h2 h3 h4 h5
      by_cases hpc : c = '%'
      · subst hpc
        rcases rest with _ | ⟨c1, _ | ⟨c2, rest⟩⟩
        · -- `%` is the last character
          have h1 := drop_head buf (src + 1) nul [] hhead.2
          have hesc : escape_follows buf src = some false := by
            simp only [escape_follows, h1.1, if_true]
          rw [loop_copy junk fuel buf src dst '%' hhead.1 hc (fun _ => hesc)]
          obtain ⟨buf2, dst2, hrun, hl2, hd2, ht2, hn2⟩ := loop_after_write junk m fuel buf
            src dst 1 (if ('%' : Char) = '+' then ' ' else '%') [] (ihm junk) (by simp)
            (by simpa using hfuel) (by simp) hdst (le_refl _) hhead.2
          exact ⟨buf2, dst2, hrun, hl2, by simpa using hd2, by simpa [url_decode] using ht2,
            hn2⟩
        · -- `%` is followed by one character
          have hc1 : c1 ≠ nul := fun h => hrest (h ▸ List.mem_cons_self _ _)
          have h1 := drop_head buf (src + 1) c1 [nul] hhead.2
          have h2 := drop_head buf (src + 1 + 1) nul [] h1.2
          have hesc : escape_follows buf src = some false := by
            simp only [escape_follows, h1.1, hc1, if_false, h2.1]
            simp
          rw [loop_copy junk fuel buf src dst '%' hhead.1 hc (fun _ => hesc)]
          obtain ⟨buf2, dst2, hrun, hl2, hd2, ht2, hn2⟩ := loop_after_write junk m fuel buf
            src dst 1 (if ('%' : Char) = '+' then ' ' else '%') [c1] (ihm junk)
            (by simp only [List.length_cons, List.length_nil] at hlen ⊢; omega)
            (by simp only [List.length_cons, List.length_nil] at hfuel ⊢; omega)
            hrest hdst (le_refl _) hhead.2
          refine ⟨buf2, dst2, hrun, hl2, ?_, ?_, hn2⟩
          · simp only [List.length_cons, List.length_nil] at hd2 ⊢
            omega
          · rw [ht2]
            rfl
        · -- `%` is followed by two characters: an escape
          have hc1 : c1 ≠ nul := fun h => hrest (h ▸ List.mem_cons_self _ _)
          have hrest1 : nul ∉ c2 :: rest := fun h => hrest (List.mem_cons_of_mem _ h)
          have hc2 : c2 ≠ nul := fun h => hrest1 (h ▸ List.mem_cons_self _ _)
          have hrest2 : nul ∉ rest := fun h => hrest1 (List.mem_cons_of_mem _ h)
          have h1 := drop_head buf (src + 1) c1 (c2 :: rest ++ [nul]) hhead.2
          have h2 := drop_head buf (src + 1 + 1) c2 (rest ++ [nul]) h1.2
          have hesc : escape_follows buf src = some true := by
            simp only [escape_follows, h1.1, hc1, if_false, h2.1]
            simp [hc2]
          have htext : string_at buf (src + 1) = some (c1 :: c2 :: rest) := by
            have hmem : nul ∈ buf.drop (src + 1) := by
              rw [hhead.2]
              simp
            simp only [string_at, hmem, if_true, hhead.2]
            have := c_string_clean (c1 :: c2 :: rest) [] hrest
            simpa using this
          rw [loop_escape junk fuel buf src dst _ hhead.1 hesc htext]
          simp only [List.length_cons] at hlen hfuel
          obtain ⟨buf2, dst2, hrun, hl2, hd2, ht2, hn2⟩ := loop_after_write
            ((sscanf_2x (c1 :: c2 :: rest)).getD junk) m fuel buf
            src dst 3 (char_of_int ((sscanf_2x (c1 :: c2 :: rest)).getD junk)) rest (ihm _)
            (by omega) (by omega) hrest2 hdst (by omega) h2.2
          refine ⟨buf2, dst2, hrun, hl2, ?_, ?_, hn2⟩
          · simp only [List.length_cons]
            omega
          · rw [ht2]
            simp [url_decode]
      · rw [loop_copy junk fuel buf src dst c hhead.1 hc (fun h => absurd h hpc)]
        obtain ⟨buf2, dst2, hrun, hl2, hd2, ht2, hn2⟩ := loop_after_write junk m fuel buf
          src dst 1 (if c = '+' then ' ' else c) rest (ihm junk) (by omega) (by omega) hrest hdst
          (le_refl _) hhead.2
        refine ⟨buf2, dst2, hrun, hl2, ?_, ?_, hn2⟩
        · simp only [List.length_cons]
          omega
        · rw [ht2, url_decode_cons_plain junk c rest hpc]


theorem c_string_append_nul (a t : List Char) : c_string (a ++ nul :: t) = c_string a := by
  unfold c_string
  induction a with
  | nil => simp [List.takeWhile_cons]
  | cons x a ih =>
    by_cases hx : x = nul
    · simp [List.takeWhile_cons, hx]
    · simp only [List.cons_append, List.takeWhile_cons, ne_eq, hx, not_false_eq_true,
        decide_True, if_true, ih]

/-- The decoding loop run on the buffer of a value (its characters and the
terminator): no read and no write falls outside the buffer, `dst` ends at most
where the terminator stood, and the C string left in the buffer is the one that
`url_decode` describes. -/
theorem url_decode_in_buffer_value (junk : Int) (v : List Char) (hv : nul ∉ v) :
    ∃ buf dst, url_decode_in_buffer junk (v.length + 1) (v ++ [nul]) 0 0 = some (buf, dst)
      ∧ buf.length = v.length + 1
      ∧ dst ≤ v.length
      ∧ buf.take dst = url_decode junk v
      ∧ buf[dst]? = some nul
      ∧ c_string buf = c_string (url_decode junk v) := by
  obtain ⟨buf, dst, hrun, hlen, hdst, htake, hnul⟩ := decode_loop v.length junk v (v ++ [nul])
    0 0 (v.length + 1) (le_refl _) (Nat.lt_succ_self _) hv (le_refl _) rfl
  refine ⟨buf, dst, hrun, by simpa using hlen, by simpa using hdst, by simpa using htake,
    hnul, ?_⟩
  have hlt : dst < buf.length := by
    rw [hlen]
    simp only [List.length_append, List.length_singleton]
    omega
  have hsplit : buf = buf.take dst ++ nul :: buf.drop (dst + 1) := by
    have h1 := List.take_append_drop dst buf
    have h2 := List.drop_eq_getElem_cons hlt
    have h3 : buf[dst] = nul := by
      have := List.getElem?_eq_getElem hlt
      rw [hnul] at this
      exact (Option.some.inj this).symm
    rw [h2, h3] at h1
    exact h1.symm
  rw [hsplit, c_string_append_nul]
  simp only [List.take_zero, List.nil_append] at htake
  rw [htake]

theorem sscanf_2x_skip (a : Char) (s : List Char) (h : isspace a = true) :
    sscanf_2x (a :: s) = sscanf_2x s := by
  unfold sscanf_2x
  rw [List.dropWhile_cons, if_pos h]

/-- A `%` ends what `sscanf` reads: it is no white space, no sign and no digit. -/
theorem sscanf_2x_percent (s t : List Char) :
    sscanf_2x (s ++ '%' :: t) = sscanf_2x s := by
  have hsp : isspace '%' = false := by decide
  have hhex : hex_digit '%' = none := by decide
  induction s with
  | nil =>
    simp only [List.nil_append]
    unfold sscanf_2x
    rw [List.dropWhile_cons, hsp]
    simp [hhex]
  | cons a s ih =>
    by_cases ha : isspace a = true
    · rw [List.cons_append, sscanf_2x_skip a _ ha, sscanf_2x_skip a _ ha, ih]
    · unfold sscanf_2x
      rw [List.cons_append, List.dropWhile_cons, if_neg ha, List.dropWhile_cons, if_neg ha]
      simp only
      cases s with
      | nil => simp [hhex]
      | cons b s => rfl

theorem url_decode_percent_cons (junk : Int) (c1 c2 : Char) (rest : List Char) :
    url_decode junk ('%' :: c1 :: c2 :: rest)
      = char_of_int ((sscanf_2x (c1 :: c2 :: rest)).getD junk)
        :: url_decode ((sscanf_2x (c1 :: c2 :: rest)).getD junk) rest := by
  have h : ¬ (('%' : Char) = '+') := by decide
  simp only [url_decode, h, if_false, if_true]

theorem hex_after_cons_plain (junk : Int) (c : Char) (rest : List Char) (h : c ≠ '%') :
    hex_after junk (c :: rest) = hex_after junk rest := by
  rcases rest with _ | ⟨c1, _ | ⟨c2, rest⟩⟩
  · rfl
  · rfl
  · simp only [hex_after, h, if_false]
    split_ifs <;> rfl

theorem hex_after_percent_cons (junk : Int) (c1 c2 : Char) (rest : List Char) :
    hex_after junk ('%' :: c1 :: c2 :: rest)
      = hex_after ((sscanf_2x (c1 :: c2 :: rest)).getD junk) rest := by
  have h : ¬ (('%' : Char) = '+') := by decide
  simp only [hex_after, h, if_false, if_true]

/-- The loop decodes what stands before a `%` that it reaches without regard to
what follows, and goes on from there with the `hex` that this part left. -/
theorem url_decode_before_percent (n : Nat) :
    ∀ (junk : Int) (w t : List Char), w.length ≤ n → decode_boundary w = true →
      url_decode junk (w ++ '%' :: t)
        = url_decode junk w ++ url_decode (hex_after junk w) ('%' :: t) := by
  induction n using Nat.strong_induction_on with
  | _ n ih =>
    intro junk w t hlen hb
    rcases w with _ | ⟨c, w⟩
    · rfl
    · simp only [List.length_cons] at hlen
      by_cases hpc : c = '%'
      · subst hpc
        rcases w with _ | ⟨c1, _ | ⟨c2, rest⟩⟩
        · simp [decode_boundary] at hb
        · simp [decode_boundary] at hb
        · simp only [decode_boundary, if_true] at hb
          simp only [List.length_cons] at hlen
          have h := ih rest.length (by omega)
            ((sscanf_2x (c1 :: c2 :: rest)).getD junk) rest t (le_refl _) hb
          have hs := sscanf_2x_percent (c1 :: c2 :: rest) t
          simp only [List.cons_append] at hs
          rw [List.cons_append, List.cons_append, List.cons_append,
            url_decode_percent_cons, url_decode_percent_cons, hex_after_percent_cons, hs, h]
          rfl
      · have hb2 : decode_boundary w = true := by
          rcases w with _ | ⟨c1, _ | ⟨c2, rest⟩⟩
          · rfl
          · simpa [decode_boundary, hpc] using hb
          · simpa [decode_boundary, hpc] using hb
        have h := ih w.length (by omega) junk w t (le_refl _) hb2
        rw [List.cons_append, url_decode_cons_plain junk c _ hpc,
          url_decode_cons_plain junk c _ hpc, hex_after_cons_plain junk c _ hpc, h]
        rfl

theorem parse_token_value (junk : Int) (name v : List Char) (hname : '=' ∉ name) :
    parse_token junk (name ++ '=' :: v)
      = ⟨String.mk name, String.mk (c_string (url_decode junk v))⟩ := by
  have hsplit := takeWhile_name name v hname
  have hmem : '=' ∈ name ++ '=' :: v := by simp
  simp only [parse_token]
  rw [if_pos hmem, hsplit.1, hsplit.2, List.drop_one, List.tail_cons]

theorem c_string_self (l : List Char) (h : nul ∉ l) : c_string l = l := by
  unfold c_string
  rw [List.takeWhile_eq_self_iff]
  intro x hx
  have : x ≠ nul := fun hh => h (hh ▸ hx)
  simpa using this

/-- C26 (as the claim states it, refuted): the value `%4%` ends in `%`, yet the
loop decodes `%4%` as one escape, stores the byte 4 and skips the final `%`; for
the value `%+` the character after the `%` is not copied unchanged but decoded
to a space; and for `%00%` the final `%` is written behind a NUL byte, so the
value read back is empty. -/
theorem trailing_escape_swallowed :
    parse_query_string 0 (some "k=%4%") = [some ⟨"k", String.mk [chr 4]⟩]
    ∧ url_decode 0 "%4%".data = [chr 4]
    ∧ parse_query_string 0 (some "k=%+") = [some ⟨"k", "% "⟩]
    ∧ url_decode 0 "%00%".data = [nul, '%']
    ∧ parse_query_string 0 (some "k=%00%") = [some ⟨"k", ""⟩] := by
  exact ⟨by decide, by decide, by decide, by decide, by decide⟩

/-- C26 (amended): a trailing incomplete escape that the decoding loop reaches
is passed through.  When the value is `w` followed by `%` or by `%c`, and every
`%` that the loop meets in `w` has its two following characters inside `w`, the
bytes written are the decoding of `w` followed by `%` and, for `%c`, by `c`
decoded as anywhere else (`+` to a space, any other character copied); these
bytes are the stored value when the decoding of `w` wrote no NUL.  And for every
value, the loop run on the buffer of the value (its characters and the
terminator) makes no read and no write outside the buffer, ends with `dst` at
most at the old terminator, and leaves the C string that the decoding
describes. -/
theorem trailing_escape_passed (junk : Int) (name w : List Char) (c : Char)
    (hname : '=' ∉ name) (hw : decode_boundary w = true)
    (hnul : nul ∉ url_decode junk w) (hc : c ≠ nul) :
    url_decode junk (w ++ ['%']) = url_decode junk w ++ ['%']
    ∧ url_decode junk (w ++ ['%', c])
      = url_decode junk w ++ ['%', if c = '+' then ' ' else c]
    ∧ parse_token junk (name ++ '=' :: (w ++ ['%']))
      = ⟨String.mk name, String.mk (url_decode junk w ++ ['%'])⟩
    ∧ parse_token junk (name ++ '=' :: (w ++ ['%', c]))
      = ⟨String.mk name, String.mk (url_decode junk w ++ ['%', if c = '+' then ' ' else c])⟩
    ∧ (∀ v : List Char, nul ∉ v →
        ∃ buf dst,
          url_decode_in_buffer junk (v.length + 1) (v ++ [nul]) 0 0 = some (buf, dst)
          ∧ buf.length = v.length + 1
          ∧ dst ≤ v.length
          ∧ buf.take dst = url_decode junk v
          ∧ buf[dst]? = some nul
          ∧ c_string buf = c_string (url_decode junk v)) := by
  have h1 : url_decode junk (w ++ ['%']) = url_decode junk w ++ ['%'] := by
    rw [url_decode_before_percent w.length junk w [] (le_refl _) hw]
    rfl
  have h2 : url_decode junk (w ++ ['%', c])
      = url_decode junk w ++ ['%', if c = '+' then ' ' else c] := by
    rw [url_decode_before_percent w.length junk w [c] (le_refl _) hw]
    rfl
  have hpc : ('%' : Char) ≠ nul := by decide
  have hsp : (' ' : Char) ≠ nul := by decide
  have hc2 : (if c = '+' then ' ' else c) ≠ nul := by
    split_ifs
    · exact hsp
    · exact hc
  refine ⟨h1, h2, ?_, ?_, url_decode_in_buffer_value junk⟩
  · rw [parse_token_value junk name _ hname, h1, c_string_self]
    intro hmem
    rcases List.mem_append.mp hmem with h | h
    · exact hnul h
    · simp only [List.mem_singleton] at h
      exact hpc h.symm
  · rw [parse_token_value junk name _ hname, h2, c_string_self]
    intro hmem
    rcases List.mem_append.mp hmem with h | h
    · exact hnul h
    · simp only [List.mem_cons, List.mem_singleton, List.not_mem_nil, or_false] at h
      rcases h with h | h
      · exact hpc h.symm
      · exact hc2 h.symm

/-- A run of C26 (amended): the values `ab%` and `ab%c` of a parameter `k` are
stored as they stand, and the loop run on the four bytes of `ab%` and its
terminator stays inside them. -/
theorem trailing_escape_passed_witness :
    parse_token 0 ("k".data ++ '=' :: ("ab".data ++ ['%'])) = ⟨"k", "ab%"⟩
    ∧ parse_token 0 ("k".data ++ '=' :: ("ab".data ++ ['%', 'c'])) = ⟨"k", "ab%c"⟩
    ∧ ∃ buf dst,
        url_decode_in_buffer 0 ("ab%".data.length + 1) ("ab%".data ++ [nul]) 0 0
          = some (buf, dst)
        ∧ buf.length = "ab%".data.length + 1
        ∧ dst ≤ "ab%".data.length := by
  have h := trailing_escape_passed 0 "k".data "ab".data 'c' (by decide) (by decide)
    (by decide) (by decide)
  obtain ⟨buf, dst, hrun, hlen, hdst, -, -, -⟩ := h.2.2.2.2 "ab%".data (by decide)
  exact ⟨h.2.2.1.trans (by decide), h.2.2.2.1.trans (by decide), buf, dst, hrun, hlen, hdst⟩

/-- C10: on a non-null string `html_escape` is the character-by-character
concatenation of the entity table (`&` to `&amp;`, `<` to `&lt;`, `>` to `&gt;`,
the double quote to `&quot;`, the apostrophe to `&#039;`, any other character
to itself); the string `<script>&"` followed by an apostrophe escapes to
`&lt;script&gt;&amp;&quot;&#039;`; and a null input gives the empty string. -/
theorem html_escape_spec :
    (∀ s : String, html_escape (some s) = escape_concat s)
    ∧ html_escape (some (String.mk ("<script>&\"".toList ++ [apostrophe])))
        = "&lt;script&gt;&amp;&quot;&#039;"
    ∧ html_escape none = "" := by
  refine ⟨?_, ?_, rfl⟩
  · intro s
    apply String.ext
    simp [html_escape, escape_concat, html_escape_fill_fst]
  · decide

end FamilyTree
